import Mathlib

/-!
# Procedural shader engine, material parser and material entity renderer

A shallow embedding of three parts of the High Fidelity client: the procedural
descriptor (`ProceduralData`) and the procedural engine (`Procedural`) of
libraries/procedural/src/procedural/Procedural.cpp, with theorems about
descriptor equality, descriptor parsing, `setProceduralData`, `isReady`,
`prepare` and `getColor`; the material JSON parser of ProceduralMaterialCache.cpp
(`parseJSONColor`, `parseJSONMaterial`, `parseJSONMaterials`,
`downloadFinished`); and the material entity renderer of
RenderableMaterialEntityItem.cpp (`applyMaterial`, `deleteMaterial`,
`setMaterialURL`, `doRenderUpdateSynchronousTyped`, `doRender`).

Conventions of the embedding

* Qt JSON values are a tree (`QJsonValue`, `QJsonArray`, `QJsonObject`).  An
  object is the list of its members in the order `QJsonObject::keys()` reports
  them (sorted, without duplicates); functions do not require that order,
  theorems that need it assume `QJsonObject.keysSorted`.
* JSON numbers are rationals.  Narrowing to `float` is not modelled: uniform
  values are carried as read from the descriptor.
* `uint8_t` is a natural number below 256; the conversion from a double keeps
  the floor modulo 256.
* Everything the engine reads from the outside world (file system, texture and
  shader caches, clock, local 8-bit encoding) is a field of `Env`, one
  environment per call;
  `ResourceManager::normalizeURL` is a parameter of `parse`.
* A `gpu::Batch` is the list of commands recorded in it, and `prepare` also
  reports the programs it compiled.
* A material is the list of the setter calls made on it, a `std::unordered_map`
  the list of its entries (`mapSet`, `mapFind`).
* What the renderer does to the world around it (calls of the attach and detach
  resolvers, signals) is appended to a trace of `Event`s; the answer of a
  resolver is a field of `MaterialEnv` and may depend on the trace so far.
* The procedural engine of a material is passed to `doRender` and handed back
  by it; what `doRender` records goes into the same batch as the commands of
  `prepare`.
-/

namespace Hifi

/-! ## Qt JSON values -/

mutual
/-- A JSON value as held by `QJsonValue`. -/
inductive QJsonValue where
  | null
  | undefined
  | bool (b : Bool)
  | double (d : ℚ)
  | string (s : String)
  | array (a : QJsonArray)
  | object (o : QJsonObject)
  deriving DecidableEq
/-- A JSON array as held by `QJsonArray`. -/
inductive QJsonArray where
  | nil
  | cons (head : QJsonValue) (tail : QJsonArray)
  deriving DecidableEq
/-- A JSON object as held by `QJsonObject`: members in key order. -/
inductive QJsonObject where
  | nil
  | cons (key : String) (value : QJsonValue) (tail : QJsonObject)
  deriving DecidableEq
end

namespace QJsonArray

/-- Build an array from the list of its elements. -/
def ofList : List QJsonValue → QJsonArray
  | [] => .nil
  | v :: vs => .cons v (ofList vs)

/-- The elements of an array, first to last. -/
def toList : QJsonArray → List QJsonValue
  | .nil => []
  | .cons v t => v :: t.toList

/-- `QJsonArray::size()`. -/
def size (a : QJsonArray) : Nat := a.toList.length

/-- `QJsonArray::at(i)` and `operator[]`: the element, or `Undefined` out of range. -/
def atIndex (a : QJsonArray) (i : Nat) : QJsonValue := a.toList.getD i .undefined

/-- `QJsonArray::isEmpty()`. -/
def isEmpty (a : QJsonArray) : Bool := a.toList.isEmpty

end QJsonArray

namespace QJsonObject

/-- Build an object from the list of its members. -/
def ofList : List (String × QJsonValue) → QJsonObject
  | [] => .nil
  | (k, v) :: kvs => .cons k v (ofList kvs)

/-- The members of an object in key order. -/
def toList : QJsonObject → List (String × QJsonValue)
  | .nil => []
  | .cons k v t => (k, v) :: t.toList

/-- `QJsonObject::keys()`. -/
def keys (o : QJsonObject) : List String := o.toList.map Prod.fst

/-- `QJsonObject::operator[](key) const`: the member, or `Undefined` if absent. -/
def value : QJsonObject → String → QJsonValue
  | .nil, _ => .undefined
  | .cons k v t, key => if k = key then v else t.value key

/-- `QJsonObject::isEmpty()`. -/
def isEmpty (o : QJsonObject) : Bool := o.toList.isEmpty

/-- The representation invariant of `QJsonObject`: keys strictly increasing. -/
def keysSorted (o : QJsonObject) : Prop := o.keys.Pairwise (· < ·)

end QJsonObject

namespace QJsonValue

/-- `QJsonValue::isDouble()`. -/
def isDouble : QJsonValue → Bool
  | .double _ => true
  | _ => false

/-- `QJsonValue::isArray()`. -/
def isArray : QJsonValue → Bool
  | .array _ => true
  | _ => false

/-- `QJsonValue::toDouble()`: the number, or 0 for any other kind of value. -/
def toDouble : QJsonValue → ℚ
  | .double d => d
  | _ => 0

/-- `QJsonValue::toString()`: the string, or the empty string for any other kind. -/
def toString : QJsonValue → String
  | .string s => s
  | _ => ""

/-- `QJsonValue::toObject()`: the object, or the empty object for any other kind. -/
def toObject : QJsonValue → QJsonObject
  | .object o => o
  | _ => .nil

/-- `QJsonValue::toArray()`: the array, or the empty array for any other kind. -/
def toArray : QJsonValue → QJsonArray
  | .array a => a
  | _ => .nil

end QJsonValue

/-! ## URLs -/

/-- The parts of a `QUrl` the engine looks at.  `QUrl()` is the empty URL. -/
structure QUrl where
  valid : Bool := false
  scheme : String := ""
  host : String := ""
  path : String := ""
  query : String := ""
  deriving DecidableEq, Repr

namespace QUrl

/-- `QUrl::isValid()`. -/
def isValid (u : QUrl) : Bool := u.valid

/-- `QUrl::isEmpty()`: no component is set. -/
def isEmpty (u : QUrl) : Bool :=
  u.scheme.isEmpty && u.host.isEmpty && u.path.isEmpty && u.query.isEmpty

/-- `QUrl::isLocalFile()`: the scheme is `file`. -/
def isLocalFile (u : QUrl) : Bool := u.scheme == "file"

/-- `QUrl::toLocalFile()`: the path of a local-file URL, empty otherwise. -/
def toLocalFile (u : QUrl) : String := if u.isLocalFile then u.path else ""

/-- `QUrl::toString()`: the scheme, the host, the path and the query put
together with their separators; an empty component is left out together with
its separator. -/
def toString (u : QUrl) : String :=
  (if u.scheme.isEmpty then "" else u.scheme ++ ":") ++
    (if u.host.isEmpty then "" else "//" ++ u.host) ++ u.path ++
    (if u.query.isEmpty then "" else "?" ++ u.query)

end QUrl

/-- `QString::contains(const QString&)`: the second string occurs somewhere in
the first. -/
def contains (s sub : String) : Bool :=
  s.toList.tails.any (fun rest => sub.toList.isPrefixOf rest)

/-- `URL_SCHEME_QRC` of NetworkingConstants.h. -/
def URL_SCHEME_QRC : String := "qrc"

/-! ## The descriptor -/

/-- `(uint8_t)(floor(x))`: the floor of a JSON number kept in eight bits. -/
def toUInt8Floor (x : ℚ) : Nat := Int.toNat (Int.emod (Rat.floor x) 256)

/-- Modelled from the spec: the declaration of `ProceduralData` is in
Procedural.h, which is not among the sources.  Its five members are the ones
`operator==` and `parse` use (Procedural.cpp); a default-constructed descriptor
has empty Qt values and, per the spec, no version recorded, written 0. -/
structure ProceduralData where
  version : Nat := 0
  fragmentShaderUrl : QUrl := {}
  vertexShaderUrl : QUrl := {}
  uniforms : QJsonObject := .nil
  channels : QJsonArray := .nil
  deriving DecidableEq

namespace ProceduralData

/-- `operator==(const ProceduralData&, const ProceduralData&)`. -/
def equals (a b : ProceduralData) : Bool :=
  (a.version == b.version) &&
  (a.fragmentShaderUrl == b.fragmentShaderUrl) &&
  (a.vertexShaderUrl == b.vertexShaderUrl) &&
  (a.uniforms == b.uniforms) &&
  (a.channels == b.channels)

instance : BEq ProceduralData := ⟨equals⟩

/-- `ProceduralData::parse(const QJsonObject&)`, run on the descriptor `self`.
`normalizeURL` is `ResourceManager::normalizeURL`. -/
def parseInto (normalizeURL : String → QUrl) (self : ProceduralData)
    (proceduralData : QJsonObject) : ProceduralData :=
  if proceduralData.isEmpty then self
  else
    let versionJson := proceduralData.value "version"
    let version := if versionJson.isDouble then toUInt8Floor versionJson.toDouble else 1
    let self := { self with version := version }
    -- invalid version
    if versionJson.isDouble && !(version == 1 || version == 2 || version == 3) then self
    else
      -- Fragment shader URL (either fragmentShaderUrl or shaderUrl)
      let rawShaderUrl := (proceduralData.value "fragmentShaderUrl").toString
      let fragmentShaderUrl := normalizeURL rawShaderUrl
      let fragmentShaderUrl :=
        if fragmentShaderUrl.isEmpty then normalizeURL (proceduralData.value "shaderUrl").toString
        else fragmentShaderUrl
      -- Vertex shader URL
      let vertexShaderUrl := normalizeURL (proceduralData.value "vertexShaderUrl").toString
      { self with
        fragmentShaderUrl := fragmentShaderUrl
        vertexShaderUrl := vertexShaderUrl
        uniforms := (proceduralData.value "uniforms").toObject
        channels := (proceduralData.value "channels").toArray }

/-- The descriptor parsed from a JSON object: `ProceduralData result; result.parse(obj)`. -/
def parse (normalizeURL : String → QUrl) (proceduralData : QJsonObject) : ProceduralData :=
  parseInto normalizeURL {} proceduralData

/-- One assignment to a field of a descriptor under construction. -/
inductive Assign where
  | version (v : Nat)
  | fragmentShaderUrl (u : QUrl)
  | vertexShaderUrl (u : QUrl)
  | uniforms (o : QJsonObject)
  | channels (c : QJsonArray)
  deriving DecidableEq

/-- The field an assignment writes, numbered in declaration order. -/
def Assign.field : Assign → Nat
  | .version _ => 0
  | .fragmentShaderUrl _ => 1
  | .vertexShaderUrl _ => 2
  | .uniforms _ => 3
  | .channels _ => 4

/-- Perform one field assignment. -/
def assign (d : ProceduralData) : Assign → ProceduralData
  | .version v => { d with version := v }
  | .fragmentShaderUrl u => { d with fragmentShaderUrl := u }
  | .vertexShaderUrl u => { d with vertexShaderUrl := u }
  | .uniforms o => { d with uniforms := o }
  | .channels c => { d with channels := c }

/-- A descriptor built from the default one by a sequence of field assignments. -/
def build (steps : List Assign) : ProceduralData := steps.foldl assign {}

end ProceduralData

/-! ## The world outside the engine -/

/-- A handle on a shader resource of the shader cache (`NetworkShaderPointer`). -/
structure NetworkShader where
  url : QUrl
  deriving DecidableEq, Repr

/-- A handle on a texture resource of the texture cache (`NetworkTexturePointer`). -/
structure NetworkTexture where
  url : QUrl
  deriving DecidableEq, Repr

/-- A GPU texture as returned by `NetworkTexture::getGPUTexture`. -/
structure GpuTexture where
  id : Nat
  deriving DecidableEq, Repr

/-- `QDateTime::currentDateTimeUtc()` split into the parts the engine reads. -/
structure DateTime where
  year : Nat := 1970
  month : Nat := 1
  day : Nat := 1
  hour : Nat := 0
  minute : Nat := 0
  second : Nat := 0
  msec : Nat := 0
  deriving DecidableEq, Repr

/-- What the engine reads from its surroundings during one call, and the build
constants declared in headers. -/
structure Env where
  /-- `MAX_PROCEDURAL_TEXTURE_CHANNELS` (Procedural.h). -/
  MAX_PROCEDURAL_TEXTURE_CHANNELS : Nat
  /-- `procedural::slot::uniform::Custom` (ShaderConstants.h). -/
  Custom : Int
  /-- Whether the build defines `USE_GLES`. -/
  USE_GLES : Bool
  /-- `QUrl(const QString&)`. -/
  toUrl : String → QUrl
  /-- `QFileInfo(path).exists()`. -/
  fileExists : String → Bool
  /-- `QFileInfo(path).lastModified().toMSecsSinceEpoch()`. -/
  lastModified : String → Nat
  /-- The text of a file: `QTextStream(&file).readAll()`. -/
  readAll : String → String
  /-- `QString::toLocal8Bit`: the text in the local 8-bit encoding, which need
  not have every character of the text. -/
  toLocal8Bit : String → String
  /-- `TextureCache::getTexture`. -/
  getTexture : QUrl → Option NetworkTexture
  /-- `ShaderCache::getShader`. -/
  getShader : QUrl → Option NetworkShader
  /-- `NetworkShader::isLoaded`. -/
  shaderLoaded : NetworkShader → Bool
  /-- `NetworkShader::_source`. -/
  shaderSource : NetworkShader → String
  /-- `NetworkTexture::isLoaded`. -/
  textureLoaded : NetworkTexture → Bool
  /-- `NetworkTexture::getGPUTexture`. -/
  getGPUTexture : NetworkTexture → Option GpuTexture
  /-- `NetworkTexture::getWidth`. -/
  getWidth : NetworkTexture → Nat
  /-- `NetworkTexture::getHeight`. -/
  getHeight : NetworkTexture → Nat
  /-- `usecTimestampNow()`. -/
  usecTimestampNow : Nat
  /-- `QDateTime::currentDateTimeUtc()`. -/
  currentDateTimeUtc : DateTime

/-! ## GPU objects -/

/-- `glm::vec2`. -/
structure Vec2 where
  x : ℚ
  y : ℚ
  deriving DecidableEq

/-- `glm::vec3`. -/
structure Vec3 where
  x : ℚ
  y : ℚ
  z : ℚ
  deriving DecidableEq

/-- `glm::vec4` (also used for `glm::quat`). -/
structure Vec4 where
  x : ℚ
  y : ℚ
  z : ℚ
  w : ℚ
  deriving DecidableEq

/-- `m[k] = v` on a map kept as a list of entries: replace the entry of `k`,
or add one. -/
def mapSet {κ ν : Type} [DecidableEq κ] : List (κ × ν) → κ → ν → List (κ × ν)
  | [], k, v => [(k, v)]
  | (k1, v1) :: m, k, v => if k1 = k then (k, v) :: m else (k1, v1) :: mapSet m k v

/-- `m.find(k)` on a map kept as a list of entries. -/
def mapFind {κ ν : Type} [DecidableEq κ] : List (κ × ν) → κ → Option ν
  | [], _ => none
  | (k1, v1) :: m, k => if k1 = k then some v1 else mapFind m k

/-- `gpu::Shader::Source`: a built-in shader template with its replacement
strings and the slots of its reflected uniforms. -/
structure ShaderSource where
  name : String := ""
  replacements : List (String × String) := []
  uniforms : List (String × Int) := []
  deriving DecidableEq

/-- `gpu::State` as configured by the constructor of the engine. -/
structure GpuState where
  cullBack : Bool := true
  depthTest : Bool := true
  blend : Bool := false
  deriving DecidableEq

/-- A linked program: `gpu::Shader::createProgram(vertex, fragment)`. -/
structure Program where
  vertex : ShaderSource
  fragment : ShaderSource
  deriving DecidableEq

/-- `gpu::Pipeline::create(program, state)`. -/
structure Pipeline where
  program : Program
  state : GpuState
  deriving DecidableEq

/-- Modelled from the spec: `ProceduralProgramKey` is declared in Procedural.h,
which is not among the sources; per the spec it captures the bits transparent,
skinned and skinned with dual quaternions, which `prepare` reads through
`isTransparent`, `isSkinned` and `isSkinnedDQ`. -/
structure ProceduralProgramKey where
  transparent : Bool := false
  skinned : Bool := false
  skinnedDQ : Bool := false
  deriving DecidableEq, Repr

namespace ProceduralProgramKey

/-- `ProceduralProgramKey::isTransparent`. -/
def isTransparent (k : ProceduralProgramKey) : Bool := k.transparent

/-- `ProceduralProgramKey::isSkinned`. -/
def isSkinned (k : ProceduralProgramKey) : Bool := k.skinned

/-- `ProceduralProgramKey::isSkinnedDQ`. -/
def isSkinnedDQ (k : ProceduralProgramKey) : Bool := k.skinnedDQ

end ProceduralProgramKey

/-- The `StandardInputs` uniform block. -/
structure StandardInputs where
  position : Vec4 := ⟨0, 0, 0, 0⟩
  time : ℚ := 0
  date : Vec4 := ⟨0, 0, 0, 0⟩
  scale : Vec4 := ⟨0, 0, 0, 0⟩
  frameCount : Nat := 0
  orientation : Vec4 := ⟨0, 0, 0, 1⟩
  resolution : List Vec4 := []
  deriving DecidableEq

/-- A `Transform` of the shared library, as translation, rotation and scale. -/
structure Transform where
  translation : Vec3 := ⟨0, 0, 0⟩
  rotation : Vec4 := ⟨0, 0, 0, 1⟩
  scale : Vec3 := ⟨1, 1, 1⟩
  deriving DecidableEq

/-- `Transform::postScale` with a vector: the scale is multiplied component by
component. -/
def Transform.postScale (t : Transform) (s : Vec3) : Transform :=
  { t with scale := ⟨t.scale.x * s.x, t.scale.y * s.y, t.scale.z * s.z⟩ }

/-- A call of a setter of `graphics::ProceduralMaterial`, with its arguments.
The flags of the map setters are the second argument of the setter. -/
inductive MaterialSetter where
  | setModel (model : String)
  | setEmissive (color : Vec3) (isSRGB : Bool)
  | setOpacity (opacity : ℚ)
  | setUnlit (unlit : Bool)
  | setAlbedo (color : Vec3) (isSRGB : Bool)
  | setRoughness (roughness : ℚ)
  | setMetallic (metallic : ℚ)
  | setScattering (scattering : ℚ)
  | setEmissiveMap (url : QUrl)
  | setAlbedoMap (url : QUrl) (useAlphaChannel : Bool)
  | setRoughnessMap (url : QUrl) (isGloss : Bool)
  | setMetallicMap (url : QUrl) (isSpecular : Bool)
  | setNormalMap (url : QUrl) (isBumpmap : Bool)
  | setOcclusionMap (url : QUrl)
  | setScatteringMap (url : QUrl)
  | setLightmapMap (url : QUrl)
  | setProceduralData (json : String)
  | setTextureTransforms (translation : Vec2) (rotation : ℚ) (scale : Vec2)
  deriving DecidableEq

/-- Modelled from the spec: `graphics::ProceduralMaterial` is declared in
ProceduralMaterial.h, which is not among the sources.  A material handle is
represented by the setter calls made on the material since
`std::make_shared<graphics::ProceduralMaterial>()`, oldest first; a null
handle is `none` where a handle is optional. -/
abbrev Material := List MaterialSetter

/-- A command recorded in a `gpu::Batch`.  The calls
`RenderPipelines::bindMaterial(material, batch, enableTexturing)` and
`GeometryCache::renderSphere(batch)` or `renderSphere(batch, color)` are kept
as one command each. -/
inductive Command where
  | setPipeline (p : Pipeline)
  | glUniform1f (slot : Int) (x : ℚ)
  | glUniform2f (slot : Int) (x y : ℚ)
  | glUniform3f (slot : Int) (x y z : ℚ)
  | glUniform4f (slot : Int) (x y z w : ℚ)
  | setUniformBuffer (slot : Nat) (inputs : StandardInputs)
  | setResourceTexture (slot : Nat) (texture : Option GpuTexture)
  | setModelTransform (transform : Transform)
  | bindMaterial (material : Material) (enableTexturing : Bool)
  | renderSphere (color : Option Vec4)
  deriving DecidableEq

/-- A `gpu::Batch`: the commands recorded so far, oldest first. -/
abbrev Batch := List Command

/-- One of the closures `setupUniforms` stores in `_uniforms`.  A closure for a
custom uniform captures its slot and value; the last closure captures the
engine and fills the standard inputs when it is called. -/
inductive UniformLambda where
  | uniform1f (slot : Int) (x : ℚ)
  | uniform2f (slot : Int) (x y : ℚ)
  | uniform3f (slot : Int) (x y z : ℚ)
  | uniform4f (slot : Int) (x y z w : ℚ)
  | standardInputs
  deriving DecidableEq

/-- The slot a closure for a custom uniform has captured; the closure for the
standard inputs captures none. -/
def UniformLambda.slot : UniformLambda → Option Int
  | .uniform1f slot _ => some slot
  | .uniform2f slot _ _ => some slot
  | .uniform3f slot _ _ _ => some slot
  | .uniform4f slot _ _ _ _ => some slot
  | .standardInputs => none

/-! ## The engine -/

/-- Modelled from the spec: the declaration of `Procedural` is in Procedural.h,
which is not among the sources.  The members are the ones Procedural.cpp reads
and writes; the default values stand for a freshly constructed engine, which
per the spec is not enabled and has compiled nothing, so both dirty flags are
set.  `_entityOrientation` keeps the quaternion passed to `prepare` (the
source stores `glm::mat3_cast` of it). -/
structure Procedural where
  _data : ProceduralData := {}
  _enabled : Bool := false
  _shaderDirty : Bool := true
  _uniformsDirty : Bool := true
  _start : Nat := 0
  _frameCount : Nat := 0
  _vertexShaderPath : String := ""
  _networkVertexShader : Option NetworkShader := none
  _vertexShaderSource : String := ""
  _vertexShaderModified : Nat := 0
  _fragmentShaderPath : String := ""
  _networkFragmentShader : Option NetworkShader := none
  _fragmentShaderSource : String := ""
  _fragmentShaderModified : Nat := 0
  _channels : List (Option NetworkTexture) := []
  _vertexSource : ShaderSource := {}
  _vertexSourceSkin : ShaderSource := {}
  _vertexSourceSkinDQ : ShaderSource := {}
  _opaqueFragmentSource : ShaderSource := {}
  _transparentFragmentSource : ShaderSource := {}
  _opaqueState : GpuState := {}
  _transparentState : GpuState := { blend := true }
  _proceduralPrograms : List (ProceduralProgramKey × Program) := []
  _proceduralPipelines : List (ProceduralProgramKey × Pipeline) := []
  _uniforms : List UniformLambda := []
  _standardInputs : StandardInputs := {}
  _entityDimensions : Vec3 := ⟨0, 0, 0⟩
  _entityPosition : Vec3 := ⟨0, 0, 0⟩
  _entityOrientation : Vec4 := ⟨0, 0, 0, 1⟩
  _fadeStartTime : Nat := 0
  _hasStartedFade : Bool := false
  _isFading : Bool := false
  _prevKey : ProceduralProgramKey := {}
  deriving DecidableEq

namespace Procedural

/-- Modelled from the spec: the state of a freshly constructed engine.  The
constructor (Procedural.cpp) sets up the two GPU states; the initial values of
the other members are declared in Procedural.h, which is not among the
sources: per the spec the engine starts not enabled, with no descriptor and no
texture channel bound. -/
def init (env : Env) : Procedural :=
  { _channels := List.replicate env.MAX_PROCEDURAL_TEXTURE_CHANNELS none }

/-- The texture handle in channel `i` (`_channels[i]`), null outside the array. -/
def channel (self : Procedural) (i : Nat) : Option NetworkTexture :=
  (self._channels.getD i none)

/-- The version block of `setProceduralData`. -/
def applyVersion (self : Procedural) (proceduralData : ProceduralData) : Procedural :=
  if proceduralData.version != self._data.version then
    { self with
      _data := { self._data with version := proceduralData.version }
      _shaderDirty := true }
  else self

/-- The uniforms block of `setProceduralData`. -/
def applyUniforms (self : Procedural) (proceduralData : ProceduralData) : Procedural :=
  if proceduralData.uniforms != self._data.uniforms then
    -- If the uniform keys changed, we need to recreate the whole shader to handle the reflection
    let self :=
      if proceduralData.uniforms.keys != self._data.uniforms.keys then
        { self with _shaderDirty := true }
      else self
    { self with
      _data := { self._data with uniforms := proceduralData.uniforms }
      _uniformsDirty := true }
  else self

/-- The channels block of `setProceduralData`. -/
def applyChannels (env : Env) (self : Procedural) (proceduralData : ProceduralData) :
    Procedural :=
  if proceduralData.channels != self._data.channels then
    let channelCount := min env.MAX_PROCEDURAL_TEXTURE_CHANNELS proceduralData.channels.size
    { self with
      _data := { self._data with channels := proceduralData.channels }
      _channels := (List.range env.MAX_PROCEDURAL_TEXTURE_CHANNELS).map fun channel =>
        if channel < channelCount then
          env.getTexture (env.toUrl (proceduralData.channels.atIndex channel).toString)
        else
          -- Release those textures no longer in use
          env.getTexture {} }
  else self

/-- The fragment shader block of `setProceduralData` and the end of the
function: `_enabled` becomes true unless the block returns early. -/
def applyFragmentShaderUrl (env : Env) (self : Procedural) (proceduralData : ProceduralData) :
    Procedural :=
  if proceduralData.fragmentShaderUrl != self._data.fragmentShaderUrl then
    let self := { self with
      _data := { self._data with fragmentShaderUrl := proceduralData.fragmentShaderUrl }
      _shaderDirty := true
      _networkFragmentShader := none
      _fragmentShaderPath := "" }
    let shaderUrl := self._data.fragmentShaderUrl
    if !shaderUrl.isValid then self
    else if shaderUrl.isLocalFile then
      if !env.fileExists shaderUrl.toLocalFile then self
      else { self with _fragmentShaderPath := shaderUrl.toLocalFile, _enabled := true }
    else if shaderUrl.scheme == URL_SCHEME_QRC then
      { self with _fragmentShaderPath := ":" ++ shaderUrl.path, _enabled := true }
    else
      { self with _networkFragmentShader := env.getShader shaderUrl, _enabled := true }
  else
    -- Procedural vertex shaders are disabled for now.
    { self with _enabled := true }

/-- `Procedural::setProceduralData`: nothing happens for an equal descriptor;
otherwise the engine is disabled and the version, uniforms, channels and
fragment shader blocks run in that order. -/
def setProceduralData (env : Env) (self : Procedural) (proceduralData : ProceduralData) :
    Procedural :=
  if proceduralData == self._data then self
  else
    let self := { self with _enabled := false }
    let self := applyVersion self proceduralData
    let self := applyUniforms self proceduralData
    let self := applyChannels env self proceduralData
    applyFragmentShaderUrl env self proceduralData

/-- `Procedural::isReady`: the answer and the engine after the call (the fade
members are `mutable`). -/
def isReady (env : Env) (self : Procedural) : Bool × Procedural :=
  if env.USE_GLES then (false, self)
  else if !self._enabled then (false, self)
  else
    let self :=
      if !self._hasStartedFade then { self with _fadeStartTime := env.usecTimestampNow }
      else self
    let hasFragmentShader :=
      !self._fragmentShaderPath.isEmpty || self._networkFragmentShader.isSome
    let fragmentShaderLoaded :=
      !self._fragmentShaderPath.isEmpty ||
        (match self._networkFragmentShader with
          | some shader => env.shaderLoaded shader
          | none => false)
    let hasVertexShader :=
      !self._vertexShaderPath.isEmpty || self._networkVertexShader.isSome
    let vertexShaderLoaded :=
      !self._vertexShaderPath.isEmpty ||
        (match self._networkVertexShader with
          | some shader => env.shaderLoaded shader
          | none => false)
    -- We need to have at least one shader, and whichever ones we have need to be loaded
    if (!hasFragmentShader && !hasVertexShader) || (hasFragmentShader && !fragmentShaderLoaded)
        || (hasVertexShader && !vertexShaderLoaded) then (false, self)
    -- Do we have textures, and if so, are they loaded?
    else if (List.range env.MAX_PROCEDURAL_TEXTURE_CHANNELS).any (fun i =>
        match self.channel i with
        | some texture => !env.textureLoaded texture
        | none => false) then (false, self)
    else
      let self :=
        if !self._hasStartedFade then { self with _hasStartedFade := true, _isFading := true }
        else self
      (true, self)

/-- `Procedural::getColor`. -/
def getColor (self : Procedural) (entityColor : Vec4) : Vec4 :=
  if self._data.version == 1 then ⟨1, 1, 1, 1⟩ else entityColor

/-- The closure `setupUniforms` creates for one custom uniform, if any: a
number gives a 1-float upload, an array an upload of its first one to four
elements, anything else (and the empty array) no closure. -/
def customUniform (slot : Int) (value : QJsonValue) : Option UniformLambda :=
  if value.isDouble then
    some (.uniform1f slot value.toDouble)
  else if value.isArray then
    let valueArray := value.toArray
    match valueArray.size with
    | 0 => none
    | 1 => some (.uniform1f slot (valueArray.atIndex 0).toDouble)
    | 2 => some (.uniform2f slot (valueArray.atIndex 0).toDouble (valueArray.atIndex 1).toDouble)
    | 3 => some (.uniform3f slot (valueArray.atIndex 0).toDouble (valueArray.atIndex 1).toDouble
        (valueArray.atIndex 2).toDouble)
    | _ => some (.uniform4f slot (valueArray.atIndex 0).toDouble (valueArray.atIndex 1).toDouble
        (valueArray.atIndex 2).toDouble (valueArray.atIndex 3).toDouble)
  else none

/-- `Procedural::setupUniforms`. -/
def setupUniforms (env : Env) (self : Procedural) : Procedural :=
  let customUniformCount := self._data.uniforms.keys.length
  -- Set any userdata specified uniforms
  let custom := (List.range customUniformCount).filterMap fun (i : Nat) =>
    let slot := env.Custom + (i : Int)
    let key := self._data.uniforms.keys.getD i ""
    customUniform slot (self._data.uniforms.value key)
  { self with _uniforms := custom ++ [UniformLambda.standardInputs] }

/-- The standard inputs the last closure of `_uniforms` uploads.  The frame
counter is the incremented one; the elapsed time is the `quint64` difference
`usecTimestampNow() - _start`, which wraps modulo 2^64 when the clock is
before `_start`, divided down to whole milliseconds before the division to
seconds. -/
def standardInputsNow (env : Env) (self : Procedural) : StandardInputs :=
  let now := env.currentDateTimeUtc
  { position := ⟨self._entityPosition.x, self._entityPosition.y, self._entityPosition.z, 1⟩
    time :=
      (((Int.toNat (((env.usecTimestampNow : Int) - (self._start : Int)) %
        18446744073709551616)) / 1000 : Nat) : ℚ) / 1000
    date := ⟨now.year, (now.month : ℚ) - 1, now.day,
      ((now.hour * 3600 + now.minute * 60 + now.second : Nat) : ℚ) + (now.msec : ℚ) / 1000⟩
    scale := ⟨self._entityDimensions.x, self._entityDimensions.y, self._entityDimensions.z, 1⟩
    frameCount := self._frameCount + 1
    orientation := self._entityOrientation
    resolution := (List.range env.MAX_PROCEDURAL_TEXTURE_CHANNELS).map fun i =>
      match self.channel i with
      | some texture => ⟨env.getWidth texture, env.getHeight texture, 1, 1⟩
      | none => ⟨1, 1, 1, 1⟩ }

/-- Call one closure of `_uniforms` on a batch: `lambda(batch)`. -/
def callUniform (env : Env) (self : Procedural) (batch : Batch) :
    UniformLambda → Procedural × Batch
  | .uniform1f slot x => (self, batch ++ [Command.glUniform1f slot x])
  | .uniform2f slot x y => (self, batch ++ [Command.glUniform2f slot x y])
  | .uniform3f slot x y z => (self, batch ++ [Command.glUniform3f slot x y z])
  | .uniform4f slot x y z w => (self, batch ++ [Command.glUniform4f slot x y z w])
  | .standardInputs =>
    let inputs := standardInputsNow env self
    ({ self with _standardInputs := inputs, _frameCount := inputs.frameCount },
      batch ++ [Command.setUniformBuffer 0 inputs])

/-- Refresh the raw fragment shader text at the start of `prepare`. -/
def refreshFragmentSource (env : Env) (self : Procedural) : Procedural :=
  if !self._fragmentShaderPath.isEmpty then
    let lastModified := env.lastModified self._fragmentShaderPath
    if lastModified > self._fragmentShaderModified then
      { self with
        _fragmentShaderSource := env.readAll self._fragmentShaderPath
        _shaderDirty := true
        _fragmentShaderModified := lastModified }
    else self
  else
    match self._networkFragmentShader with
    | some shader =>
      if env.shaderLoaded shader then { self with _fragmentShaderSource := env.shaderSource shader }
      else self
    | none => self

/-- Refresh the raw vertex shader text at the start of `prepare`. -/
def refreshVertexSource (env : Env) (self : Procedural) : Procedural :=
  if !self._vertexShaderPath.isEmpty then
    let lastModified := env.lastModified self._vertexShaderPath
    if lastModified > self._vertexShaderModified then
      { self with
        _vertexShaderSource := env.readAll self._vertexShaderPath
        _shaderDirty := true
        _vertexShaderModified := lastModified }
    else self
  else
    match self._networkVertexShader with
    | some shader =>
      if env.shaderLoaded shader then { self with _vertexShaderSource := env.shaderSource shader }
      else self
    | none => self

/-- The `//PROCEDURAL_VERSION` replacement for a descriptor version, if any. -/
def versionDefine (version : Nat) : Option String :=
  if version == 1 then some "#define PROCEDURAL_V1 1"
  else if version == 2 then some "#define PROCEDURAL_V2 1"
  else if version == 3 then some "#define PROCEDURAL_V3 1"
  else none

/-- The local `uniformName` of `prepare`: `key.toLocal8Bit().data()` as a
`std::string`, that is the key in the local 8-bit encoding up to its first NUL
character. -/
def uniformName (env : Env) (key : String) : String :=
  String.mk ((env.toLocal8Bit key).toList.takeWhile (fun c => c != Char.ofNat 0))

/-- Fill a shader template the way `prepare` does: clear the replacements, set
the version define and the procedural block, and for each custom uniform key,
counting up from `Custom`, assign the slot to the reflection entry of the name
of the key. -/
def fillSource (env : Env) (self : Procedural) (template : ShaderSource) (block : String) :
    ShaderSource :=
  let replacements : List (String × String) := []
  let replacements :=
    match versionDefine self._data.version with
    | some define => mapSet replacements "//PROCEDURAL_VERSION" define
    | none => replacements
  let replacements := mapSet replacements "//PROCEDURAL_BLOCK" block
  let uniforms :=
    (self._data.uniforms.keys.foldl
      (fun (acc : List (String × Int) × Int) key =>
        (mapSet acc.1 (uniformName env key) acc.2, acc.2 + 1))
      (template.uniforms, env.Custom)).1
  { template with replacements := replacements, uniforms := uniforms }

/-- The program `prepare` compiles for a key from the current engine state. -/
def buildProgram (env : Env) (self : Procedural) (key : ProceduralProgramKey) : Program :=
  let vertexSource :=
    if key.isSkinnedDQ then self._vertexSourceSkinDQ
    else if key.isSkinned then self._vertexSourceSkin
    else self._vertexSource
  let fragmentSource :=
    if key.isTransparent then self._transparentFragmentSource
    else self._opaqueFragmentSource
  { vertex := fillSource env self vertexSource self._vertexShaderSource
    fragment := fillSource env self fragmentSource self._fragmentShaderSource }

/-- Call every closure of `_uniforms` on the batch, in order. -/
def callUniforms (env : Env) (self : Procedural) (batch : Batch) : Procedural × Batch :=
  self._uniforms.foldl
    (fun (acc : Procedural × Batch) lambda => callUniform env acc.1 acc.2 lambda) (self, batch)

/-- Bind every loaded texture channel to the resource slot of its index. -/
def bindChannels (env : Env) (self : Procedural) (batch : Batch) : Batch :=
  (List.range env.MAX_PROCEDURAL_TEXTURE_CHANNELS).foldl
    (fun (batch : Batch) i =>
      match self.channel i with
      | some texture =>
        if env.textureLoaded texture then
          batch ++ [Command.setResourceTexture i (env.getGPUTexture texture)]
        else batch
      | none => batch) batch

/-- The pipeline `prepare` creates for a key from the current engine state. -/
def buildPipeline (env : Env) (self : Procedural) (key : ProceduralProgramKey) : Pipeline :=
  { program := buildProgram env self key
    state := if key.isTransparent then self._transparentState else self._opaqueState }

/-- What a call of `prepare` leaves behind: the engine, the batch, and the
programs compiled during the call (in order). -/
structure Prepared where
  self : Procedural
  batch : Batch
  compiled : List Program
  deriving DecidableEq

/-- The pipeline lookup and (re)compilation step of `prepare`: the engine, the
pipeline to bind, whether the shader was recompiled, and the programs compiled. -/
def lookupOrBuild (env : Env) (self : Procedural) (key : ProceduralProgramKey) :
    Procedural × Pipeline × Bool × List Program :=
  match mapFind self._proceduralPipelines key, self._shaderDirty with
  | some found, false => (self, found, false, [])
  | _, _ =>
    ({ self with
        _proceduralPrograms := mapSet self._proceduralPrograms key (buildProgram env self key)
        _proceduralPipelines := mapSet self._proceduralPipelines key (buildPipeline env self key)
        _start := env.usecTimestampNow
        _frameCount := 0 },
      buildPipeline env self key, true, [buildProgram env self key])

/-- `Procedural::prepare`. -/
def prepare (env : Env) (self : Procedural) (batch : Batch) (position size : Vec3)
    (orientation : Vec4) (key : ProceduralProgramKey) : Prepared :=
  let self := { self with
    _entityDimensions := size
    _entityPosition := position
    _entityOrientation := orientation }
  let self := refreshFragmentSource env self
  let self := refreshVertexSource env self
  let built := lookupOrBuild env self key
  let self := built.1
  let recompiledShader := built.2.2.1
  let batch := batch ++ [Command.setPipeline built.2.1]
  let recreateUniforms :=
    self._shaderDirty || self._uniformsDirty || recompiledShader || self._prevKey != key
  let self := if recreateUniforms then setupUniforms env self else self
  let self := { self with _prevKey := key, _shaderDirty := false, _uniformsDirty := false }
  let called := callUniforms env self batch
  { self := called.1, batch := bindChannels env called.1 called.2, compiled := built.2.2.2 }

/-- The engine states that calls of the public operations can produce from a
freshly constructed engine, in any environment at each call. -/
inductive Reachable : Procedural → Prop where
  | init (env : Env) : Reachable (init env)
  | setProceduralData (env : Env) (self : Procedural) (d : ProceduralData) :
      Reachable self → Reachable (self.setProceduralData env d)
  | isReady (env : Env) (self : Procedural) :
      Reachable self → Reachable (self.isReady env).2
  | prepare (env : Env) (self : Procedural) (batch : Batch) (position size : Vec3)
      (orientation : Vec4) (key : ProceduralProgramKey) :
      Reachable self → Reachable (self.prepare env batch position size orientation key).self

/-- A call of one of the public operations of the engine, with the
environment it runs in and its arguments. -/
inductive Call where
  | setProceduralData (env : Env) (proceduralData : ProceduralData)
  | isReady (env : Env)
  | prepare (env : Env) (batch : Batch) (position size : Vec3) (orientation : Vec4)
      (key : ProceduralProgramKey)

/-- The engine after a call. -/
def call (self : Procedural) : Call → Procedural
  | .setProceduralData env proceduralData => self.setProceduralData env proceduralData
  | .isReady env => (self.isReady env).2
  | .prepare env batch position size orientation key =>
    (self.prepare env batch position size orientation key).self

/-- The engine after a sequence of calls, made in order. -/
def calls (self : Procedural) (sequence : List Call) : Procedural :=
  sequence.foldl call self

end Procedural

/-! ## Concrete inputs -/

/-- An environment with four texture channels in which no file exists, no
resource has finished loading, and the local 8-bit encoding has every
character. -/
def sampleEnv : Env :=
  { MAX_PROCEDURAL_TEXTURE_CHANNELS := 4
    Custom := 220
    USE_GLES := false
    toUrl := fun s => if s.isEmpty then {} else { valid := true, scheme := "http", path := s }
    fileExists := fun _ => false
    lastModified := fun _ => 0
    readAll := fun _ => ""
    toLocal8Bit := fun s => s
    getTexture := fun u => if u.isEmpty then none else some ⟨u⟩
    getShader := fun u => some ⟨u⟩
    shaderLoaded := fun _ => false
    shaderSource := fun _ => ""
    textureLoaded := fun _ => false
    getGPUTexture := fun _ => none
    getWidth := fun _ => 0
    getHeight := fun _ => 0
    usecTimestampNow := 0
    currentDateTimeUtc := {} }

/-- The URL `qrc:/x.fs`. -/
def qrcShader : QUrl := { valid := true, scheme := "qrc", path := "/x.fs" }

/-- The URL `file:///missing.fs`, a local file that does not exist in `sampleEnv`. -/
def missingShader : QUrl := { valid := true, scheme := "file", path := "/missing.fs" }

/-- A URL normaliser that knows the URLs used below and maps the empty string
to the empty URL. -/
def sampleNormalizeURL (raw : String) : QUrl :=
  if raw.isEmpty then {}
  else if raw = "qrc:/x.fs" then qrcShader
  else if raw = "file:///missing.fs" then missingShader
  else { valid := true, scheme := "http", path := raw }

/-- The embedded descriptor with `shaderUrl` "qrc:/x.fs", `uniforms` with the
one member `k = [1, 2, 3]`, and the given `version` member, if any. -/
def sampleDescriptor (version : Option QJsonValue) : QJsonObject :=
  QJsonObject.ofList
    ([("shaderUrl", QJsonValue.string "qrc:/x.fs"),
      ("uniforms", QJsonValue.object (QJsonObject.ofList
        [("k", QJsonValue.array (QJsonArray.ofList
          [QJsonValue.double 1, QJsonValue.double 2, QJsonValue.double 3]))]))] ++
      match version with
      | some v => [("version", v)]
      | none => [])

/-- A uniforms object with the single member `k`, a number. -/
def sampleUniforms (x : ℚ) : QJsonObject := QJsonObject.ofList [("k", QJsonValue.double x)]

/-- A fresh engine in `sampleEnv` on which a version 2 descriptor with the
shader `qrc:/x.fs` and one uniform has been set. -/
def sampleEngine : Procedural :=
  (Procedural.init sampleEnv).setProceduralData sampleEnv
    { version := 2, fragmentShaderUrl := qrcShader, uniforms := sampleUniforms 1 }

/-! ## Material descriptions (ProceduralMaterialCache.cpp) -/

namespace QJsonValue

/-- `QJsonValue::isString()`. -/
def isString : QJsonValue → Bool
  | .string _ => true
  | _ => false

/-- `QJsonValue::isBool()`. -/
def isBool : QJsonValue → Bool
  | .bool _ => true
  | _ => false

/-- `QJsonValue::isObject()`. -/
def isObject : QJsonValue → Bool
  | .object _ => true
  | _ => false

/-- `QJsonValue::isNull()`. -/
def isNull : QJsonValue → Bool
  | .null => true
  | _ => false

/-- `QJsonValue::toBool()`: the boolean, or false for any other kind of value. -/
def toBool : QJsonValue → Bool
  | .bool b => b
  | _ => false

/-- `QJsonValue::toInt()`: the number if it is whole and fits an `int`, else 0. -/
def toInt : QJsonValue → Int
  | .double d =>
    if d.den = 1 ∧ -2147483648 ≤ d.num ∧ d.num ≤ 2147483647 then d.num else 0
  | _ => 0

end QJsonValue

/-- A `QJsonDocument`: null (also what parsing invalid text gives), a
top-level array or a top-level object. -/
inductive QJsonDocument where
  | null
  | ofArray (a : QJsonArray)
  | ofObject (o : QJsonObject)
  deriving DecidableEq

namespace QJsonDocument

/-- `QJsonDocument::isNull()`. -/
def isNull : QJsonDocument → Bool
  | .null => true
  | _ => false

/-- `QJsonDocument::isObject()`. -/
def isObject : QJsonDocument → Bool
  | .ofObject _ => true
  | _ => false

/-- `QJsonDocument::object()`: the top-level object, or the empty object. -/
def object : QJsonDocument → QJsonObject
  | .ofObject o => o
  | _ => .nil

end QJsonDocument

/-- Modelled from the spec: `ProceduralMaterialResource::ParsedMaterials` is
declared in ProceduralMaterialCache.h, which is not among the sources.  Per
the spec it holds an optional material-file version, a map from material name
to material handle (kept as a list of entries, see `mapSet`) and the names in
declaration order. -/
structure ParsedMaterials where
  version : Option Nat := none
  networkMaterials : List (String × Material) := []
  names : List String := []
  deriving DecidableEq

/-- A `QUuid`, as its 128-bit value; the null id is 0. -/
structure QUuid where
  value : Nat := 0
  deriving DecidableEq, Repr

/-- `QUuid::isNull()`. -/
def QUuid.isNull (id : QUuid) : Bool := id.value == 0

/-- `graphics::MaterialLayer(material, priority)`. -/
structure MaterialLayer where
  material : Material
  priority : Nat
  deriving DecidableEq

/-- The kinds of object a material can be attached to. -/
inductive ParentKind where
  | entity
  | avatar
  | overlay
  deriving DecidableEq, Repr

/-- What a material entity renderer does to the world around it: a call of one
of the six attach and detach functions of `EntityTreeRenderer`, with its
arguments, the emission of `requestRenderUpdate`, or the connection of the
completion callback to the `finished` signal of a material resource. -/
inductive Event where
  | addMaterial (kind : ParentKind) (parentID : QUuid) (material : MaterialLayer)
      (parentMaterialName : String)
  | removeMaterial (kind : ParentKind) (parentID : QUuid) (material : Material)
      (parentMaterialName : String)
  | requestRenderUpdate
  | connectFinished (url : QUrl)
  deriving DecidableEq

/-- Whether an event is a call of the attach or the detach function of a kind. -/
def Event.isCallTo (kind : ParentKind) : Event → Bool
  | .addMaterial k _ _ _ => k == kind
  | .removeMaterial k _ _ _ => k == kind
  | _ => false

/-- Whether an event is a call of an attach function with a parent id. -/
def Event.isAttachWith (parentID : QUuid) : Event → Bool
  | .addMaterial _ id _ _ => id == parentID
  | _ => false

/-- A `ProceduralMaterialResource` as the renderer sees it when it asks the
cache for it: its URL, whether it has loaded, whether it failed, and the
materials parsed from it. -/
structure MaterialResource where
  url : QUrl
  loaded : Bool
  failed : Bool
  parsedMaterials : ParsedMaterials
  deriving DecidableEq

/-- What the material parser and the material entity renderer take from Qt, from
the shared library and from the rest of the client. -/
structure MaterialEnv where
  /-- `QUrl::resolved` applied to a base URL and a string. -/
  resolved : QUrl → String → QUrl
  /-- `QJsonDocument::fromVariant(value.toVariant()).toJson()`. -/
  toJson : QJsonValue → String
  /-- `vec3FromVariant` (RegisteredMetaTypes.h): the vector and whether it is valid. -/
  vec3FromVariant : QJsonObject → Vec3 × Bool
  /-- `QJsonDocument::fromJson` of the UTF-8 bytes of a string. -/
  fromJson : String → QJsonDocument
  /-- `QUrl(const QString&)`. -/
  toUrl : String → QUrl
  /-- Modelled from the spec: the six functions `addMaterialToEntity`, ...,
  `removeMaterialFromOverlay` of `EntityTreeRenderer` are declared in
  EntityTreeRenderer.h and defined outside the sources.  Per the spec each
  forwards to an externally supplied resolver that answers whether the id is an
  object of its kind.  `answer history call` is the answer to `call` when
  `history` lists what the renderer has done before it. -/
  answer : List Event → Event → Bool
  /-- `MaterialCache::getMaterial`: the cache entry for a URL, or null. -/
  getMaterial : QUrl → Option MaterialResource
  /-- `getModelTransform()` of the entity renderer. -/
  getModelTransform : Transform
  /-- `ENTITY_ITEM_DEFAULT_DIMENSIONS`. -/
  ENTITY_ITEM_DEFAULT_DIMENSIONS : Vec3

/-- `ProceduralMaterialResource::parseJSONColor`: the result, and the values of
the two output parameters after the call. -/
def parseJSONColor (env : MaterialEnv) (array : QJsonValue) (color : Vec3) (isSRGB : Bool) :
    Bool × Vec3 × Bool :=
  if array.isArray then
    let colorArray := array.toArray
    if decide (colorArray.size ≥ 3) && (colorArray.atIndex 0).isDouble &&
        (colorArray.atIndex 1).isDouble && (colorArray.atIndex 2).isDouble then
      let isSRGB := true
      let isSRGB :=
        if colorArray.size ≥ 4 then
          if (colorArray.atIndex 3).isBool then (colorArray.atIndex 3).toBool else isSRGB
        else isSRGB
      (true, ⟨(colorArray.atIndex 0).toDouble, (colorArray.atIndex 1).toDouble,
        (colorArray.atIndex 2).toDouble⟩, isSRGB)
    else (false, color, isSRGB)
  else if array.isObject then
    let converted := env.vec3FromVariant array.toObject
    (converted.2, converted.1, true)
  else (false, color, isSRGB)

/-- The body of the key loop of `parseJSONMaterial` for the model `hifi_pbr`:
the name and the material after the branch for `key` has run. -/
def pbrStep (env : MaterialEnv) (materialJSON : QJsonObject) (baseUrl : QUrl)
    (acc : String × Material) (key : String) : String × Material :=
  let value := materialJSON.value key
  if key = "name" then
    if value.isString then (value.toString, acc.2) else acc
  else if key = "emissive" then
    let parsed := parseJSONColor env value ⟨0, 0, 0⟩ false
    if parsed.1 then (acc.1, acc.2 ++ [MaterialSetter.setEmissive parsed.2.1 parsed.2.2]) else acc
  else if key = "opacity" then
    if value.isDouble then (acc.1, acc.2 ++ [MaterialSetter.setOpacity value.toDouble]) else acc
  else if key = "unlit" then
    if value.isBool then (acc.1, acc.2 ++ [MaterialSetter.setUnlit value.toBool]) else acc
  else if key = "albedo" then
    let parsed := parseJSONColor env value ⟨0, 0, 0⟩ false
    if parsed.1 then (acc.1, acc.2 ++ [MaterialSetter.setAlbedo parsed.2.1 parsed.2.2]) else acc
  else if key = "roughness" then
    if value.isDouble then (acc.1, acc.2 ++ [MaterialSetter.setRoughness value.toDouble]) else acc
  else if key = "metallic" then
    if value.isDouble then (acc.1, acc.2 ++ [MaterialSetter.setMetallic value.toDouble]) else acc
  else if key = "scattering" then
    if value.isDouble then (acc.1, acc.2 ++ [MaterialSetter.setScattering value.toDouble])
    else acc
  else if key = "emissiveMap" then
    if value.isString then
      (acc.1, acc.2 ++ [MaterialSetter.setEmissiveMap (env.resolved baseUrl value.toString)])
    else acc
  else if key = "albedoMap" then
    if value.isString then
      let urlString := value.toString
      let opacityMap := materialJSON.value "opacityMap"
      let useAlphaChannel := opacityMap.isString && opacityMap.toString == urlString
      (acc.1, acc.2 ++
        [MaterialSetter.setAlbedoMap (env.resolved baseUrl urlString) useAlphaChannel])
    else acc
  else if key = "roughnessMap" then
    if value.isString then
      (acc.1, acc.2 ++ [MaterialSetter.setRoughnessMap (env.resolved baseUrl value.toString) false])
    else acc
  else if key = "glossMap" then
    if value.isString then
      (acc.1, acc.2 ++ [MaterialSetter.setRoughnessMap (env.resolved baseUrl value.toString) true])
    else acc
  else if key = "metallicMap" then
    if value.isString then
      (acc.1, acc.2 ++ [MaterialSetter.setMetallicMap (env.resolved baseUrl value.toString) false])
    else acc
  else if key = "specularMap" then
    if value.isString then
      (acc.1, acc.2 ++ [MaterialSetter.setMetallicMap (env.resolved baseUrl value.toString) true])
    else acc
  else if key = "normalMap" then
    if value.isString then
      (acc.1, acc.2 ++ [MaterialSetter.setNormalMap (env.resolved baseUrl value.toString) false])
    else acc
  else if key = "bumpMap" then
    if value.isString then
      (acc.1, acc.2 ++ [MaterialSetter.setNormalMap (env.resolved baseUrl value.toString) true])
    else acc
  else if key = "occlusionMap" then
    if value.isString then
      (acc.1, acc.2 ++ [MaterialSetter.setOcclusionMap (env.resolved baseUrl value.toString)])
    else acc
  else if key = "scatteringMap" then
    if value.isString then
      (acc.1, acc.2 ++ [MaterialSetter.setScatteringMap (env.resolved baseUrl value.toString)])
    else acc
  else if key = "lightMap" then
    if value.isString then
      (acc.1, acc.2 ++ [MaterialSetter.setLightmapMap (env.resolved baseUrl value.toString)])
    else acc
  else acc

/-- The body of the key loop of `parseJSONMaterial` for the model
`hifi_shader_simple`. -/
def shaderSimpleStep (env : MaterialEnv) (materialJSON : QJsonObject)
    (acc : String × Material) (key : String) : String × Material :=
  let value := materialJSON.value key
  if key = "name" then
    if value.isString then (value.toString, acc.2) else acc
  else if key = "opacity" then
    if value.isDouble then (acc.1, acc.2 ++ [MaterialSetter.setOpacity value.toDouble]) else acc
  else if key = "albedo" then
    let parsed := parseJSONColor env value ⟨0, 0, 0⟩ false
    if parsed.1 then (acc.1, acc.2 ++ [MaterialSetter.setAlbedo parsed.2.1 parsed.2.2]) else acc
  else if key = "procedural" then
    (acc.1, acc.2 ++ [MaterialSetter.setProceduralData (env.toJson value)])
  else acc

/-- The local `modelString` of `parseJSONMaterial`: the `model` member if it is
a string, "hifi_pbr" otherwise. -/
def modelStringOf (materialJSON : QJsonObject) : String :=
  if (materialJSON.value "model").isString then (materialJSON.value "model").toString
  else "hifi_pbr"

/-- The keys `parseJSONMaterial` reads for a model: `model` itself, the keys the
loop for that model has a branch for, and `opacityMap`, which the `albedoMap`
branch looks up.  For an unrecognised model only `model` is read. -/
def keysRead (modelString : String) : List String :=
  if modelString = "hifi_pbr" then
    ["model", "name", "emissive", "opacity", "unlit", "albedo", "roughness", "metallic",
      "scattering", "emissiveMap", "albedoMap", "opacityMap", "roughnessMap", "glossMap",
      "metallicMap", "specularMap", "normalMap", "bumpMap", "occlusionMap", "scatteringMap",
      "lightMap"]
  else if modelString = "hifi_shader_simple" then
    ["model", "name", "opacity", "albedo", "procedural"]
  else ["model"]

/-- `ProceduralMaterialResource::parseJSONMaterial`: the name and the material. -/
def parseJSONMaterial (env : MaterialEnv) (materialJSON : QJsonObject) (baseUrl : QUrl) :
    String × Material :=
  let modelJSON := materialJSON.value "model"
  let modelString := modelStringOf materialJSON
  let material : Material :=
    if modelJSON.isString then [MaterialSetter.setModel modelString] else []
  if modelString = "hifi_pbr" then
    materialJSON.keys.foldl (pbrStep env materialJSON baseUrl) ("", material)
  else if modelString = "hifi_shader_simple" then
    materialJSON.keys.foldl (shaderSimpleStep env materialJSON) ("", material)
  else ("", material)

/-- Add a parsed material to the result: `networkMaterials[name] = material`
and `names.push_back(name)`. -/
def ParsedMaterials.add (self : ParsedMaterials) (parsedMaterial : String × Material) :
    ParsedMaterials :=
  { self with
    networkMaterials := mapSet self.networkMaterials parsedMaterial.1 parsedMaterial.2
    names := self.names ++ [parsedMaterial.1] }

/-- The body of the loop over a `materials` array in `parseJSONMaterials`. -/
def materialsArrayStep (env : MaterialEnv) (baseUrl : QUrl) (toReturn : ParsedMaterials)
    (material : QJsonValue) : ParsedMaterials :=
  if !material.isNull && material.isObject then
    toReturn.add (parseJSONMaterial env material.toObject baseUrl)
  else toReturn

/-- The name and material parsed from each object element of a `materials`
array, in the order of the array; elements that are not objects are left out. -/
def parsedElements (env : MaterialEnv) (baseUrl : QUrl) (materials : QJsonArray) :
    List (String × Material) :=
  (materials.toList.filter (fun material => material.isObject)).map
    (fun material => parseJSONMaterial env material.toObject baseUrl)

/-- The body of the key loop of `parseJSONMaterials`. -/
def materialsKeyStep (env : MaterialEnv) (materialJSONObject : QJsonObject) (baseUrl : QUrl)
    (toReturn : ParsedMaterials) (key : String) : ParsedMaterials :=
  if key = "materialVersion" then
    let value := materialJSONObject.value key
    if value.isDouble then
      { toReturn with version := some (Int.toNat (Int.emod value.toInt 4294967296)) }
    else toReturn
  else if key = "materials" then
    let materialsValue := materialJSONObject.value key
    if materialsValue.isArray then
      materialsValue.toArray.toList.foldl (materialsArrayStep env baseUrl) toReturn
    else if materialsValue.isObject then
      toReturn.add (parseJSONMaterial env materialsValue.toObject baseUrl)
    else toReturn
  else toReturn

/-- `ProceduralMaterialResource::parseJSONMaterials`. -/
def parseJSONMaterials (env : MaterialEnv) (materialJSON : QJsonDocument) (baseUrl : QUrl) :
    ParsedMaterials :=
  if !materialJSON.isNull && materialJSON.isObject then
    materialJSON.object.keys.foldl (materialsKeyStep env materialJSON.object baseUrl) {}
  else {}

/-- Modelled from the spec: `Resource::finishedLoading` is defined outside the
sources; per the spec it marks the cache entry loaded, as a success or as a
failure. -/
def MaterialResource.finishedLoading (self : MaterialResource) (success : Bool) :
    MaterialResource :=
  { self with loaded := true, failed := !success }

/-- `ProceduralMaterialResource::downloadFinished`: the resource after the call,
and the arguments of the calls of `finishedLoading` it made, in order. -/
def MaterialResource.downloadFinished (env : MaterialEnv) (self : MaterialResource)
    (data : String) : MaterialResource × List Bool :=
  let self := { self with parsedMaterials := {} }
  let self :=
    if contains self.url.toString ".json" then
      { self with parsedMaterials := parseJSONMaterials env (env.fromJson data) self.url }
    else self
  -- TODO: parse other material types
  (self.finishedLoading true, [true])

/-! ## The material entity renderer (RenderableMaterialEntityItem.cpp) -/

/-- `QString::startsWith`. -/
def startsWith (s start : String) : Bool := start.toList.isPrefixOf s.toList

/-- `s.contains("?")`. -/
def containsQuestionMark (s : String) : Bool := s.toList.contains '?'

/-- `s.split("?").last()`: what follows the last question mark. -/
def afterLastQuestionMark (s : String) : String :=
  String.mk (s.toList.reverse.takeWhile (fun c => c != '?')).reverse

/-- The properties of a `MaterialEntityItem` the renderer reads through its
getters (`getMaterialURL`, `getParentID`, ...). -/
structure MaterialEntityItem where
  materialURL : String := ""
  parentID : QUuid := {}
  materialMappingPos : Vec2 := ⟨0, 0⟩
  materialMappingScale : Vec2 := ⟨1, 1⟩
  materialMappingRot : ℚ := 0
  priority : Nat := 0
  parentMaterialName : String := ""
  materialData : String := ""
  deriving DecidableEq

/-- The members of a `MaterialEntityRenderer` (RenderableMaterialEntityItem.h).
The header initialises `_retryApply` only; the other defaults stand for empty
Qt values and zeroes. -/
structure MaterialEntityRenderer where
  _materialURL : String := ""
  _parentID : QUuid := {}
  _materialMappingPos : Vec2 := ⟨0, 0⟩
  _materialMappingScale : Vec2 := ⟨0, 0⟩
  _materialMappingRot : ℚ := 0
  _priority : Nat := 0
  _parentMaterialName : String := ""
  _materialData : String := ""
  _networkMaterial : Option MaterialResource := none
  _parsedMaterials : ParsedMaterials := {}
  _currentMaterialName : String := ""
  _retryApply : Bool := false
  _renderTransform : Transform := {}
  deriving DecidableEq

namespace MaterialEntityRenderer

/-- `MaterialEntityRenderer::needsRenderUpdate`; `parentNeedsRenderUpdate` is the
answer of `Parent::needsRenderUpdate()`. -/
def needsRenderUpdate (self : MaterialEntityRenderer) (parentNeedsRenderUpdate : Bool) : Bool :=
  if self._retryApply then true else parentNeedsRenderUpdate

/-- `MaterialEntityRenderer::needsRenderUpdateFromTypedEntity`. -/
def needsRenderUpdateFromTypedEntity (self : MaterialEntityRenderer)
    (entity : MaterialEntityItem) : Bool :=
  if entity.materialURL != self._materialURL then true
  else if entity.parentID != self._parentID then true
  else if entity.materialMappingPos != self._materialMappingPos ||
      entity.materialMappingScale != self._materialMappingScale ||
      entity.materialMappingRot != self._materialMappingRot then true
  else if entity.priority != self._priority then true
  else if entity.parentMaterialName != self._parentMaterialName then true
  else if entity.materialData != self._materialData then true
  else false

/-- `MaterialEntityRenderer::getMaterial`: the material under the current name,
or null. -/
def getMaterial (self : MaterialEntityRenderer) : Option Material :=
  mapFind self._parsedMaterials.networkMaterials self._currentMaterialName

/-- `MaterialEntityRenderer::setCurrentMaterialName`. -/
def setCurrentMaterialName (self : MaterialEntityRenderer) (currentMaterialName : String) :
    MaterialEntityRenderer :=
  if (mapFind self._parsedMaterials.networkMaterials currentMaterialName).isSome then
    { self with _currentMaterialName := currentMaterialName }
  else
    match self._parsedMaterials.names with
    | first :: _ => { self with _currentMaterialName := first }
    | [] => self

/-- The call `deleteMaterial` makes to the detach function of a kind:
`removeMaterialFrom...(parentID, material, _parentMaterialName.toStdString())`. -/
def detachCall (self : MaterialEntityRenderer) (kind : ParentKind) (material : Material) :
    Event :=
  Event.removeMaterial kind self._parentID material self._parentMaterialName

/-- `MaterialEntityRenderer::deleteMaterial`: the trace after the call.  The
function writes no member of the renderer. -/
def deleteMaterial (env : MaterialEnv) (self : MaterialEntityRenderer) (trace : List Event) :
    List Event :=
  match self.getMaterial with
  | none => trace
  | some material =>
    let parentID := self._parentID
    if parentID.isNull then trace
    else
      -- Our parent could be an entity, an avatar, or an overlay
      let toEntity := self.detachCall .entity material
      let toAvatar := self.detachCall .avatar material
      let toOverlay := self.detachCall .overlay material
      if env.answer trace toEntity then trace ++ [toEntity]
      else if env.answer (trace ++ [toEntity]) toAvatar then trace ++ [toEntity, toAvatar]
      -- if a remove fails, our parent is gone, so we don't need to retry
      else trace ++ [toEntity, toAvatar, toOverlay]

/-- The material layer `applyMaterial` offers: the current material with its
texture transforms set from the mapping, at the cached priority. -/
def materialLayer (self : MaterialEntityRenderer) (material : Material) : MaterialLayer :=
  { material := material ++ [MaterialSetter.setTextureTransforms self._materialMappingPos
      self._materialMappingRot self._materialMappingScale]
    priority := self._priority }

/-- The call `applyMaterial` makes to the attach function of a kind:
`addMaterialTo...(parentID, materialLayer, _parentMaterialName.toStdString())`. -/
def attachCall (self : MaterialEntityRenderer) (kind : ParentKind) (material : Material) :
    Event :=
  Event.addMaterial kind self._parentID (self.materialLayer material) self._parentMaterialName

/-- `MaterialEntityRenderer::applyMaterial`: the renderer and the trace after
the call.  `setTextureTransforms` is a call on the shared material, so the
material kept in `_parsedMaterials` changes with it. -/
def applyMaterial (env : MaterialEnv) (self : MaterialEntityRenderer) (trace : List Event) :
    MaterialEntityRenderer × List Event :=
  let self := { self with _retryApply := false }
  match self.getMaterial with
  | none => (self, trace)
  | some material =>
    let parentID := self._parentID
    if parentID.isNull then (self, trace)
    else
      let layer := self.materialLayer material
      -- Our parent could be an entity, an avatar, or an overlay
      let toEntity := self.attachCall .entity material
      let toAvatar := self.attachCall .avatar material
      let toOverlay := self.attachCall .overlay material
      let self := { self with
        _parsedMaterials := { self._parsedMaterials with
          networkMaterials :=
            mapSet self._parsedMaterials.networkMaterials self._currentMaterialName
              layer.material } }
      if env.answer trace toEntity then (self, trace ++ [toEntity])
      else if env.answer (trace ++ [toEntity]) toAvatar then (self, trace ++ [toEntity, toAvatar])
      else if env.answer (trace ++ [toEntity, toAvatar]) toOverlay then
        (self, trace ++ [toEntity, toAvatar, toOverlay])
      -- if we've reached this point, we couldn't find our parent, so we need to try again later
      else ({ self with _retryApply := true }, trace ++ [toEntity, toAvatar, toOverlay])

/-- The callback `onMaterialRequestFinished` of `setMaterialURL`, run on the
resource held in `_networkMaterial`. -/
def onMaterialRequestFinished (env : MaterialEnv) (self : MaterialEntityRenderer)
    (trace : List Event) (resource : MaterialResource) (success : Bool) :
    MaterialEntityRenderer × List Event :=
  if success then
    let self := { self with _parsedMaterials := resource.parsedMaterials }
    let self := self.setCurrentMaterialName self._currentMaterialName
    applyMaterial env self trace
  else (self, trace)

/-- `MaterialEntityRenderer::setMaterialURL`. -/
def setMaterialURL (env : MaterialEnv) (self : MaterialEntityRenderer) (trace : List Event)
    (materialURLString : String) (materialDataChanged : Bool) :
    MaterialEntityRenderer × List Event :=
  let usingMaterialData := materialDataChanged || startsWith materialURLString "materialData"
  if !materialDataChanged || usingMaterialData then
    let self := { self with _materialURL := materialURLString }
    let self :=
      if containsQuestionMark materialURLString then
        { self with _currentMaterialName := afterLastQuestionMark materialURLString }
      else self
    if usingMaterialData then
      let self := { self with
        _parsedMaterials :=
          parseJSONMaterials env (env.fromJson self._materialData) (env.toUrl materialURLString) }
      -- Since our material changed, the current name might not be valid anymore
      (self.setCurrentMaterialName self._currentMaterialName, trace)
    else
      let self := { self with _networkMaterial := env.getMaterial (env.toUrl materialURLString) }
      match self._networkMaterial with
      | some resource =>
        if resource.loaded then onMaterialRequestFinished env self trace resource (!resource.failed)
        else (self, trace ++ [Event.connectFinished resource.url])
      | none => (self, trace)
  else (self, trace)

/-- The state of an update pass: the renderer, the trace, and the local
`materialNeedsUpdate`. -/
structure UpdatePass where
  self : MaterialEntityRenderer
  trace : List Event
  materialNeedsUpdate : Bool

/-- The material URL block of `doRenderUpdateSynchronousTyped`. -/
def updateMaterialURL (env : MaterialEnv) (pass : UpdatePass) (entity : MaterialEntityItem) :
    UpdatePass :=
  if entity.materialURL != pass.self._materialURL then
    let trace :=
      if !pass.materialNeedsUpdate then deleteMaterial env pass.self pass.trace else pass.trace
    let self := { pass.self with _materialURL := entity.materialURL }
    let materialNeedsUpdate :=
      if startsWith self._materialURL "materialData" then true else pass.materialNeedsUpdate
    let set := setMaterialURL env self trace self._materialURL false
    { self := set.1, trace := set.2, materialNeedsUpdate := materialNeedsUpdate }
  else pass

/-- The parent id block of `doRenderUpdateSynchronousTyped`. -/
def updateParentID (env : MaterialEnv) (pass : UpdatePass) (entity : MaterialEntityItem) :
    UpdatePass :=
  if entity.parentID != pass.self._parentID then
    let trace :=
      if !pass.materialNeedsUpdate then deleteMaterial env pass.self pass.trace else pass.trace
    { self := { pass.self with _parentID := entity.parentID }
      trace := trace
      materialNeedsUpdate := true }
  else pass

/-- The mapping block of `doRenderUpdateSynchronousTyped`. -/
def updateMapping (env : MaterialEnv) (pass : UpdatePass) (entity : MaterialEntityItem) :
    UpdatePass :=
  if entity.materialMappingPos != pass.self._materialMappingPos ||
      entity.materialMappingScale != pass.self._materialMappingScale ||
      entity.materialMappingRot != pass.self._materialMappingRot then
    let trace :=
      if !pass.materialNeedsUpdate then deleteMaterial env pass.self pass.trace else pass.trace
    { self := { pass.self with
        _materialMappingPos := entity.materialMappingPos
        _materialMappingScale := entity.materialMappingScale
        _materialMappingRot := entity.materialMappingRot }
      trace := trace
      materialNeedsUpdate := true }
  else pass

/-- The priority block of `doRenderUpdateSynchronousTyped`. -/
def updatePriority (env : MaterialEnv) (pass : UpdatePass) (entity : MaterialEntityItem) :
    UpdatePass :=
  if entity.priority != pass.self._priority then
    let trace :=
      if !pass.materialNeedsUpdate then deleteMaterial env pass.self pass.trace else pass.trace
    { self := { pass.self with _priority := entity.priority }
      trace := trace
      materialNeedsUpdate := true }
  else pass

/-- The parent material name block of `doRenderUpdateSynchronousTyped`. -/
def updateParentMaterialName (env : MaterialEnv) (pass : UpdatePass)
    (entity : MaterialEntityItem) : UpdatePass :=
  if entity.parentMaterialName != pass.self._parentMaterialName then
    let trace :=
      if !pass.materialNeedsUpdate then deleteMaterial env pass.self pass.trace else pass.trace
    { self := { pass.self with _parentMaterialName := entity.parentMaterialName }
      trace := trace
      materialNeedsUpdate := true }
  else pass

/-- The material data block of `doRenderUpdateSynchronousTyped`. -/
def updateMaterialData (env : MaterialEnv) (pass : UpdatePass) (entity : MaterialEntityItem) :
    UpdatePass :=
  if entity.materialData != pass.self._materialData then
    let trace :=
      if !pass.materialNeedsUpdate then deleteMaterial env pass.self pass.trace else pass.trace
    let self := { pass.self with _materialData := entity.materialData }
    if startsWith self._materialURL "materialData" then
      -- Trigger material update when material data changes
      let set := setMaterialURL env self trace self._materialURL true
      { self := set.1, trace := set.2, materialNeedsUpdate := true }
    else { self := self, trace := trace, materialNeedsUpdate := pass.materialNeedsUpdate }
  else pass

/-- The end of `doRenderUpdateSynchronousTyped`: the attach, the request for
another update when it has to be retried, and the render transform. -/
def finishUpdate (env : MaterialEnv) (pass : UpdatePass) : MaterialEntityRenderer × List Event :=
  let applied :=
    if pass.self._retryApply || pass.materialNeedsUpdate then
      let applied := applyMaterial env pass.self pass.trace
      if applied.1._retryApply then (applied.1, applied.2 ++ [Event.requestRenderUpdate])
      else applied
    else (pass.self, pass.trace)
  ({ applied.1 with
      _renderTransform :=
        ((env.getModelTransform.postScale ⟨1 / 2, 1 / 2, 1 / 2⟩).postScale
          env.ENTITY_ITEM_DEFAULT_DIMENSIONS) },
    applied.2)

/-- `MaterialEntityRenderer::doRenderUpdateSynchronousTyped`: the renderer and
the trace after the pass. -/
def doRenderUpdateSynchronousTyped (env : MaterialEnv) (self : MaterialEntityRenderer)
    (trace : List Event) (entity : MaterialEntityItem) : MaterialEntityRenderer × List Event :=
  let pass : UpdatePass := { self := self, trace := trace, materialNeedsUpdate := false }
  let pass := updateMaterialURL env pass entity
  let pass := updateParentID env pass entity
  let pass := updateMapping env pass entity
  let pass := updatePriority env pass entity
  let pass := updateParentMaterialName env pass entity
  let pass := updateMaterialData env pass entity
  finishUpdate env pass

/-- The eight cached copies of entity properties, put together as an entity
with those properties. -/
def cached (self : MaterialEntityRenderer) : MaterialEntityItem :=
  { materialURL := self._materialURL
    parentID := self._parentID
    materialMappingPos := self._materialMappingPos
    materialMappingScale := self._materialMappingScale
    materialMappingRot := self._materialMappingRot
    priority := self._priority
    parentMaterialName := self._parentMaterialName
    materialData := self._materialData }

end MaterialEntityRenderer

/-- Modelled from the spec: `render::Args::RenderMode` is declared outside the
sources.  `doRender` only tells `SHADOW_RENDER_MODE` from the other modes,
which all stand as `DEFAULT_RENDER_MODE`. -/
inductive RenderMode where
  | DEFAULT_RENDER_MODE
  | SHADOW_RENDER_MODE
  deriving DecidableEq

/-- Modelled from the spec: `RenderArgs` is declared outside the sources; these
are the members `doRender` reads and writes, the two counters being
`_details._materialSwitches` and `_details._trianglesRendered`. -/
structure RenderArgs where
  _batch : Batch := []
  _renderMode : RenderMode := .DEFAULT_RENDER_MODE
  _enableTexturing : Bool := true
  _materialSwitches : Nat := 0
  _trianglesRendered : Int := 0
  deriving DecidableEq

/-- What `doRender` takes from the rest of the client. -/
structure RenderEnv where
  /-- What the procedural engine of the material reads during the call. -/
  engine : Env
  /-- `graphics::Material::getAlbedo`. -/
  getAlbedo : Material → Vec3
  /-- `GeometryCache::getSphereTriangleCount`. -/
  getSphereTriangleCount : Nat

/-- What `doRender` leaves behind: the renderer, the procedural engine of the
material, and the render arguments with their batch. -/
structure Rendered where
  self : MaterialEntityRenderer
  procedural : Procedural
  args : RenderArgs
  deriving DecidableEq

namespace MaterialEntityRenderer

/-- `MaterialEntityRenderer::doRender`.  Modelled from the spec:
`graphics::ProceduralMaterial` is declared outside the sources, so the engine
that `getProcedural()` and `editProcedural()` of the resolved material give is
passed in as `procedural` and handed back as it is after the call. -/
def doRender (env : RenderEnv) (self : MaterialEntityRenderer) (procedural : Procedural)
    (args : RenderArgs) : Rendered :=
  -- Don't render if our parent is set or our material is null
  let parentID := self._parentID
  let renderTransform := self._renderTransform
  let drawMaterial := self.getMaterial
  let ready : Bool × Procedural :=
    match drawMaterial with
    | some _ => procedural.isReady env.engine
    | none => (false, procedural)
  let outColor : Vec4 :=
    match drawMaterial with
    | some material =>
      ready.2.getColor ⟨(env.getAlbedo material).x, (env.getAlbedo material).y,
        (env.getAlbedo material).z, 1⟩
    | none => ⟨0, 0, 0, 0⟩
  let prepared : Procedural.Prepared :=
    if ready.1 then
      ready.2.prepare env.engine args._batch renderTransform.translation renderTransform.scale
        renderTransform.rotation {}
    else { self := ready.2, batch := args._batch, compiled := [] }
  let proceduralRender := ready.1
  let args := { args with _batch := prepared.batch }
  match drawMaterial with
  | none => { self := self, procedural := prepared.self, args := args }
  | some material =>
    if !parentID.isNull then { self := self, procedural := prepared.self, args := args }
    else
      let args := { args with
        _batch := args._batch ++ [Command.setModelTransform renderTransform] }
      let drawn : MaterialEntityRenderer × RenderArgs :=
        if !proceduralRender then
          let bound : MaterialEntityRenderer × RenderArgs :=
            if args._renderMode != RenderMode.SHADOW_RENDER_MODE then
              let material := material ++
                [MaterialSetter.setTextureTransforms self._materialMappingPos
                  self._materialMappingRot self._materialMappingScale]
              ({ self with
                  _parsedMaterials := { self._parsedMaterials with
                    networkMaterials :=
                      mapSet self._parsedMaterials.networkMaterials self._currentMaterialName
                        material } },
                -- bind the material
                { args with
                  _batch := args._batch ++ [Command.bindMaterial material args._enableTexturing]
                  _materialSwitches := args._materialSwitches + 1 })
            else (self, args)
          -- Draw!
          (bound.1, { bound.2 with _batch := bound.2._batch ++ [Command.renderSphere none] })
        else (self, { args with _batch := args._batch ++ [Command.renderSphere (some outColor)] })
      { self := drawn.1
        procedural := prepared.self
        args := { drawn.2 with
          _trianglesRendered :=
            drawn.2._trianglesRendered + (env.getSphereTriangleCount : Int) } }

end MaterialEntityRenderer

/-! ## Concrete materials and renderers -/

/-- The parsed set with the single material `a`, on which no setter was called. -/
def sampleParsedMaterials : ParsedMaterials :=
  { networkMaterials := [("a", [])], names := ["a"] }

/-- An environment in which only the avatar resolvers recognise an id, the
material cache holds one loaded entry, for `http://x/m.json`, with the
material `a`, and JSON text never parses. -/
def sampleMaterialEnv : MaterialEnv :=
  { resolved := fun base s => { valid := true, scheme := base.scheme, host := base.host, path := s }
    toJson := fun _ => ""
    vec3FromVariant := fun _ => (⟨0, 0, 0⟩, false)
    fromJson := fun _ => QJsonDocument.null
    toUrl := fun s => { valid := true, path := s }
    answer := fun _ event =>
      match event with
      | Event.addMaterial ParentKind.avatar _ _ _ => true
      | Event.removeMaterial ParentKind.avatar _ _ _ => true
      | _ => false
    getMaterial := fun url =>
      if url.path = "http://x/m.json" then
        some { url := url, loaded := true, failed := false
               parsedMaterials := sampleParsedMaterials }
      else none
    getModelTransform := {}
    ENTITY_ITEM_DEFAULT_DIMENSIONS := ⟨1 / 10, 1 / 10, 1 / 10⟩ }

/-- A renderer with the material `a` resolved, attached to the parent with id 7
under the slot name `slot`. -/
def sampleRenderer : MaterialEntityRenderer :=
  { _materialURL := "http://x/old.json"
    _parentID := ⟨7⟩
    _parentMaterialName := "slot"
    _parsedMaterials := sampleParsedMaterials
    _currentMaterialName := "a" }

/-- The document with `materials` an array of the one material named `a`, of
model `hifi_pbr`, with albedo `[1, 0, 0]`. -/
def sampleMaterialDocument : QJsonDocument :=
  QJsonDocument.ofObject (QJsonObject.ofList
    [("materials", QJsonValue.array (QJsonArray.ofList
      [QJsonValue.object (QJsonObject.ofList
        [("albedo", QJsonValue.array (QJsonArray.ofList
          [QJsonValue.double 1, QJsonValue.double 0, QJsonValue.double 0])),
         ("model", QJsonValue.string "hifi_pbr"),
         ("name", QJsonValue.string "a")])]))])

/-- The top-level object whose `materials` array holds a material named `a` with
opacity 1, an element that is not an object, and a material named `a` with
opacity 2 (no `model` member, so both are `hifi_pbr`). -/
def sampleDuplicateNames : QJsonObject :=
  QJsonObject.ofList
    [("materials", QJsonValue.array (QJsonArray.ofList
      [QJsonValue.object (QJsonObject.ofList
        [("name", QJsonValue.string "a"), ("opacity", QJsonValue.double 1)]),
       QJsonValue.double 3,
       QJsonValue.object (QJsonObject.ofList
        [("name", QJsonValue.string "a"), ("opacity", QJsonValue.double 2)])]))]

/-- The entity of the sample renderer after it has been given the parent with
id 9 and the material URL `http://x/m.json`, which the cache has loaded; its
other properties are those the sample renderer holds. -/
def sampleReparentedEntity : MaterialEntityItem :=
  { materialURL := "http://x/m.json"
    parentID := ⟨9⟩
    materialMappingScale := ⟨0, 0⟩
    parentMaterialName := "slot" }

/-- The entity of the sample renderer after it has been given the parent with
id 9 and nothing else has changed. -/
def sampleMovedEntity : MaterialEntityItem :=
  { materialURL := "http://x/old.json"
    parentID := ⟨9⟩
    materialMappingScale := ⟨0, 0⟩
    parentMaterialName := "slot" }

/-- An engine whose descriptor has the uniforms `a`, the empty array, and `b`,
the number 5. -/
def sampleSlotsEngine : Procedural :=
  { _data := { uniforms := (QJsonObject.ofList
      [("a", QJsonValue.array (QJsonArray.ofList [])), ("b", QJsonValue.double 5)]) } }

/-- The pipeline the sample engine builds for the transparent key: its
descriptor has version 2. -/
def sampleStalePipeline : Pipeline :=
  sampleEngine.buildPipeline sampleEnv { transparent := true }

/-- The sample engine after `prepare` for the default key and for the
transparent key, and then a new descriptor that differs in its version, 1. -/
def sampleStaleEngine : Procedural :=
  (((sampleEngine.prepare sampleEnv [] ⟨0, 0, 0⟩ ⟨1, 1, 1⟩ ⟨0, 0, 0, 1⟩ {}).self.prepare
    sampleEnv [] ⟨0, 0, 0⟩ ⟨1, 1, 1⟩ ⟨0, 0, 0, 1⟩ { transparent := true }).self).setProceduralData
    sampleEnv { version := 1, fragmentShaderUrl := qrcShader, uniforms := sampleUniforms 1 }

/-- What `doRender` takes from the client in the sample environment: every
material has a white albedo and the sphere has 320 triangles. -/
def sampleRenderEnv : RenderEnv :=
  { engine := sampleEnv
    getAlbedo := fun _ => ⟨1, 1, 1⟩
    getSphereTriangleCount := 320 }

/-- The sample material environment with a JSON reader that gives the sample
material document for every payload. -/
def sampleParsingEnv : MaterialEnv :=
  { sampleMaterialEnv with fromJson := fun _ => sampleMaterialDocument }

/-- A cache entry that has not loaded, for the URL `http://x.json.org/m.txt`. -/
def samplePendingResource : MaterialResource :=
  { url := { valid := true, scheme := "http", host := "x.json.org", path := "/m.txt" }
    loaded := false
    failed := false
    parsedMaterials := {} }

/-- A `hifi_pbr` material object whose `albedoMap` and `opacityMap` are both the
string `t.png`. -/
def sampleAlbedoMapMaterial : QJsonObject :=
  QJsonObject.ofList
    [("albedoMap", QJsonValue.string "t.png"), ("opacityMap", QJsonValue.string "t.png")]

/-- The entity of the sample renderer after its material data has been set to
`x` and nothing else has changed. -/
def sampleDataChangedEntity : MaterialEntityItem :=
  { materialURL := "http://x/old.json"
    parentID := ⟨7⟩
    materialMappingScale := ⟨0, 0⟩
    parentMaterialName := "slot"
    materialData := "x" }

/-- The entity of the sample renderer after it has been given the material URL
`http://x/new.json`, which the cache does not hold, and the priority 1. -/
def sampleRetargetedEntity : MaterialEntityItem :=
  { materialURL := "http://x/new.json"
    parentID := ⟨7⟩
    materialMappingScale := ⟨0, 0⟩
    priority := 1
    parentMaterialName := "slot" }

/-- An engine whose descriptor has the uniforms `a`, the number 1, and a key
made of `a`, a NUL character and `b`, the number 2. -/
def sampleNulKeyEngine : Procedural :=
  { _data := { uniforms := (QJsonObject.ofList
      [("a", QJsonValue.double 1), ("a\x00b", QJsonValue.double 2)]) } }

/-! ## Lemmas on JSON values and descriptors -/

/-- An object in which a key has a defined value is not empty. -/
theorem QJsonObject.isEmpty_of_value (o : QJsonObject) (key : String) (v : QJsonValue)
    (h : o.value key = v) (hv : v ≠ .undefined) : o.isEmpty = false := by
  cases o with
  | nil => exact absurd h.symm hv
  | cons k w t => rfl

/-- Two objects in key order with the same set of keys report the same `keys()`. -/
theorem QJsonObject.keys_eq_of_sorted (a b : QJsonObject) (ha : a.keysSorted)
    (hb : b.keysSorted) (h : ∀ k, k ∈ a.keys ↔ k ∈ b.keys) : a.keys = b.keys := by
  unfold QJsonObject.keysSorted at ha hb
  have hp : a.keys.Perm b.keys :=
    (List.perm_ext_iff_of_nodup (List.Pairwise.nodup ha) (List.Pairwise.nodup hb)).mpr h
  exact List.eq_of_perm_of_sorted hp ha hb

/-- `operator==` on descriptors decides equality of descriptors. -/
theorem ProceduralData.beq_iff_eq (a b : ProceduralData) : (a == b) = true ↔ a = b := by
  show ProceduralData.equals a b = true ↔ a = b
  cases a; cases b
  simp [ProceduralData.equals, and_assoc]

/-- `operator==` holds between a descriptor and itself. -/
theorem ProceduralData.beq_self (a : ProceduralData) : (a == a) = true :=
  (ProceduralData.beq_iff_eq a a).mpr rfl

/-- Assignments to two different fields commute. -/
theorem ProceduralData.assign_comm (d : ProceduralData) (x y : ProceduralData.Assign)
    (h : x.field ≠ y.field) :
    (d.assign x).assign y = (d.assign y).assign x := by
  cases x <;> cases y <;> first | rfl | exact absurd rfl h

/-- Reordering assignments that each write a different field does not change the descriptor built. -/
theorem ProceduralData.build_perm (l1 l2 : List ProceduralData.Assign) (hp : l1.Perm l2)
    (hn : (l1.map ProceduralData.Assign.field).Nodup) :
    ProceduralData.build l1 = ProceduralData.build l2 := by
  unfold ProceduralData.build
  refine hp.foldl_eq' ?_ _
  intro x hx y hy z
  by_cases hxy : x = y
  · rw [hxy]
  · apply ProceduralData.assign_comm
    intro hf
    exact hxy (List.inj_on_of_nodup_map hn hx hy hf)

/-- A numeric `version` is stored as its floor in eight bits, also when it is rejected. -/
theorem ProceduralData.parse_version_of_double (normalizeURL : String → QUrl)
    (o : QJsonObject) (x : ℚ) (h : o.value "version" = .double x) :
    (ProceduralData.parse normalizeURL o).version = toUInt8Floor x := by
  have hne : o.isEmpty = false := QJsonObject.isEmpty_of_value o _ _ h (by simp)
  unfold ProceduralData.parse ProceduralData.parseInto
  simp only [hne, h, QJsonValue.isDouble, QJsonValue.toDouble]
  split_ifs <;> first | rfl | contradiction

/-- A descriptor without a numeric `version` is version 1. -/
theorem ProceduralData.parse_version_of_not_double (normalizeURL : String → QUrl)
    (o : QJsonObject) (hne : o.isEmpty = false) (h : (o.value "version").isDouble = false) :
    (ProceduralData.parse normalizeURL o).version = 1 := by
  unfold ProceduralData.parse ProceduralData.parseInto
  simp [hne, h]

/-- With an accepted numeric version the uniforms are read from the `uniforms` member. -/
theorem ProceduralData.parse_uniforms_of_double (normalizeURL : String → QUrl)
    (o : QJsonObject) (x : ℚ) (h : o.value "version" = QJsonValue.double x)
    (hx : toUInt8Floor x = 1 ∨ toUInt8Floor x = 2 ∨ toUInt8Floor x = 3) :
    (ProceduralData.parse normalizeURL o).uniforms = (o.value "uniforms").toObject := by
  have hne : o.isEmpty = false := QJsonObject.isEmpty_of_value o _ _ h (by simp)
  unfold ProceduralData.parse ProceduralData.parseInto
  rcases hx with hx | hx | hx <;>
    simp [hne, h, QJsonValue.isDouble, QJsonValue.toDouble, hx]

/-- The number 1.5 is stored as version 1. -/
theorem toUInt8Floor_three_halves : toUInt8Floor (3 / 2) = 1 := by
  unfold toUInt8Floor
  rw [Rat.floor_def']
  norm_num

/-! ## Lemmas on maps kept as lists of entries -/

/-- Looking up a key just set gives the value set. -/
theorem mapFind_mapSet_self {κ ν : Type} [DecidableEq κ] (m : List (κ × ν)) (k : κ) (v : ν) :
    mapFind (mapSet m k v) k = some v := by
  induction m with
  | nil => simp [mapSet, mapFind]
  | cons e m ih =>
    obtain ⟨k1, v1⟩ := e
    unfold mapSet
    split_ifs with h
    · simp [mapFind]
    · simp [mapFind, h, ih]

/-- Setting a key keeps the keys, adding the key at the end if it is new. -/
theorem mapSet_keys {κ ν : Type} [DecidableEq κ] (m : List (κ × ν)) (k : κ) (v : ν) :
    (mapSet m k v).map Prod.fst =
      if k ∈ m.map Prod.fst then m.map Prod.fst else m.map Prod.fst ++ [k] := by
  induction m with
  | nil => simp [mapSet]
  | cons e m ih =>
    obtain ⟨k1, v1⟩ := e
    unfold mapSet
    by_cases h : k1 = k
    · simp [h]
    · have h2 : ¬ k = k1 := fun e => h e.symm
      rw [if_neg h]
      simp only [List.map_cons, ih, List.mem_cons, h2, false_or]
      split_ifs <;> simp

/-- Setting a key keeps the keys free of duplicates. -/
theorem mapSet_keys_nodup {κ ν : Type} [DecidableEq κ] (m : List (κ × ν)) (k : κ) (v : ν)
    (h : (m.map Prod.fst).Nodup) : ((mapSet m k v).map Prod.fst).Nodup := by
  rw [mapSet_keys]
  split_ifs with hk
  · exact h
  · exact List.Nodup.append h (List.nodup_singleton k) (by simpa using hk)

/-! ## Lemmas on the engine -/

namespace Procedural

theorem applyVersion_data (self : Procedural) (d : ProceduralData) :
    (applyVersion self d)._data = { self._data with version := d.version } := by
  unfold applyVersion
  split_ifs with h
  · rfl
  · simp at h
    rw [h]

theorem applyUniforms_data (self : Procedural) (d : ProceduralData) :
    (applyUniforms self d)._data = { self._data with uniforms := d.uniforms } := by
  unfold applyUniforms
  split_ifs with h h2
  · rfl
  · rfl
  · simp at h
    rw [h]

theorem applyChannels_data (env : Env) (self : Procedural) (d : ProceduralData) :
    (applyChannels env self d)._data = { self._data with channels := d.channels } := by
  unfold applyChannels
  split_ifs with h
  · rfl
  · simp at h
    rw [h]

theorem applyFragmentShaderUrl_data (env : Env) (self : Procedural) (d : ProceduralData) :
    (applyFragmentShaderUrl env self d)._data =
      { self._data with fragmentShaderUrl := d.fragmentShaderUrl } := by
  unfold applyFragmentShaderUrl
  dsimp only
  split_ifs with h <;> try rfl
  simp at h
  rw [h]

/-- The descriptor stored by `setProceduralData`: the new one except for the vertex shader URL, which is kept. -/
theorem setProceduralData_data (env : Env) (self : Procedural) (d : ProceduralData) :
    (self.setProceduralData env d)._data =
      { d with vertexShaderUrl := self._data.vertexShaderUrl } := by
  unfold setProceduralData
  split_ifs with h
  · rw [(ProceduralData.beq_iff_eq _ _).mp h]
  · simp only [applyFragmentShaderUrl_data, applyChannels_data, applyUniforms_data,
      applyVersion_data]

theorem applyVersion_shaderDirty (self : Procedural) (d : ProceduralData) :
    (applyVersion self d)._shaderDirty =
      (self._shaderDirty || d.version != self._data.version) := by
  unfold applyVersion
  split_ifs with h <;> simp [h]

theorem applyUniforms_shaderDirty (self : Procedural) (d : ProceduralData) :
    (applyUniforms self d)._shaderDirty =
      (self._shaderDirty || d.uniforms.keys != self._data.uniforms.keys) := by
  unfold applyUniforms
  dsimp only
  split_ifs with h h2 <;> simp_all

theorem applyChannels_shaderDirty (env : Env) (self : Procedural) (d : ProceduralData) :
    (applyChannels env self d)._shaderDirty = self._shaderDirty := by
  unfold applyChannels
  split_ifs <;> rfl

theorem applyFragmentShaderUrl_shaderDirty (env : Env) (self : Procedural)
    (d : ProceduralData) :
    (applyFragmentShaderUrl env self d)._shaderDirty =
      (self._shaderDirty || d.fragmentShaderUrl != self._data.fragmentShaderUrl) := by
  unfold applyFragmentShaderUrl
  dsimp only
  split_ifs with h <;> simp_all

theorem applyVersion_uniformsDirty (self : Procedural) (d : ProceduralData) :
    (applyVersion self d)._uniformsDirty = self._uniformsDirty := by
  unfold applyVersion
  split_ifs <;> rfl

theorem applyUniforms_uniformsDirty (self : Procedural) (d : ProceduralData) :
    (applyUniforms self d)._uniformsDirty =
      (self._uniformsDirty || d.uniforms != self._data.uniforms) := by
  unfold applyUniforms
  dsimp only
  split_ifs with h h2 <;> simp_all

theorem applyChannels_uniformsDirty (env : Env) (self : Procedural) (d : ProceduralData) :
    (applyChannels env self d)._uniformsDirty = self._uniformsDirty := by
  unfold applyChannels
  split_ifs <;> rfl

theorem applyFragmentShaderUrl_uniformsDirty (env : Env) (self : Procedural)
    (d : ProceduralData) :
    (applyFragmentShaderUrl env self d)._uniformsDirty = self._uniformsDirty := by
  unfold applyFragmentShaderUrl
  dsimp only
  split_ifs <;> rfl

theorem applyFragmentShaderUrl_enabled (env : Env) (self : Procedural) (d : ProceduralData) :
    (applyFragmentShaderUrl env self d)._enabled =
      if d.fragmentShaderUrl != self._data.fragmentShaderUrl then
        (self._enabled || (d.fragmentShaderUrl.isValid &&
          (!d.fragmentShaderUrl.isLocalFile || env.fileExists d.fragmentShaderUrl.toLocalFile)))
      else true := by
  unfold applyFragmentShaderUrl
  dsimp only
  split_ifs <;> simp_all

theorem applyVersion_enabled (self : Procedural) (d : ProceduralData) :
    (applyVersion self d)._enabled = self._enabled := by
  unfold applyVersion
  split_ifs <;> rfl

theorem applyUniforms_enabled (self : Procedural) (d : ProceduralData) :
    (applyUniforms self d)._enabled = self._enabled := by
  unfold applyUniforms
  dsimp only
  split_ifs <;> rfl

theorem applyChannels_enabled (env : Env) (self : Procedural) (d : ProceduralData) :
    (applyChannels env self d)._enabled = self._enabled := by
  unfold applyChannels
  split_ifs <;> rfl

/-- The shader-dirty flag after `setProceduralData`. -/
theorem setProceduralData_shaderDirty (env : Env) (self : Procedural) (d : ProceduralData) :
    (self.setProceduralData env d)._shaderDirty =
      if d == self._data then self._shaderDirty
      else (self._shaderDirty || d.version != self._data.version
        || d.uniforms.keys != self._data.uniforms.keys
        || d.fragmentShaderUrl != self._data.fragmentShaderUrl) := by
  unfold setProceduralData
  split_ifs with h
  · rfl
  · simp only [applyFragmentShaderUrl_shaderDirty, applyChannels_shaderDirty,
      applyUniforms_shaderDirty, applyVersion_shaderDirty, applyChannels_data,
      applyUniforms_data, applyVersion_data]

/-- The uniforms-dirty flag after `setProceduralData`. -/
theorem setProceduralData_uniformsDirty (env : Env) (self : Procedural) (d : ProceduralData) :
    (self.setProceduralData env d)._uniformsDirty =
      if d == self._data then self._uniformsDirty
      else (self._uniformsDirty || d.uniforms != self._data.uniforms) := by
  unfold setProceduralData
  split_ifs with h
  · rfl
  · simp only [applyFragmentShaderUrl_uniformsDirty, applyChannels_uniformsDirty,
      applyUniforms_uniformsDirty, applyVersion_uniformsDirty, applyVersion_data]

/-- The enabled flag after `setProceduralData`. -/
theorem setProceduralData_enabled (env : Env) (self : Procedural) (d : ProceduralData) :
    (self.setProceduralData env d)._enabled =
      if d == self._data then self._enabled
      else if d.fragmentShaderUrl != self._data.fragmentShaderUrl then
        (d.fragmentShaderUrl.isValid &&
          (!d.fragmentShaderUrl.isLocalFile || env.fileExists d.fragmentShaderUrl.toLocalFile))
      else true := by
  unfold setProceduralData
  split_ifs with h h2
  · rfl
  · simp only [applyFragmentShaderUrl_enabled, applyChannels_enabled,
      applyUniforms_enabled, applyVersion_enabled, applyChannels_data,
      applyUniforms_data, applyVersion_data, h2, if_true, Bool.false_or]
  · simp only [applyFragmentShaderUrl_enabled, applyChannels_enabled,
      applyUniforms_enabled, applyVersion_enabled, applyChannels_data,
      applyUniforms_data, applyVersion_data, h2]
    simp

/-- The answer of `isReady` as a function of the engine before the call. -/
theorem isReady_fst (env : Env) (self : Procedural) :
    (self.isReady env).1 =
      (!env.USE_GLES && self._enabled &&
        !((!(!self._fragmentShaderPath.isEmpty || self._networkFragmentShader.isSome) &&
            !(!self._vertexShaderPath.isEmpty || self._networkVertexShader.isSome)) ||
          ((!self._fragmentShaderPath.isEmpty || self._networkFragmentShader.isSome) &&
            !(!self._fragmentShaderPath.isEmpty ||
              (match self._networkFragmentShader with
                | some shader => env.shaderLoaded shader
                | none => false))) ||
          ((!self._vertexShaderPath.isEmpty || self._networkVertexShader.isSome) &&
            !(!self._vertexShaderPath.isEmpty ||
              (match self._networkVertexShader with
                | some shader => env.shaderLoaded shader
                | none => false)))) &&
        !(List.range env.MAX_PROCEDURAL_TEXTURE_CHANNELS).any (fun i =>
          match self.channel i with
          | some texture => !env.textureLoaded texture
          | none => false)) := by
  unfold isReady
  by_cases hg : env.USE_GLES = true
  · simp [hg]
  rw [if_neg hg]
  by_cases he : self._enabled = true
  swap
  · simp [he]
  rw [if_neg (by simp [he])]
  lift_lets
  intro s1
  have h1 : s1._fragmentShaderPath = self._fragmentShaderPath := by
    simp only [s1]; split_ifs <;> rfl
  have h2 : s1._networkFragmentShader = self._networkFragmentShader := by
    simp only [s1]; split_ifs <;> rfl
  have h3 : s1._vertexShaderPath = self._vertexShaderPath := by
    simp only [s1]; split_ifs <;> rfl
  have h4 : s1._networkVertexShader = self._networkVertexShader := by
    simp only [s1]; split_ifs <;> rfl
  have h5 : ∀ i, s1.channel i = self.channel i := by
    intro i
    simp only [s1]; split_ifs <;> rfl
  clear_value s1
  intro hasF loadedF hasV loadedV s2
  simp only [hasF, loadedF, hasV, loadedV, h1, h2, h3, h4, h5]
  simp only [Bool.not_eq_true] at hg
  have key : ∀ (c1 c2 : Bool) (a b : Procedural),
      (if c1 = true then (false, a) else if c2 = true then (false, a) else (true, b)).1 =
        (!false && true && !c1 && !c2) := by
    intro c1 c2 a b
    cases c1 <;> cases c2 <;> rfl
  rw [hg, he]
  exact key _ _ _ _

theorem refreshFragmentSource_shaderDirty (env : Env) (self : Procedural) :
    (refreshFragmentSource env self)._shaderDirty =
      (self._shaderDirty || (!self._fragmentShaderPath.isEmpty &&
        decide (env.lastModified self._fragmentShaderPath > self._fragmentShaderModified))) := by
  unfold refreshFragmentSource
  cases hp : self._fragmentShaderPath.isEmpty
  · by_cases hl : env.lastModified self._fragmentShaderPath > self._fragmentShaderModified
    · simp [hl]
    · simp [hl]
  · simp only [Bool.not_true, Bool.false_and, Bool.or_false, Bool.false_eq_true, if_false]
    split
    · split_ifs <;> rfl
    · rfl

theorem refreshFragmentSource_modified (env : Env) (self : Procedural) :
    (refreshFragmentSource env self)._fragmentShaderModified =
      if self._fragmentShaderPath.isEmpty then self._fragmentShaderModified
      else max (env.lastModified self._fragmentShaderPath) self._fragmentShaderModified := by
  unfold refreshFragmentSource
  cases hp : self._fragmentShaderPath.isEmpty
  · by_cases hl : env.lastModified self._fragmentShaderPath > self._fragmentShaderModified
    · simp [hl, max_eq_left (le_of_lt hl)]
    · simp [hl, max_eq_right (not_lt.mp hl)]
  · simp only [Bool.not_true, Bool.false_eq_true, if_false, if_true]
    split
    · split_ifs <;> rfl
    · rfl

theorem refreshFragmentSource_frame (env : Env) (self : Procedural) :
    (refreshFragmentSource env self)._proceduralPipelines = self._proceduralPipelines ∧
    (refreshFragmentSource env self)._fragmentShaderPath = self._fragmentShaderPath ∧
    (refreshFragmentSource env self)._vertexShaderPath = self._vertexShaderPath ∧
    (refreshFragmentSource env self)._vertexShaderModified = self._vertexShaderModified := by
  unfold refreshFragmentSource
  dsimp only
  split_ifs
  · exact ⟨rfl, rfl, rfl, rfl⟩
  · exact ⟨rfl, rfl, rfl, rfl⟩
  · split
    · split_ifs <;> exact ⟨rfl, rfl, rfl, rfl⟩
    · exact ⟨rfl, rfl, rfl, rfl⟩

theorem refreshFragmentSource_data (env : Env) (self : Procedural) :
    (refreshFragmentSource env self)._data = self._data := by
  unfold refreshFragmentSource
  dsimp only
  split_ifs
  · rfl
  · rfl
  · split
    · split_ifs <;> rfl
    · rfl

theorem refreshVertexSource_shaderDirty (env : Env) (self : Procedural) :
    (refreshVertexSource env self)._shaderDirty =
      (self._shaderDirty || (!self._vertexShaderPath.isEmpty &&
        decide (env.lastModified self._vertexShaderPath > self._vertexShaderModified))) := by
  unfold refreshVertexSource
  cases hp : self._vertexShaderPath.isEmpty
  · by_cases hl : env.lastModified self._vertexShaderPath > self._vertexShaderModified
    · simp [hl]
    · simp [hl]
  · simp only [Bool.not_true, Bool.false_and, Bool.or_false, Bool.false_eq_true, if_false]
    split
    · split_ifs <;> rfl
    · rfl

theorem refreshVertexSource_modified (env : Env) (self : Procedural) :
    (refreshVertexSource env self)._vertexShaderModified =
      if self._vertexShaderPath.isEmpty then self._vertexShaderModified
      else max (env.lastModified self._vertexShaderPath) self._vertexShaderModified := by
  unfold refreshVertexSource
  cases hp : self._vertexShaderPath.isEmpty
  · by_cases hl : env.lastModified self._vertexShaderPath > self._vertexShaderModified
    · simp [hl, max_eq_left (le_of_lt hl)]
    · simp [hl, max_eq_right (not_lt.mp hl)]
  · simp only [Bool.not_true, Bool.false_eq_true, if_false, if_true]
    split
    · split_ifs <;> rfl
    · rfl

theorem refreshVertexSource_frame (env : Env) (self : Procedural) :
    (refreshVertexSource env self)._proceduralPipelines = self._proceduralPipelines ∧
    (refreshVertexSource env self)._fragmentShaderPath = self._fragmentShaderPath ∧
    (refreshVertexSource env self)._vertexShaderPath = self._vertexShaderPath ∧
    (refreshVertexSource env self)._fragmentShaderModified = self._fragmentShaderModified := by
  unfold refreshVertexSource
  dsimp only
  split_ifs
  · exact ⟨rfl, rfl, rfl, rfl⟩
  · exact ⟨rfl, rfl, rfl, rfl⟩
  · split
    · split_ifs <;> exact ⟨rfl, rfl, rfl, rfl⟩
    · exact ⟨rfl, rfl, rfl, rfl⟩

theorem refreshVertexSource_data (env : Env) (self : Procedural) :
    (refreshVertexSource env self)._data = self._data := by
  unfold refreshVertexSource
  dsimp only
  split_ifs
  · rfl
  · rfl
  · split
    · split_ifs <;> rfl
    · rfl

/-- Calling a closure changes at most the standard inputs and the frame counter, and appends commands that bind no pipeline. -/
theorem callUniform_eq (env : Env) (self : Procedural) (batch : Batch) (l : UniformLambda) :
    ∃ inputs count commands,
      callUniform env self batch l =
        ({ self with _standardInputs := inputs, _frameCount := count }, batch ++ commands) ∧
      ∀ p, Command.setPipeline p ∉ commands := by
  cases l with
  | uniform1f slot x => exact ⟨_, _, [_], rfl, by simp⟩
  | uniform2f slot x y => exact ⟨_, _, [_], rfl, by simp⟩
  | uniform3f slot x y z => exact ⟨_, _, [_], rfl, by simp⟩
  | uniform4f slot x y z w => exact ⟨_, _, [_], rfl, by simp⟩
  | standardInputs => exact ⟨_, _, [_], rfl, by simp⟩

/-- Calling a list of closures changes at most the standard inputs and the frame counter, and appends commands that bind no pipeline. -/
theorem foldl_callUniform_eq (env : Env) (ls : List UniformLambda) (self : Procedural)
    (batch : Batch) :
    ∃ inputs count commands,
      ls.foldl (fun (acc : Procedural × Batch) lambda => callUniform env acc.1 acc.2 lambda)
          (self, batch) =
        ({ self with _standardInputs := inputs, _frameCount := count }, batch ++ commands) ∧
      ∀ p, Command.setPipeline p ∉ commands := by
  induction ls generalizing self batch with
  | nil => exact ⟨self._standardInputs, self._frameCount, [], by simp, by simp⟩
  | cons l ls ih =>
    obtain ⟨i1, c1, k1, h1, hk1⟩ := callUniform_eq env self batch l
    rw [List.foldl_cons, h1]
    obtain ⟨i2, c2, k2, h2, hk2⟩ := ih { self with _standardInputs := i1, _frameCount := c1 }
      (batch ++ k1)
    refine ⟨i2, c2, k1 ++ k2, ?_, ?_⟩
    · rw [h2, List.append_assoc]
    · intro p hp
      rcases List.mem_append.mp hp with h | h
      · exact hk1 p h
      · exact hk2 p h

/-- Binding the texture channels appends commands that bind no pipeline. -/
theorem bindChannels_eq (env : Env) (self : Procedural) (batch : Batch) :
    ∃ commands, bindChannels env self batch = batch ++ commands ∧
      ∀ p, Command.setPipeline p ∉ commands := by
  unfold bindChannels
  generalize List.range env.MAX_PROCEDURAL_TEXTURE_CHANNELS = indices
  induction indices generalizing batch with
  | nil => exact ⟨[], by simp, by simp⟩
  | cons i is ih =>
    rw [List.foldl_cons]
    cases hc : self.channel i with
    | none => exact ih batch
    | some texture =>
      dsimp only
      split_ifs
      · obtain ⟨k, hk, hn⟩ := ih (batch ++ [Command.setResourceTexture i (env.getGPUTexture texture)])
        refine ⟨Command.setResourceTexture i (env.getGPUTexture texture) :: k, ?_, ?_⟩
        · rw [hk]; simp
        · intro p hp
          rcases List.mem_cons.mp hp with h | h
          · cases h
          · exact hn p h
      · exact ih batch

/-- With a clean shader and a cached pipeline nothing is compiled. -/
theorem lookupOrBuild_found (env : Env) (self : Procedural) (key : ProceduralProgramKey)
    (pipeline : Pipeline) (hfind : mapFind self._proceduralPipelines key = some pipeline)
    (hclean : self._shaderDirty = false) :
    lookupOrBuild env self key = (self, pipeline, false, []) := by
  unfold lookupOrBuild
  rw [hfind, hclean]

/-- The pipeline to bind is the one cached under the key afterwards. -/
theorem lookupOrBuild_find (env : Env) (self : Procedural) (key : ProceduralProgramKey) :
    mapFind (lookupOrBuild env self key).1._proceduralPipelines key =
      some (lookupOrBuild env self key).2.1 := by
  unfold lookupOrBuild
  split
  · next found hfind hclean => exact hfind
  · exact mapFind_mapSet_self _ _ _

theorem lookupOrBuild_frame (env : Env) (self : Procedural) (key : ProceduralProgramKey) :
    (lookupOrBuild env self key).1._fragmentShaderPath = self._fragmentShaderPath ∧
    (lookupOrBuild env self key).1._vertexShaderPath = self._vertexShaderPath ∧
    (lookupOrBuild env self key).1._fragmentShaderModified = self._fragmentShaderModified ∧
    (lookupOrBuild env self key).1._vertexShaderModified = self._vertexShaderModified ∧
    (lookupOrBuild env self key).1._data = self._data := by
  unfold lookupOrBuild
  split <;> exact ⟨rfl, rfl, rfl, rfl, rfl⟩

/-- The lookup step keeps the cached keys free of duplicates. -/
theorem lookupOrBuild_nodup (env : Env) (self : Procedural) (key : ProceduralProgramKey)
    (h : (self._proceduralPipelines.map Prod.fst).Nodup) :
    ((lookupOrBuild env self key).1._proceduralPipelines.map Prod.fst).Nodup := by
  unfold lookupOrBuild
  split
  · exact h
  · exact mapSet_keys_nodup _ _ _ h

/-- The engine and batch after `prepare`, in terms of the lookup step on the refreshed engine. -/
theorem prepare_eq (env : Env) (self : Procedural) (batch : Batch) (position size : Vec3)
    (orientation : Vec4) (key : ProceduralProgramKey) :
    ∃ uniforms inputs count commands,
      (prepare env self batch position size orientation key).self =
        { (lookupOrBuild env (refreshVertexSource env (refreshFragmentSource env
            { self with
              _entityDimensions := size
              _entityPosition := position
              _entityOrientation := orientation })) key).1 with
          _uniforms := uniforms
          _prevKey := key
          _shaderDirty := false
          _uniformsDirty := false
          _standardInputs := inputs
          _frameCount := count } ∧
      (prepare env self batch position size orientation key).batch =
        batch ++ Command.setPipeline (lookupOrBuild env (refreshVertexSource env
          (refreshFragmentSource env
            { self with
              _entityDimensions := size
              _entityPosition := position
              _entityOrientation := orientation })) key).2.1 :: commands ∧
      (∀ p, Command.setPipeline p ∉ commands) ∧
      (prepare env self batch position size orientation key).compiled =
        (lookupOrBuild env (refreshVertexSource env (refreshFragmentSource env
            { self with
              _entityDimensions := size
              _entityPosition := position
              _entityOrientation := orientation })) key).2.2.2 := by
  unfold prepare
  dsimp only
  generalize lookupOrBuild env (refreshVertexSource env (refreshFragmentSource env
            { self with
              _entityDimensions := size
              _entityPosition := position
              _entityOrientation := orientation })) key = built
  unfold callUniforms
  split_ifs with hre
  · obtain ⟨i, c, k, hk, hn⟩ := foldl_callUniform_eq env
      (setupUniforms env built.1)._uniforms
      { setupUniforms env built.1 with
        _prevKey := key, _shaderDirty := false, _uniformsDirty := false }
      (batch ++ [Command.setPipeline built.2.1])
    dsimp only at hk ⊢
    rw [hk]
    obtain ⟨k2, hk2, hn2⟩ := bindChannels_eq env
      { setupUniforms env built.1 with
        _prevKey := key, _shaderDirty := false, _uniformsDirty := false,
        _standardInputs := i, _frameCount := c } (batch ++ [Command.setPipeline built.2.1] ++ k)
    dsimp only at hk2 ⊢
    rw [hk2]
    refine ⟨(setupUniforms env built.1)._uniforms, i, c, k ++ k2, rfl, by simp, ?_, rfl⟩
    intro p hp
    rcases List.mem_append.mp hp with h | h
    · exact hn p h
    · exact hn2 p h
  · obtain ⟨i, c, k, hk, hn⟩ := foldl_callUniform_eq env
      built.1._uniforms
      { built.1 with
        _prevKey := key, _shaderDirty := false, _uniformsDirty := false }
      (batch ++ [Command.setPipeline built.2.1])
    dsimp only at hk ⊢
    rw [hk]
    obtain ⟨k2, hk2, hn2⟩ := bindChannels_eq env
      { built.1 with
        _prevKey := key, _shaderDirty := false, _uniformsDirty := false,
        _standardInputs := i, _frameCount := c } (batch ++ [Command.setPipeline built.2.1] ++ k)
    dsimp only at hk2 ⊢
    rw [hk2]
    refine ⟨built.1._uniforms, i, c, k ++ k2, rfl, by simp, ?_, rfl⟩
    intro p hp
    rcases List.mem_append.mp hp with h | h
    · exact hn p h
    · exact hn2 p h

/-- `setProceduralData` does not touch the pipeline cache. -/
theorem setProceduralData_pipelines (env : Env) (self : Procedural) (d : ProceduralData) :
    (self.setProceduralData env d)._proceduralPipelines = self._proceduralPipelines := by
  have h1 : ∀ s : Procedural, (applyVersion s d)._proceduralPipelines = s._proceduralPipelines := by
    intro s; unfold applyVersion; split_ifs <;> rfl
  have h2 : ∀ s : Procedural, (applyUniforms s d)._proceduralPipelines = s._proceduralPipelines := by
    intro s; unfold applyUniforms; dsimp only; split_ifs <;> rfl
  have h3 : ∀ s : Procedural,
      (applyChannels env s d)._proceduralPipelines = s._proceduralPipelines := by
    intro s; unfold applyChannels; split_ifs <;> rfl
  have h4 : ∀ s : Procedural,
      (applyFragmentShaderUrl env s d)._proceduralPipelines = s._proceduralPipelines := by
    intro s; unfold applyFragmentShaderUrl; dsimp only; split_ifs <;> rfl
  unfold setProceduralData
  split_ifs
  · rfl
  · simp only [h1, h2, h3, h4]

/-- `isReady` does not touch the pipeline cache. -/
theorem isReady_pipelines (env : Env) (self : Procedural) :
    (self.isReady env).2._proceduralPipelines = self._proceduralPipelines := by
  unfold isReady
  dsimp only
  split_ifs <;> rfl

/-- `prepare` keeps the cached keys free of duplicates. -/
theorem prepare_pipelines_nodup (env : Env) (self : Procedural) (batch : Batch)
    (position size : Vec3) (orientation : Vec4) (key : ProceduralProgramKey)
    (h : (self._proceduralPipelines.map Prod.fst).Nodup) :
    ((self.prepare env batch position size orientation key).self._proceduralPipelines.map
      Prod.fst).Nodup := by
  obtain ⟨u, i, c, k, hs, -, -, -⟩ := prepare_eq env self batch position size orientation key
  rw [hs]
  apply lookupOrBuild_nodup
  rw [(refreshVertexSource_frame env _).1, (refreshFragmentSource_frame env _).1]
  exact h

/-- No reachable engine caches two pipelines under one key. -/
theorem reachable_pipelines_nodup (self : Procedural) (h : Reachable self) :
    (self._proceduralPipelines.map Prod.fst).Nodup := by
  induction h with
  | init env => simp [init]
  | setProceduralData env s d _ ih => rw [setProceduralData_pipelines]; exact ih
  | isReady env s _ ih => rw [isReady_pipelines]; exact ih
  | prepare env s batch position size orientation key _ ih =>
    exact prepare_pipelines_nodup env s batch position size orientation key ih

/-- The members `prepare` leaves alone or sets to known values. -/
theorem prepare_fields (env : Env) (self : Procedural) (batch : Batch)
    (position size : Vec3) (orientation : Vec4) (key : ProceduralProgramKey) :
    (self.prepare env batch position size orientation key).self._shaderDirty = false ∧
    (self.prepare env batch position size orientation key).self._uniformsDirty = false ∧
    (self.prepare env batch position size orientation key).self._data = self._data ∧
    (self.prepare env batch position size orientation key).self._fragmentShaderPath =
      self._fragmentShaderPath ∧
    (self.prepare env batch position size orientation key).self._vertexShaderPath =
      self._vertexShaderPath ∧
    (self.prepare env batch position size orientation key).self._fragmentShaderModified =
      (if self._fragmentShaderPath.isEmpty then self._fragmentShaderModified
        else max (env.lastModified self._fragmentShaderPath) self._fragmentShaderModified) ∧
    (self.prepare env batch position size orientation key).self._vertexShaderModified =
      (if self._vertexShaderPath.isEmpty then self._vertexShaderModified
        else max (env.lastModified self._vertexShaderPath) self._vertexShaderModified) := by
  obtain ⟨u, i, c, k, hs, -, -, -⟩ := prepare_eq env self batch position size orientation key
  rw [hs]
  obtain ⟨f1, f2, f3, f4, f5⟩ := lookupOrBuild_frame env (refreshVertexSource env
    (refreshFragmentSource env
      { self with
        _entityDimensions := size
        _entityPosition := position
        _entityOrientation := orientation })) key
  obtain ⟨-, v2, v3, v4⟩ := refreshVertexSource_frame env (refreshFragmentSource env
      { self with
        _entityDimensions := size
        _entityPosition := position
        _entityOrientation := orientation })
  obtain ⟨-, g2, g3, g4⟩ := refreshFragmentSource_frame env
      { self with
        _entityDimensions := size
        _entityPosition := position
        _entityOrientation := orientation }
  refine ⟨rfl, rfl, ?_, ?_, ?_, ?_, ?_⟩
  · show (lookupOrBuild env _ key).1._data = _
    rw [f5, refreshVertexSource_data, refreshFragmentSource_data]
  · show (lookupOrBuild env _ key).1._fragmentShaderPath = _
    rw [f1, v2, g2]
  · show (lookupOrBuild env _ key).1._vertexShaderPath = _
    rw [f2, v3, g3]
  · show (lookupOrBuild env _ key).1._fragmentShaderModified = _
    rw [f3, v4, refreshFragmentSource_modified]
  · show (lookupOrBuild env _ key).1._vertexShaderModified = _
    rw [f4, refreshVertexSource_modified, g3, g4]

/-- A call of `prepare` on a clean engine with a cached pipeline and no newer shader file compiles nothing and binds the cached pipeline. -/
theorem prepare_clean (env : Env) (self : Procedural) (batch : Batch)
    (position size : Vec3) (orientation : Vec4) (key : ProceduralProgramKey)
    (pipeline : Pipeline)
    (hclean : self._shaderDirty = false)
    (hfind : mapFind self._proceduralPipelines key = some pipeline)
    (hfragment : self._fragmentShaderPath.isEmpty = false →
      env.lastModified self._fragmentShaderPath ≤ self._fragmentShaderModified)
    (hvertex : self._vertexShaderPath.isEmpty = false →
      env.lastModified self._vertexShaderPath ≤ self._vertexShaderModified) :
    (self.prepare env batch position size orientation key).compiled = [] ∧
    (self.prepare env batch position size orientation key).self._proceduralPipelines =
      self._proceduralPipelines ∧
    ∃ rest, (self.prepare env batch position size orientation key).batch =
        batch ++ Command.setPipeline pipeline :: rest ∧
      ∀ p, Command.setPipeline p ∉ rest := by
  obtain ⟨u, i, c, k, hs, hb, hn, hc⟩ := prepare_eq env self batch position size orientation key
  obtain ⟨v1, v2, v3, v4⟩ := refreshVertexSource_frame env (refreshFragmentSource env
      { self with
        _entityDimensions := size
        _entityPosition := position
        _entityOrientation := orientation })
  obtain ⟨g1, g2, g3, g4⟩ := refreshFragmentSource_frame env
      { self with
        _entityDimensions := size
        _entityPosition := position
        _entityOrientation := orientation }
  have hd : (refreshVertexSource env (refreshFragmentSource env
      { self with
        _entityDimensions := size
        _entityPosition := position
        _entityOrientation := orientation }))._shaderDirty = false := by
    rw [refreshVertexSource_shaderDirty, refreshFragmentSource_shaderDirty, g3, g4]
    show (self._shaderDirty || _ || _) = false
    rw [hclean]
    cases hp : self._fragmentShaderPath.isEmpty <;> cases hq : self._vertexShaderPath.isEmpty
    · simp [not_lt.mpr (hfragment hp), not_lt.mpr (hvertex hq)]
    · simp [not_lt.mpr (hfragment hp)]
    · simp [not_lt.mpr (hvertex hq)]
    · simp
  have hf : mapFind (refreshVertexSource env (refreshFragmentSource env
      { self with
        _entityDimensions := size
        _entityPosition := position
        _entityOrientation := orientation }))._proceduralPipelines key = some pipeline := by
    rw [v1, g1]
    exact hfind
  have hl := lookupOrBuild_found env _ key pipeline hf hd
  rw [hl] at hs hb hc
  refine ⟨hc, ?_, k, hb, hn⟩
  rw [hs]
  show (refreshVertexSource env _)._proceduralPipelines = _
  rw [v1, g1]

end Procedural

/-! ## The claims -/

/-- C1: for every engine state and every input colour `c`, `getColor c` is
opaque white (1,1,1,1) when the stored descriptor version is 1 and is `c`
itself when the version is 2 or 3.  End to end: after `setProceduralData` of
the descriptor parsed from the JSON object with `shaderUrl` "qrc:/x.fs",
`version` 2 and `uniforms` with `k = [1,2,3]`, `getColor (0.2,0.3,0.4,1)` is
`(0.2,0.3,0.4,1)`; with `version` 1, or with no `version` member, it is
`(1,1,1,1)`.  The descriptor is parsed by `ProceduralData::parse(const
QJsonObject&)`, for every URL normaliser, environment and prior engine state. -/
theorem getColor_by_version (env : Env) (normalizeURL : String → QUrl) (self : Procedural)
    (c : Vec4) :
    (self._data.version = 1 → self.getColor c = ⟨1, 1, 1, 1⟩) ∧
    (self._data.version = 2 ∨ self._data.version = 3 → self.getColor c = c) ∧
    ((self.setProceduralData env
        (ProceduralData.parse normalizeURL (sampleDescriptor (some (.double 2))))).getColor
      ⟨0.2, 0.3, 0.4, 1⟩ = ⟨0.2, 0.3, 0.4, 1⟩) ∧
    ((self.setProceduralData env
        (ProceduralData.parse normalizeURL (sampleDescriptor (some (.double 1))))).getColor
      ⟨0.2, 0.3, 0.4, 1⟩ = ⟨1, 1, 1, 1⟩) ∧
    ((self.setProceduralData env
        (ProceduralData.parse normalizeURL (sampleDescriptor none))).getColor
      ⟨0.2, 0.3, 0.4, 1⟩ = ⟨1, 1, 1, 1⟩) := by
  refine ⟨?_, ?_, ?_, ?_, ?_⟩
  · intro h
    simp [Procedural.getColor, h]
  · intro h
    rcases h with h | h <;> simp [Procedural.getColor, h]
  · simp only [Procedural.getColor, Procedural.setProceduralData_data,
      ProceduralData.parse_version_of_double normalizeURL
        (sampleDescriptor (some (.double 2))) 2 rfl]
    rw [if_neg (by decide)]
  · simp only [Procedural.getColor, Procedural.setProceduralData_data,
      ProceduralData.parse_version_of_double normalizeURL
        (sampleDescriptor (some (.double 1))) 1 rfl]
    rw [if_pos (by decide)]
  · simp only [Procedural.getColor, Procedural.setProceduralData_data,
      ProceduralData.parse_version_of_not_double normalizeURL
        (sampleDescriptor none) rfl rfl]
    rw [if_pos (by decide)]

/-- Witness for C1: an engine holding a version 3 descriptor passes the colour
through, and one holding a version 1 descriptor answers white. -/
theorem getColor_by_version_witness :
    ((Procedural.init sampleEnv).setProceduralData sampleEnv { version := 3 }).getColor
      ⟨0.2, 0.3, 0.4, 1⟩ = ⟨0.2, 0.3, 0.4, 1⟩ ∧
    ((Procedural.init sampleEnv).setProceduralData sampleEnv { version := 1 }).getColor
      ⟨0.2, 0.3, 0.4, 1⟩ = ⟨1, 1, 1, 1⟩ :=
  ⟨(getColor_by_version sampleEnv sampleNormalizeURL
      ((Procedural.init sampleEnv).setProceduralData sampleEnv { version := 3 })
      ⟨0.2, 0.3, 0.4, 1⟩).2.1 (by decide),
    (getColor_by_version sampleEnv sampleNormalizeURL
      ((Procedural.init sampleEnv).setProceduralData sampleEnv { version := 1 })
      ⟨0.2, 0.3, 0.4, 1⟩).1 (by decide)⟩

/-- C2: for every engine state and descriptor `d`, after `setProceduralData d`
and a clearing of both dirty flags, a second `setProceduralData d` leaves
shader-dirty and uniforms-dirty both false.  The flags are cleared either
directly or by an actual call of `prepare` (any environment, batch and key). -/
theorem setProceduralData_twice (env1 env2 env3 : Env) (self : Procedural)
    (d : ProceduralData) (batch : Batch) (position size : Vec3) (orientation : Vec4)
    (key : ProceduralProgramKey) :
    ((({ self.setProceduralData env1 d with _shaderDirty := false, _uniformsDirty := false } :
        Procedural).setProceduralData env2 d)._shaderDirty = false ∧
      (({ self.setProceduralData env1 d with _shaderDirty := false, _uniformsDirty := false } :
        Procedural).setProceduralData env2 d)._uniformsDirty = false) ∧
    ((((self.setProceduralData env1 d).prepare env3 batch position size orientation
        key).self.setProceduralData env2 d)._shaderDirty = false ∧
      (((self.setProceduralData env1 d).prepare env3 batch position size orientation
        key).self.setProceduralData env2 d)._uniformsDirty = false) := by
  obtain ⟨p1, p2, p3, -⟩ := Procedural.prepare_fields env3 (self.setProceduralData env1 d)
    batch position size orientation key
  constructor
  · rw [Procedural.setProceduralData_uniformsDirty, Procedural.setProceduralData_shaderDirty]
    simp only [Procedural.setProceduralData_data]
    constructor <;> split_ifs <;> simp
  · rw [Procedural.setProceduralData_uniformsDirty, Procedural.setProceduralData_shaderDirty,
      p1, p2, p3]
    simp only [Procedural.setProceduralData_data]
    constructor <;> split_ifs <;> simp

/-- C3: for every engine state in which shader-dirty is false, and every
descriptor `d` with the stored version and fragment shader URL, with the same
set of uniform keys as the stored uniforms (both objects in key order) but
different uniforms, `setProceduralData d` sets uniforms-dirty and leaves
shader-dirty false.  The vertex shader URL and the channels of `d` play no
part in the two flags, so they are not constrained. -/
theorem setProceduralData_value_change (env : Env) (self : Procedural) (d : ProceduralData)
    (hclean : self._shaderDirty = false)
    (hversion : d.version = self._data.version)
    (hfragment : d.fragmentShaderUrl = self._data.fragmentShaderUrl)
    (hsorted : d.uniforms.keysSorted) (hsorted2 : self._data.uniforms.keysSorted)
    (hkeys : ∀ k, k ∈ d.uniforms.keys ↔ k ∈ self._data.uniforms.keys)
    (hvalues : d.uniforms ≠ self._data.uniforms) :
    (self.setProceduralData env d)._uniformsDirty = true ∧
    (self.setProceduralData env d)._shaderDirty = false := by
  have hk := QJsonObject.keys_eq_of_sorted _ _ hsorted hsorted2 hkeys
  have hne : ¬ (d == self._data) = true := by
    rw [ProceduralData.beq_iff_eq]
    intro h
    exact hvalues (congrArg ProceduralData.uniforms h)
  rw [Procedural.setProceduralData_uniformsDirty, Procedural.setProceduralData_shaderDirty,
    if_neg hne, if_neg hne]
  simp [hclean, hversion, hfragment, hk, hvalues]

/-- Witness for C3: the uniform `k` changes from 1 to 5 on a clean engine. -/
theorem setProceduralData_value_change_witness :
    (({ _shaderDirty := false, _data := { version := 2, uniforms := sampleUniforms 1 } } :
        Procedural).setProceduralData sampleEnv
      { version := 2, uniforms := sampleUniforms 5 })._uniformsDirty = true ∧
    (({ _shaderDirty := false, _data := { version := 2, uniforms := sampleUniforms 1 } } :
        Procedural).setProceduralData sampleEnv
      { version := 2, uniforms := sampleUniforms 5 })._shaderDirty = false :=
  setProceduralData_value_change sampleEnv
    { _shaderDirty := false, _data := { version := 2, uniforms := sampleUniforms 1 } }
    { version := 2, uniforms := sampleUniforms 5 } rfl rfl rfl
    (by simp [QJsonObject.keysSorted, QJsonObject.keys, sampleUniforms, QJsonObject.ofList,
      QJsonObject.toList])
    (by simp [QJsonObject.keysSorted, QJsonObject.keys, sampleUniforms, QJsonObject.ofList,
      QJsonObject.toList])
    (fun _ => Iff.rfl) (by decide)

/-- C4: for every engine state and every descriptor `d` whose set of uniform
keys differs from the set of keys of the stored uniforms, after
`setProceduralData d` shader-dirty and uniforms-dirty are both true. -/
theorem setProceduralData_key_change (env : Env) (self : Procedural) (d : ProceduralData)
    (hkeys : ¬ ∀ k, k ∈ d.uniforms.keys ↔ k ∈ self._data.uniforms.keys) :
    (self.setProceduralData env d)._shaderDirty = true ∧
    (self.setProceduralData env d)._uniformsDirty = true := by
  have hk : d.uniforms.keys ≠ self._data.uniforms.keys := by
    intro h
    exact hkeys (fun k => by rw [h])
  have hu : d.uniforms ≠ self._data.uniforms := by
    intro h
    exact hk (by rw [h])
  have hne : ¬ (d == self._data) = true := by
    rw [ProceduralData.beq_iff_eq]
    intro h
    exact hu (congrArg ProceduralData.uniforms h)
  rw [Procedural.setProceduralData_uniformsDirty, Procedural.setProceduralData_shaderDirty,
    if_neg hne, if_neg hne]
  simp [hk, hu]

/-- Witness for C4: a clean engine without uniforms receives the uniform `k`. -/
theorem setProceduralData_key_change_witness :
    (({ _shaderDirty := false, _uniformsDirty := false } : Procedural).setProceduralData
      sampleEnv { uniforms := sampleUniforms 1 })._shaderDirty = true ∧
    (({ _shaderDirty := false, _uniformsDirty := false } : Procedural).setProceduralData
      sampleEnv { uniforms := sampleUniforms 1 })._uniformsDirty = true :=
  setProceduralData_key_change sampleEnv { _shaderDirty := false, _uniformsDirty := false }
    { uniforms := sampleUniforms 1 }
    (fun h => absurd ((h "k").mp (by decide)) (by decide))

/-- C5 (the code at the failing input): `file:///missing.fs` is a valid
local-file URL whose file does not exist.  A first `setProceduralData` with it
leaves a fresh engine not enabled; a second call with the same URL and one
more uniform leaves the engine enabled, although the last descriptor still
names the missing file.  The engine is then still not ready, for want of a
configured shader. -/
theorem setProceduralData_enabled_with_failed_url :
    missingShader.isValid = true ∧ missingShader.isLocalFile = true ∧
    sampleEnv.fileExists missingShader.toLocalFile = false ∧
    ((Procedural.init sampleEnv).setProceduralData sampleEnv
      { version := 1, fragmentShaderUrl := missingShader })._enabled = false ∧
    (((Procedural.init sampleEnv).setProceduralData sampleEnv
      { version := 1, fragmentShaderUrl := missingShader }).setProceduralData sampleEnv
      { version := 1, fragmentShaderUrl := missingShader, uniforms := sampleUniforms 1 })._enabled
        = true ∧
    ((((Procedural.init sampleEnv).setProceduralData sampleEnv
      { version := 1, fragmentShaderUrl := missingShader }).setProceduralData sampleEnv
      { version := 1, fragmentShaderUrl := missingShader, uniforms := sampleUniforms 1 }).isReady
        sampleEnv).1 = false := by
  decide

/-- C6: in a build without `USE_GLES`, for every engine state `isReady`
answers true exactly when the engine is enabled, at least one of the fragment
and vertex shaders is configured (a non-empty local path or a network shader
handle), every configured shader is loaded (with a local path it counts as
loaded, otherwise its network handle must report loaded), and every non-null
texture channel reports loaded; in every other state it answers false. -/
theorem isReady_iff (env : Env) (self : Procedural) (hgles : env.USE_GLES = false) :
    (self.isReady env).1 = true ↔
      (self._enabled = true ∧
        ((self._fragmentShaderPath ≠ "" ∨ self._networkFragmentShader ≠ none) ∨
          (self._vertexShaderPath ≠ "" ∨ self._networkVertexShader ≠ none)) ∧
        (self._fragmentShaderPath = "" →
          ∀ shader, self._networkFragmentShader = some shader → env.shaderLoaded shader = true) ∧
        (self._vertexShaderPath = "" →
          ∀ shader, self._networkVertexShader = some shader → env.shaderLoaded shader = true) ∧
        (∀ i texture, i < env.MAX_PROCEDURAL_TEXTURE_CHANNELS →
          self.channel i = some texture → env.textureLoaded texture = true)) := by
  have hchan : ((List.range env.MAX_PROCEDURAL_TEXTURE_CHANNELS).any (fun i =>
      match self.channel i with
      | some texture => !env.textureLoaded texture
      | none => false) = false) ↔
      (∀ i texture, i < env.MAX_PROCEDURAL_TEXTURE_CHANNELS →
        self.channel i = some texture → env.textureLoaded texture = true) := by
    rw [List.any_eq_false]
    constructor
    · intro h i t hi hc
      have := h i (List.mem_range.mpr hi)
      simpa [hc] using this
    · intro hall i hi
      rw [List.mem_range] at hi
      cases hc : self.channel i with
      | none => simp
      | some t => simp [hall i t hi hc]
  have hE : ∀ s : String, s.isEmpty = false ↔ s ≠ "" := by
    intro s
    rw [Ne, ← String.isEmpty_iff, Bool.not_eq_true]
  rw [Procedural.isReady_fst, hgles]
  simp only [Bool.and_eq_true, Bool.not_eq_true', hchan]
  cases hnf : self._networkFragmentShader <;>
  cases hnv : self._networkVertexShader <;>
  by_cases hfp : self._fragmentShaderPath = "" <;>
  by_cases hvp : self._vertexShaderPath = "" <;>
  simp [hfp, hvp, String.isEmpty_iff, hE, and_assoc]

/-- Witness for C6: `sampleEnv` is a build without `USE_GLES`; the sample
engine, with a resource shader and no texture, is ready and hence enabled,
while a network shader that has not loaded keeps an engine not ready. -/
theorem isReady_iff_witness :
    sampleEnv.USE_GLES = false ∧ (sampleEngine.isReady sampleEnv).1 = true ∧
    sampleEngine._enabled = true ∧
    ¬ (({ _enabled := true, _networkFragmentShader := some ⟨qrcShader⟩ } :
      Procedural).isReady sampleEnv).1 = true :=
  ⟨rfl, by decide, ((isReady_iff sampleEnv sampleEngine rfl).mp (by decide)).1,
    fun h => absurd
      (((isReady_iff sampleEnv { _enabled := true, _networkFragmentShader := some ⟨qrcShader⟩ }
        rfl).mp h).2.2.1 rfl ⟨qrcShader⟩ rfl) (by decide)⟩

/-- C7: for every engine state and program key `k`, when `prepare` is called
with `k` and then again with `k` on the resulting engine, the local shader
files (if any) having the same modification time at both calls, the second
call compiles nothing, leaves the pipeline cache as it is, and binds the
pipeline the cache holds for `k` after the first call, which is the pipeline
the first call bound; each call binds exactly one pipeline.  And no engine
reachable from a fresh one holds two pipelines under one key. -/
theorem prepare_twice_same_key (env1 env2 : Env) (self : Procedural) (batch1 batch2 : Batch)
    (position1 size1 position2 size2 : Vec3) (orientation1 orientation2 : Vec4)
    (key : ProceduralProgramKey)
    (hfragment : env2.lastModified self._fragmentShaderPath =
      env1.lastModified self._fragmentShaderPath)
    (hvertex : env2.lastModified self._vertexShaderPath =
      env1.lastModified self._vertexShaderPath) :
    ((self.prepare env1 batch1 position1 size1 orientation1 key).self.prepare env2 batch2
      position2 size2 orientation2 key).compiled = [] ∧
    ((self.prepare env1 batch1 position1 size1 orientation1 key).self.prepare env2 batch2
      position2 size2 orientation2 key).self._proceduralPipelines =
      (self.prepare env1 batch1 position1 size1 orientation1 key).self._proceduralPipelines ∧
    (∃ pipeline rest1 rest2,
      mapFind (self.prepare env1 batch1 position1 size1 orientation1 key).self._proceduralPipelines
        key = some pipeline ∧
      (self.prepare env1 batch1 position1 size1 orientation1 key).batch =
        batch1 ++ Command.setPipeline pipeline :: rest1 ∧
      ((self.prepare env1 batch1 position1 size1 orientation1 key).self.prepare env2 batch2
        position2 size2 orientation2 key).batch =
        batch2 ++ Command.setPipeline pipeline :: rest2 ∧
      (∀ p, Command.setPipeline p ∉ rest1) ∧ (∀ p, Command.setPipeline p ∉ rest2)) ∧
    (∀ engine, Procedural.Reachable engine →
      (engine._proceduralPipelines.map Prod.fst).Nodup) := by
  obtain ⟨u1, i1, c1, k1, hs1, hb1, hn1, -⟩ :=
    Procedural.prepare_eq env1 self batch1 position1 size1 orientation1 key
  obtain ⟨p1, -, -, p4, p5, p6, p7⟩ :=
    Procedural.prepare_fields env1 self batch1 position1 size1 orientation1 key
  have hfind : mapFind
      (self.prepare env1 batch1 position1 size1 orientation1 key).self._proceduralPipelines key =
      some (Procedural.lookupOrBuild env1 (Procedural.refreshVertexSource env1
        (Procedural.refreshFragmentSource env1
          { self with
            _entityDimensions := size1
            _entityPosition := position1
            _entityOrientation := orientation1 })) key).2.1 := by
    rw [hs1]
    exact Procedural.lookupOrBuild_find env1 _ key
  obtain ⟨hc, hp, rest2, hb2, hn2⟩ := Procedural.prepare_clean env2
    (self.prepare env1 batch1 position1 size1 orientation1 key).self batch2 position2 size2
    orientation2 key _ p1 hfind
    (by
      intro hne
      rw [p4] at hne ⊢
      rw [p6, hne, hfragment]
      exact le_max_left _ _)
    (by
      intro hne
      rw [p5] at hne ⊢
      rw [p7, hne, hvertex]
      exact le_max_left _ _)
  exact ⟨hc, hp, ⟨_, k1, rest2, hfind, hb1, hb2, hn1, hn2⟩,
    Procedural.reachable_pipelines_nodup⟩

/-- Witness for C7: on the sample engine the first `prepare` for the default
key compiles one program and the second, in the same environment, none. -/
theorem prepare_twice_same_key_witness :
    (sampleEngine.prepare sampleEnv [] ⟨0, 0, 0⟩ ⟨1, 1, 1⟩ ⟨0, 0, 0, 1⟩ {}).compiled.length = 1 ∧
    ((sampleEngine.prepare sampleEnv [] ⟨0, 0, 0⟩ ⟨1, 1, 1⟩ ⟨0, 0, 0, 1⟩ {}).self.prepare
      sampleEnv [] ⟨0, 0, 0⟩ ⟨1, 1, 1⟩ ⟨0, 0, 0, 1⟩ {}).compiled = [] :=
  ⟨by decide,
    (prepare_twice_same_key sampleEnv sampleEnv sampleEngine [] [] ⟨0, 0, 0⟩ ⟨1, 1, 1⟩
      ⟨0, 0, 0⟩ ⟨1, 1, 1⟩ ⟨0, 0, 0, 1⟩ ⟨0, 0, 0, 1⟩ {} rfl rfl).1⟩

/-- C8 as stated fails: on a fresh engine, `setProceduralData` of a descriptor
with the vertex shader URL `qrc:/x.fs` leaves a stored descriptor that is not
`operator==` to the one passed (its vertex shader URL is still empty). -/
theorem setProceduralData_keeps_old_vertexShaderUrl :
    (((Procedural.init sampleEnv).setProceduralData sampleEnv
        { version := 2, fragmentShaderUrl := qrcShader, vertexShaderUrl := qrcShader })._data ==
      ({ version := 2, fragmentShaderUrl := qrcShader, vertexShaderUrl := qrcShader } :
        ProceduralData)) = false := by
  decide

/-- C8 amended: for every engine state and descriptor `d`, after
`setProceduralData d` the stored descriptor has the version, fragment shader
URL, uniforms and channels of `d`; its vertex shader URL is the one stored
before the call (procedural vertex shaders are disabled). -/
theorem setProceduralData_stores_descriptor (env : Env) (self : Procedural)
    (d : ProceduralData) :
    (self.setProceduralData env d)._data.version = d.version ∧
    (self.setProceduralData env d)._data.fragmentShaderUrl = d.fragmentShaderUrl ∧
    (self.setProceduralData env d)._data.uniforms = d.uniforms ∧
    (self.setProceduralData env d)._data.channels = d.channels ∧
    (self.setProceduralData env d)._data.vertexShaderUrl = self._data.vertexShaderUrl := by
  rw [Procedural.setProceduralData_data]
  exact ⟨rfl, rfl, rfl, rfl, rfl⟩

/-- C9 as stated fails: the object with the single member `version` 4 parses
to a descriptor that is not the default one, and the sample descriptor with
`version` 1.5 (a number other than 1, 2 and 3) is read as version 1 and parsed
in full, so it is not the default one either. -/
theorem parse_unrecognised_version_not_default :
    ProceduralData.parse sampleNormalizeURL
        (QJsonObject.ofList [("version", QJsonValue.double 4)]) ≠ {} ∧
    ProceduralData.parse sampleNormalizeURL (sampleDescriptor (some (QJsonValue.double (3 / 2))))
      ≠ {} := by
  constructor
  · decide
  · intro h
    have hu := congrArg ProceduralData.uniforms h
    rw [ProceduralData.parse_uniforms_of_double sampleNormalizeURL
      (sampleDescriptor (some (QJsonValue.double (3 / 2)))) (3 / 2) rfl
      (Or.inl toUInt8Floor_three_halves)] at hu
    exact absurd hu (by decide)

/-- C9 amended: for every descriptor JSON object whose `version` is a number
whose floor, as stored in the eight-bit version field, is none of 1, 2 and 3,
`parse` stops at the version check: the parsed descriptor has no shader URLs,
no uniforms and no channels. -/
theorem parse_invalid_version_stops (normalizeURL : String → QUrl) (o : QJsonObject) (x : ℚ)
    (hversion : o.value "version" = QJsonValue.double x)
    (hinvalid : toUInt8Floor x ≠ 1 ∧ toUInt8Floor x ≠ 2 ∧ toUInt8Floor x ≠ 3) :
    (ProceduralData.parse normalizeURL o).fragmentShaderUrl = {} ∧
    (ProceduralData.parse normalizeURL o).vertexShaderUrl = {} ∧
    (ProceduralData.parse normalizeURL o).uniforms = QJsonObject.nil ∧
    (ProceduralData.parse normalizeURL o).channels = QJsonArray.nil := by
  have hne : o.isEmpty = false := QJsonObject.isEmpty_of_value o _ _ hversion (by simp)
  obtain ⟨h1, h2, h3⟩ := hinvalid
  unfold ProceduralData.parse ProceduralData.parseInto
  simp [hne, hversion, QJsonValue.isDouble, QJsonValue.toDouble, h1, h2, h3]

/-- Witness for C9 amended: the sample descriptor with `version` 4. -/
theorem parse_invalid_version_stops_witness :
    (ProceduralData.parse sampleNormalizeURL
      (sampleDescriptor (some (QJsonValue.double 4)))).fragmentShaderUrl = {} ∧
    (ProceduralData.parse sampleNormalizeURL
      (sampleDescriptor (some (QJsonValue.double 4)))).vertexShaderUrl = {} ∧
    (ProceduralData.parse sampleNormalizeURL
      (sampleDescriptor (some (QJsonValue.double 4)))).uniforms = QJsonObject.nil ∧
    (ProceduralData.parse sampleNormalizeURL
      (sampleDescriptor (some (QJsonValue.double 4)))).channels = QJsonArray.nil :=
  parse_invalid_version_stops sampleNormalizeURL (sampleDescriptor (some (QJsonValue.double 4))) 4
    (by decide) (by decide)

/-- C10: descriptor equality (`operator==`) holds exactly when version,
fragment shader URL, vertex shader URL, uniforms and channels are each equal;
it is reflexive, symmetric and transitive; and two descriptors built from the
default one by the same field assignments (each field assigned at most once,
empty uniforms and empty channels included) in different orders are equal. -/
theorem operatorEq_structural :
    (∀ a b : ProceduralData, (a == b) = true ↔
      (a.version = b.version ∧ a.fragmentShaderUrl = b.fragmentShaderUrl ∧
        a.vertexShaderUrl = b.vertexShaderUrl ∧ a.uniforms = b.uniforms ∧
        a.channels = b.channels)) ∧
    (∀ a : ProceduralData, (a == a) = true) ∧
    (∀ a b : ProceduralData, (a == b) = true → (b == a) = true) ∧
    (∀ a b c : ProceduralData, (a == b) = true → (b == c) = true → (a == c) = true) ∧
    (∀ l1 l2 : List ProceduralData.Assign, l1.Perm l2 →
      (l1.map ProceduralData.Assign.field).Nodup →
      (ProceduralData.build l1 == ProceduralData.build l2) = true) := by
  refine ⟨?_, ?_, ?_, ?_, ?_⟩
  · intro a b
    rw [ProceduralData.beq_iff_eq]
    cases a; cases b
    simp
  · intro a
    exact ProceduralData.beq_self a
  · intro a b h
    rw [ProceduralData.beq_iff_eq] at h ⊢
    exact h.symm
  · intro a b c h1 h2
    rw [ProceduralData.beq_iff_eq] at h1 h2 ⊢
    exact h1.trans h2
  · intro l1 l2 hp hn
    rw [ProceduralData.beq_iff_eq]
    exact ProceduralData.build_perm l1 l2 hp hn

/-- Witness for C10: empty uniforms, version 2, empty channels and a fragment
shader URL assigned in two different orders give equal descriptors. -/
theorem operatorEq_structural_witness :
    (ProceduralData.build
        [.uniforms .nil, .version 2, .channels .nil, .fragmentShaderUrl qrcShader] ==
      ProceduralData.build
        [.fragmentShaderUrl qrcShader, .channels .nil, .version 2, .uniforms .nil]) = true :=
  operatorEq_structural.2.2.2.2 _ _ (by decide) (by decide)

/-! ## Lemmas on the material parser -/

/-- The members of an object built from a list are that list. -/
theorem QJsonObject.toList_ofList (l : List (String × QJsonValue)) :
    (QJsonObject.ofList l).toList = l := by
  induction l with
  | nil => rfl
  | cons e l ih =>
    obtain ⟨k, v⟩ := e
    simp [QJsonObject.ofList, QJsonObject.toList, ih]

/-- The keys of an object built from a list are the first components, in order.
-/
theorem QJsonObject.keys_ofList (l : List (String × QJsonValue)) :
    (QJsonObject.ofList l).keys = l.map Prod.fst := by
  unfold QJsonObject.keys
  rw [QJsonObject.toList_ofList]

/-- Looking up a key other than that of an inserted member does not see the
member. -/
theorem QJsonObject.value_ofList_insert (pre post : List (String × QJsonValue)) (k : String)
    (v : QJsonValue) (key : String) (h : key ≠ k) :
    (QJsonObject.ofList (pre ++ (k, v) :: post)).value key =
      (QJsonObject.ofList (pre ++ post)).value key := by
  induction pre with
  | nil =>
    simp only [List.nil_append, QJsonObject.ofList, QJsonObject.value]
    rw [if_neg (fun e => h e.symm)]
  | cons e pre ih =>
    obtain ⟨k1, v1⟩ := e
    show (if k1 = key then v1 else (QJsonObject.ofList (pre ++ (k, v) :: post)).value key) =
      (if k1 = key then v1 else (QJsonObject.ofList (pre ++ post)).value key)
    rw [ih]

/-- A fold is not changed by an element its step function ignores. -/
theorem foldl_skip {α β : Type} (f : β → α → β) (init : β) (pre post : List α) (x : α)
    (h : ∀ acc, f acc x = acc) :
    (pre ++ x :: post).foldl f init = (pre ++ post).foldl f init := by
  rw [List.foldl_append, List.foldl_cons, h, List.foldl_append]

/-- The `hifi_pbr` loop body has no branch for a key outside the keys it reads.
-/
theorem pbrStep_unread (env : MaterialEnv) (o : QJsonObject) (baseUrl : QUrl)
    (acc : String × Material) (k : String) (h : k ∉ keysRead "hifi_pbr") :
    pbrStep env o baseUrl acc k = acc := by
  simp [keysRead] at h
  simp [pbrStep, h]

/-- The `hifi_shader_simple` loop body has no branch for a key outside the keys
it reads. -/
theorem shaderSimpleStep_unread (env : MaterialEnv) (o : QJsonObject)
    (acc : String × Material) (k : String) (h : k ∉ keysRead "hifi_shader_simple") :
    shaderSimpleStep env o acc k = acc := by
  simp [keysRead] at h
  simp [shaderSimpleStep, h]

/-- The `hifi_pbr` loop body depends on the object only through the values of
the keys it reads. -/
theorem pbrStep_congr (env : MaterialEnv) (o1 o2 : QJsonObject) (baseUrl : QUrl)
    (acc : String × Material) (key : String) (hv : o1.value key = o2.value key)
    (ho : o1.value "opacityMap" = o2.value "opacityMap") :
    pbrStep env o1 baseUrl acc key = pbrStep env o2 baseUrl acc key := by
  unfold pbrStep
  rw [hv, ho]

/-- The `hifi_shader_simple` loop body depends on the object only through the
values of the keys it reads. -/
theorem shaderSimpleStep_congr (env : MaterialEnv) (o1 o2 : QJsonObject)
    (acc : String × Material) (key : String) (hv : o1.value key = o2.value key) :
    shaderSimpleStep env o1 acc key = shaderSimpleStep env o2 acc key := by
  unfold shaderSimpleStep
  rw [hv]

/-- A member under a key that `parseJSONMaterial` does not read for the model
of the object does not change the result. -/
theorem parseJSONMaterial_unread_key (env : MaterialEnv) (pre post : List (String × QJsonValue))
    (k : String) (v : QJsonValue) (baseUrl : QUrl)
    (h : k ∉ keysRead (modelStringOf (QJsonObject.ofList (pre ++ post)))) :
    parseJSONMaterial env (QJsonObject.ofList (pre ++ (k, v) :: post)) baseUrl =
      parseJSONMaterial env (QJsonObject.ofList (pre ++ post)) baseUrl := by
  have hmodel : k ≠ "model" := by
    intro e
    apply h
    rw [e]
    unfold keysRead
    split_ifs <;> simp
  have hval : ∀ key, key ≠ k →
      (QJsonObject.ofList (pre ++ (k, v) :: post)).value key =
        (QJsonObject.ofList (pre ++ post)).value key :=
    fun key hk => QJsonObject.value_ofList_insert pre post k v key hk
  have hm := hval "model" (fun e => hmodel e.symm)
  have hms : modelStringOf (QJsonObject.ofList (pre ++ (k, v) :: post)) =
      modelStringOf (QJsonObject.ofList (pre ++ post)) := by
    unfold modelStringOf
    rw [hm]
  unfold parseJSONMaterial
  simp only [hms, hm, QJsonObject.keys_ofList, List.map_append, List.map_cons]
  generalize (if ((QJsonObject.ofList (pre ++ post)).value "model").isString = true then
    [MaterialSetter.setModel (modelStringOf (QJsonObject.ofList (pre ++ post)))]
    else []) = material
  split_ifs with h1 h2
  · rw [h1] at h
    have hop : k ≠ "opacityMap" := by
      intro e
      apply h
      rw [e]
      simp [keysRead]
    have hstep : pbrStep env (QJsonObject.ofList (pre ++ (k, v) :: post)) baseUrl =
        pbrStep env (QJsonObject.ofList (pre ++ post)) baseUrl := by
      funext acc key
      by_cases hk : key = k
      · rw [hk, pbrStep_unread env _ baseUrl acc k h, pbrStep_unread env _ baseUrl acc k h]
      · exact pbrStep_congr env _ _ baseUrl acc key (hval key hk)
          (hval "opacityMap" (fun e => hop e.symm))
    rw [hstep]
    exact foldl_skip _ _ _ _ _ (fun acc => pbrStep_unread env _ baseUrl acc k h)
  · rw [h2] at h
    have hstep : shaderSimpleStep env (QJsonObject.ofList (pre ++ (k, v) :: post)) =
        shaderSimpleStep env (QJsonObject.ofList (pre ++ post)) := by
      funext acc key
      by_cases hk : key = k
      · rw [hk, shaderSimpleStep_unread env _ acc k h, shaderSimpleStep_unread env _ acc k h]
      · exact shaderSimpleStep_congr env _ _ acc key (hval key hk)
    rw [hstep]
    exact foldl_skip _ _ _ _ _ (fun acc => shaderSimpleStep_unread env _ acc k h)
  · rfl

/-- Looking up a key after an assignment: the assigned value at the assigned
key, the old look-up elsewhere. -/
theorem mapFind_mapSet {κ ν : Type} [DecidableEq κ] (m : List (κ × ν)) (k : κ) (v : ν) (n : κ) :
    mapFind (mapSet m k v) n = if k = n then some v else mapFind m n := by
  induction m with
  | nil => simp [mapSet, mapFind]
  | cons e m ih =>
    obtain ⟨k1, v1⟩ := e
    unfold mapSet
    by_cases h : k1 = k
    · rw [if_pos h]
      by_cases h2 : k = n
      · simp [mapFind, h2]
      · have h3 : ¬ k1 = n := fun e => h2 (h ▸ e)
        simp [mapFind, h2, h3]
    · rw [if_neg h]
      by_cases h2 : k1 = n
      · have h3 : ¬ k = n := fun e => h (h2.trans e.symm)
        simp [mapFind, h2, h3]
      · simp [mapFind, h2, ih]

/-- A key is found exactly when it is among the keys of the entries. -/
theorem mapFind_isSome_iff {κ ν : Type} [DecidableEq κ] (m : List (κ × ν)) (n : κ) :
    (mapFind m n).isSome = true ↔ n ∈ m.map Prod.fst := by
  induction m with
  | nil => simp [mapFind]
  | cons e m ih =>
    obtain ⟨k1, v1⟩ := e
    unfold mapFind
    by_cases h : k1 = n
    · simp [h]
    · have h2 : ¬ n = k1 := fun e => h e.symm
      simp [h, h2, ih]

/-- After a run of assignments a key holds the value of the last assignment to
it, or what it held before. -/
theorem mapFind_foldl_mapSet {κ ν : Type} [DecidableEq κ] (ps : List (κ × ν))
    (m : List (κ × ν)) (n : κ) :
    mapFind (ps.foldl (fun acc p => mapSet acc p.1 p.2) m) n =
      ((ps.reverse.find? (fun p => decide (p.1 = n))).map Prod.snd).or (mapFind m n) := by
  induction ps generalizing m with
  | nil => simp
  | cons p ps ih =>
    rw [List.foldl_cons, ih, List.reverse_cons, List.find?_append, mapFind_mapSet]
    cases hf : List.find? (fun p => decide (p.1 = n)) ps.reverse with
    | some q => simp
    | none =>
      by_cases hp : p.1 = n
      · simp [hp]
      · simp [hp]

/-- Adding a parsed material keeps the name list and the keys of the map in
step. -/
theorem ParsedMaterials.add_consistent (parsed : ParsedMaterials) (p : String × Material)
    (h : ∀ n, n ∈ parsed.names ↔ n ∈ parsed.networkMaterials.map Prod.fst) :
    ∀ n, n ∈ (parsed.add p).names ↔ n ∈ (parsed.add p).networkMaterials.map Prod.fst := by
  intro n
  unfold ParsedMaterials.add
  simp only [List.mem_append, List.mem_singleton, mapSet_keys]
  split_ifs with hk
  · rw [h n]
    constructor
    · rintro (h1 | h1)
      · exact h1
      · rw [h1]; exact hk
    · exact Or.inl
  · rw [h n, List.mem_append, List.mem_singleton]

/-- The array loop body adds the parsed material of an object element and skips
any other element. -/
theorem materialsArrayStep_eq (env : MaterialEnv) (baseUrl : QUrl) (acc : ParsedMaterials)
    (material : QJsonValue) :
    materialsArrayStep env baseUrl acc material =
      if material.isObject then acc.add (parseJSONMaterial env material.toObject baseUrl)
      else acc := by
  unfold materialsArrayStep
  cases material <;> rfl

/-- The array loop adds the parsed elements in order: to the map by assignment,
to the name list at the end. -/
theorem foldl_materialsArrayStep (env : MaterialEnv) (baseUrl : QUrl) (l : List QJsonValue)
    (acc : ParsedMaterials) :
    l.foldl (materialsArrayStep env baseUrl) acc =
      { version := acc.version
        networkMaterials :=
          ((l.filter (fun material => material.isObject)).map
            (fun material => parseJSONMaterial env material.toObject baseUrl)).foldl
            (fun m p => mapSet m p.1 p.2) acc.networkMaterials
        names := acc.names ++
          ((l.filter (fun material => material.isObject)).map
            (fun material => parseJSONMaterial env material.toObject baseUrl)).map Prod.fst } := by
  induction l generalizing acc with
  | nil => simp
  | cons v l ih =>
    rw [List.foldl_cons, ih, materialsArrayStep_eq]
    by_cases hv : v.isObject = true
    · simp [hv, ParsedMaterials.add]
    · simp [hv]

/-- The key loop body leaves the material map and the name list alone for a key
other than `materials`. -/
theorem materialsKeyStep_other (env : MaterialEnv) (o : QJsonObject) (baseUrl : QUrl)
    (acc : ParsedMaterials) (key : String) (h : key ≠ "materials") :
    (materialsKeyStep env o baseUrl acc key).names = acc.names ∧
    (materialsKeyStep env o baseUrl acc key).networkMaterials = acc.networkMaterials := by
  unfold materialsKeyStep
  rw [if_neg h]
  dsimp only
  split_ifs <;> exact ⟨rfl, rfl⟩

/-- The key loop leaves the material map and the name list alone over keys
other than `materials`. -/
theorem foldl_materialsKeyStep_other (env : MaterialEnv) (o : QJsonObject) (baseUrl : QUrl)
    (keys : List String) (acc : ParsedMaterials) (h : "materials" ∉ keys) :
    (keys.foldl (materialsKeyStep env o baseUrl) acc).names = acc.names ∧
    (keys.foldl (materialsKeyStep env o baseUrl) acc).networkMaterials =
      acc.networkMaterials := by
  induction keys generalizing acc with
  | nil => exact ⟨rfl, rfl⟩
  | cons k keys ih =>
    rw [List.foldl_cons]
    have hk : k ≠ "materials" := fun e => h (by rw [e]; exact List.mem_cons_self _ _)
    have hrest : "materials" ∉ keys := fun e => h (List.mem_cons_of_mem _ e)
    obtain ⟨h1, h2⟩ := materialsKeyStep_other env o baseUrl acc k hk
    obtain ⟨h3, h4⟩ := ih (materialsKeyStep env o baseUrl acc k) hrest
    exact ⟨h3.trans h1, h4.trans h2⟩

/-- The key loop body keeps the name list and the keys of the map in step. -/
theorem materialsKeyStep_consistent (env : MaterialEnv) (o : QJsonObject) (baseUrl : QUrl)
    (acc : ParsedMaterials) (key : String)
    (h : ∀ n, n ∈ acc.names ↔ n ∈ acc.networkMaterials.map Prod.fst) :
    ∀ n, n ∈ (materialsKeyStep env o baseUrl acc key).names ↔
      n ∈ (materialsKeyStep env o baseUrl acc key).networkMaterials.map Prod.fst := by
  unfold materialsKeyStep
  dsimp only
  split_ifs
  · exact h
  · exact h
  · generalize (o.value key).toArray.toList = l
    induction l generalizing acc with
    | nil => exact h
    | cons v l ih =>
      rw [List.foldl_cons]
      apply ih
      rw [materialsArrayStep_eq]
      split_ifs
      · exact ParsedMaterials.add_consistent acc _ h
      · exact h
  · exact ParsedMaterials.add_consistent acc _ h
  · exact h
  · exact h

/-- In every result of `parseJSONMaterials` the names in the list are the keys
of the map. -/
theorem parseJSONMaterials_consistent (env : MaterialEnv) (materialJSON : QJsonDocument)
    (baseUrl : QUrl) :
    ∀ n, n ∈ (parseJSONMaterials env materialJSON baseUrl).names ↔
      n ∈ (parseJSONMaterials env materialJSON baseUrl).networkMaterials.map Prod.fst := by
  unfold parseJSONMaterials
  split_ifs
  · generalize materialJSON.object.keys = keys
    have base : ∀ n, n ∈ ({} : ParsedMaterials).names ↔
        n ∈ ({} : ParsedMaterials).networkMaterials.map Prod.fst := by
      intro n; simp
    generalize ({} : ParsedMaterials) = acc at base ⊢
    induction keys generalizing acc with
    | nil => exact base
    | cons k keys ih =>
      rw [List.foldl_cons]
      exact ih _ (materialsKeyStep_consistent env _ baseUrl acc k base)
  · intro n; simp

/-- A key with a defined value is among the keys of the object. -/
theorem QJsonObject.mem_keys_of_value :
    (o : QJsonObject) → (key : String) → o.value key ≠ QJsonValue.undefined → key ∈ o.keys
  | .nil, _, h => absurd rfl h
  | .cons k v t, key, h => by
    show key ∈ k :: t.keys
    by_cases hk : k = key
    · rw [hk]
      exact List.mem_cons_self _ _
    · have ht : t.value key ≠ QJsonValue.undefined := by
        intro e
        apply h
        show (if k = key then v else t.value key) = _
        rw [if_neg hk, e]
      exact List.mem_cons_of_mem _ (QJsonObject.mem_keys_of_value t key ht)

/-- For an object whose `materials` is an array, the result lists the names of
the parsed elements and assigns them to the map in order. -/
theorem parseJSONMaterials_of_array (env : MaterialEnv) (o : QJsonObject) (baseUrl : QUrl)
    (materials : QJsonArray) (hsorted : o.keysSorted)
    (hmaterials : o.value "materials" = QJsonValue.array materials) :
    (parseJSONMaterials env (QJsonDocument.ofObject o) baseUrl).names =
      (parsedElements env baseUrl materials).map Prod.fst ∧
    (parseJSONMaterials env (QJsonDocument.ofObject o) baseUrl).networkMaterials =
      (parsedElements env baseUrl materials).foldl (fun m p => mapSet m p.1 p.2) [] := by
  have hmem : "materials" ∈ o.keys :=
    QJsonObject.mem_keys_of_value o "materials" (by rw [hmaterials]; simp)
  have hnodup : o.keys.Nodup := List.Pairwise.nodup hsorted
  obtain ⟨before, after, hkeys⟩ := List.append_of_mem hmem
  rw [hkeys] at hnodup
  have hbefore : "materials" ∉ before := by
    intro h
    have := (List.nodup_append.mp hnodup).2.2
    exact this h (List.mem_cons_self _ _) 
  have hafter : "materials" ∉ after := by
    have := (List.nodup_append.mp hnodup).2.1
    exact (List.nodup_cons.mp this).1
  have hstep : ∀ acc, materialsKeyStep env o baseUrl acc "materials" =
      materials.toList.foldl (materialsArrayStep env baseUrl) acc := by
    intro acc
    unfold materialsKeyStep
    rw [if_neg (by decide), if_pos rfl]
    dsimp only
    rw [hmaterials]
    rfl
  have hparse : parseJSONMaterials env (QJsonDocument.ofObject o) baseUrl =
      after.foldl (materialsKeyStep env o baseUrl)
        (materials.toList.foldl (materialsArrayStep env baseUrl)
          (before.foldl (materialsKeyStep env o baseUrl) {})) := by
    unfold parseJSONMaterials
    rw [if_pos (show (!(QJsonDocument.ofObject o).isNull &&
      (QJsonDocument.ofObject o).isObject) = true from rfl)]
    show o.keys.foldl (materialsKeyStep env o baseUrl) {} = _
    rw [hkeys, List.foldl_append, List.foldl_cons, hstep]
  obtain ⟨a1, a2⟩ := foldl_materialsKeyStep_other env o baseUrl after
    (materials.toList.foldl (materialsArrayStep env baseUrl)
      (before.foldl (materialsKeyStep env o baseUrl) {})) hafter
  obtain ⟨b1, b2⟩ := foldl_materialsKeyStep_other env o baseUrl before {} hbefore
  rw [hparse, a1, a2, foldl_materialsArrayStep, b1, b2]
  exact ⟨by simp [parsedElements], rfl⟩

/-! ## Lemmas on the material entity renderer -/

namespace MaterialEntityRenderer

/-- With no material resolved `applyMaterial` clears `_retryApply` and calls
nothing. -/
theorem applyMaterial_of_none (env : MaterialEnv) (self : MaterialEntityRenderer)
    (trace : List Event) (h : self.getMaterial = none) :
    applyMaterial env self trace = ({ self with _retryApply := false }, trace) := by
  have h2 : getMaterial { self with _retryApply := false } = none := h
  unfold applyMaterial
  dsimp only
  rw [h2]

/-- With a null parent id `applyMaterial` clears `_retryApply` and calls
nothing. -/
theorem applyMaterial_of_null (env : MaterialEnv) (self : MaterialEntityRenderer)
    (trace : List Event) (h : self._parentID.isNull = true) :
    applyMaterial env self trace = ({ self with _retryApply := false }, trace) := by
  unfold applyMaterial
  dsimp only
  split
  · rfl
  · rw [if_pos h]

/-- With a material resolved and a parent id, `applyMaterial` is the chain of
the three attach calls. -/
theorem applyMaterial_of_some (env : MaterialEnv) (self : MaterialEntityRenderer)
    (trace : List Event) (material : Material) (hm : self.getMaterial = some material)
    (hp : self._parentID.isNull = false) :
    applyMaterial env self trace =
      if env.answer trace (self.attachCall .entity material) then
        ({ self with
            _retryApply := false
            _parsedMaterials := { self._parsedMaterials with
              networkMaterials := mapSet self._parsedMaterials.networkMaterials
                self._currentMaterialName (self.materialLayer material).material } },
          trace ++ [self.attachCall .entity material])
      else if env.answer
          (trace ++ [self.attachCall .entity material])
          (self.attachCall .avatar material) then
        ({ self with
            _retryApply := false
            _parsedMaterials := { self._parsedMaterials with
              networkMaterials := mapSet self._parsedMaterials.networkMaterials
                self._currentMaterialName (self.materialLayer material).material } },
          trace ++ [self.attachCall .entity material,
            self.attachCall .avatar material])
      else
        ({ self with
            _retryApply := !env.answer
              (trace ++ [self.attachCall .entity material,
                self.attachCall .avatar material])
              (self.attachCall .overlay material)
            _parsedMaterials := { self._parsedMaterials with
              networkMaterials := mapSet self._parsedMaterials.networkMaterials
                self._currentMaterialName (self.materialLayer material).material } },
          trace ++ [self.attachCall .entity material,
            self.attachCall .avatar material,
            self.attachCall .overlay material]) := by
  have h2 : getMaterial { self with _retryApply := false } = some material := hm
  unfold applyMaterial
  dsimp only
  rw [h2]
  dsimp only
  rw [if_neg (by simp [hp])]
  split_ifs <;> simp_all [materialLayer, attachCall]

/-- With no material resolved `deleteMaterial` calls nothing. -/
theorem deleteMaterial_of_none (env : MaterialEnv) (self : MaterialEntityRenderer)
    (trace : List Event) (h : self.getMaterial = none) :
    deleteMaterial env self trace = trace := by
  unfold deleteMaterial
  rw [h]

/-- With a null parent id `deleteMaterial` calls nothing. -/
theorem deleteMaterial_of_null (env : MaterialEnv) (self : MaterialEntityRenderer)
    (trace : List Event) (h : self._parentID.isNull = true) :
    deleteMaterial env self trace = trace := by
  unfold deleteMaterial
  split
  · rfl
  · dsimp only
    rw [if_pos h]

/-- With a material resolved and a parent id, `deleteMaterial` is the chain of
the three detach calls. -/
theorem deleteMaterial_of_some (env : MaterialEnv) (self : MaterialEntityRenderer)
    (trace : List Event) (material : Material) (hm : self.getMaterial = some material)
    (hp : self._parentID.isNull = false) :
    deleteMaterial env self trace =
      if env.answer trace
          (self.detachCall .entity material) then
        trace ++ [self.detachCall .entity material]
      else if env.answer
          (trace ++
            [self.detachCall .entity material])
          (self.detachCall .avatar material) then
        trace ++ [self.detachCall .entity material,
          self.detachCall .avatar material]
      else
        trace ++ [self.detachCall .entity material,
          self.detachCall .avatar material,
          self.detachCall .overlay material] := by
  unfold deleteMaterial
  rw [hm]
  dsimp only
  rw [if_neg (by simp [hp])]

/-- The parent id is not written by `setCurrentMaterialName`. -/
theorem setCurrentMaterialName_parentID (self : MaterialEntityRenderer) (name : String) :
    (self.setCurrentMaterialName name)._parentID = self._parentID := by
  unfold setCurrentMaterialName
  split_ifs
  · rfl
  · split <;> rfl

/-- The calls of `deleteMaterial` are appended to the trace and none of them is
an attach. -/
theorem deleteMaterial_appends (env : MaterialEnv) (self : MaterialEntityRenderer)
    (trace : List Event) :
    ∃ added, deleteMaterial env self trace = trace ++ added ∧
      ∀ e ∈ added, ∀ id, e.isAttachWith id = false := by
  cases hm : self.getMaterial with
  | none => exact ⟨[], by rw [deleteMaterial_of_none env self trace hm]; simp, by simp⟩
  | some material =>
    cases hp : self._parentID.isNull with
    | true => exact ⟨[], by rw [deleteMaterial_of_null env self trace hp]; simp, by simp⟩
    | false =>
      rw [deleteMaterial_of_some env self trace material hm hp]
      split_ifs
      · exact ⟨[_], rfl, by simp [detachCall, Event.isAttachWith]⟩
      · exact ⟨[_, _], rfl, by simp [detachCall, Event.isAttachWith]⟩
      · exact ⟨[_, _, _], rfl, by simp [detachCall, Event.isAttachWith]⟩

/-- With a material resolved and a parent id, `deleteMaterial` appends the
entity detach call and then only detach calls with the same arguments. -/
theorem deleteMaterial_detaches (env : MaterialEnv) (self : MaterialEntityRenderer)
    (trace : List Event) (material : Material) (hm : self.getMaterial = some material)
    (hp : self._parentID.isNull = false) :
    ∃ detached, deleteMaterial env self trace =
        trace ++ self.detachCall .entity material :: detached ∧
      ∀ e ∈ detached, ∃ kind, e = self.detachCall kind material := by
  rw [deleteMaterial_of_some env self trace material hm hp]
  split_ifs
  · exact ⟨[], rfl, by simp⟩
  · refine ⟨[_], rfl, ?_⟩
    intro e he
    rw [List.mem_singleton] at he
    exact ⟨_, he⟩
  · refine ⟨[_, _], rfl, ?_⟩
    intro e he
    simp only [List.mem_cons, List.mem_singleton, List.not_mem_nil, or_false] at he
    rcases he with he | he
    · exact ⟨_, he⟩
    · exact ⟨_, he⟩

/-- The parent id is kept by `applyMaterial`, and every attach it appends is
made with that id. -/
theorem applyMaterial_appends (env : MaterialEnv) (self : MaterialEntityRenderer)
    (trace : List Event) :
    (applyMaterial env self trace).1._parentID = self._parentID ∧
    ∃ added, (applyMaterial env self trace).2 = trace ++ added ∧
      ∀ e ∈ added, ∀ id, e.isAttachWith id = true → id = self._parentID := by
  cases hm : self.getMaterial with
  | none =>
    rw [applyMaterial_of_none env self trace hm]
    exact ⟨rfl, [], by simp, by simp⟩
  | some material =>
    cases hp : self._parentID.isNull with
    | true =>
      rw [applyMaterial_of_null env self trace hp]
      exact ⟨rfl, [], by simp, by simp⟩
    | false =>
      rw [applyMaterial_of_some env self trace material hm hp]
      split_ifs
      · exact ⟨rfl, [_], rfl, by simp [attachCall, Event.isAttachWith]⟩
      · exact ⟨rfl, [_, _], rfl, by simp [attachCall, Event.isAttachWith]⟩
      · exact ⟨rfl, [_, _, _], rfl, by simp [attachCall, Event.isAttachWith]⟩

/-- The parent id is kept by `setMaterialURL`, and every attach it appends is
made with that id. -/
theorem setMaterialURL_appends (env : MaterialEnv) (self : MaterialEntityRenderer)
    (trace : List Event) (url : String) (materialDataChanged : Bool) :
    (setMaterialURL env self trace url materialDataChanged).1._parentID = self._parentID ∧
    ∃ added, (setMaterialURL env self trace url materialDataChanged).2 = trace ++ added ∧
      ∀ e ∈ added, ∀ id, e.isAttachWith id = true → id = self._parentID := by
  unfold setMaterialURL
  dsimp only
  split_ifs with h1 h2 h3
  · exact ⟨by rw [setCurrentMaterialName_parentID], [], by simp, by simp⟩
  · exact ⟨by rw [setCurrentMaterialName_parentID], [], by simp, by simp⟩
  · split
    · rename_i resource _
      split_ifs with h4
      · unfold onMaterialRequestFinished
        split_ifs
        · dsimp only
          have h := applyMaterial_appends env
            (setCurrentMaterialName
              { self with
                _materialURL := url
                _currentMaterialName := afterLastQuestionMark url
                _networkMaterial := env.getMaterial (env.toUrl url)
                _parsedMaterials := resource.parsedMaterials }
              (afterLastQuestionMark url)) trace
          rw [setCurrentMaterialName_parentID] at h
          exact h
        · exact ⟨rfl, [], by simp, by simp⟩
      · exact ⟨rfl, [_], rfl, by simp [Event.isAttachWith]⟩
    · exact ⟨rfl, [], by simp, by simp⟩
  · split
    · rename_i resource _
      split_ifs with h4
      · unfold onMaterialRequestFinished
        split_ifs
        · dsimp only
          have h := applyMaterial_appends env
            (setCurrentMaterialName
              { self with
                _materialURL := url
                _networkMaterial := env.getMaterial (env.toUrl url)
                _parsedMaterials := resource.parsedMaterials }
              self._currentMaterialName) trace
          rw [setCurrentMaterialName_parentID] at h
          exact h
        · exact ⟨rfl, [], by simp, by simp⟩
      · exact ⟨rfl, [_], rfl, by simp [Event.isAttachWith]⟩
    · exact ⟨rfl, [], by simp, by simp⟩
  · exact ⟨rfl, [], by simp, by simp⟩

/-- The material URL block when the URL changes and the material of the new URL
is not handed over within the call: the detach of the old material, then no
attach. -/
theorem updateMaterialURL_changed (env : MaterialEnv) (self : MaterialEntityRenderer)
    (trace : List Event) (entity : MaterialEntityItem)
    (hchanged : entity.materialURL ≠ self._materialURL)
    (hurl : startsWith entity.materialURL "materialData" = false →
      ∀ resource, env.getMaterial (env.toUrl entity.materialURL) = some resource →
        resource.loaded = true → resource.failed = true) :
    (updateMaterialURL env { self := self, trace := trace, materialNeedsUpdate := false }
      entity).self._parentID = self._parentID ∧
    ∃ added,
      (updateMaterialURL env { self := self, trace := trace, materialNeedsUpdate := false }
        entity).trace = deleteMaterial env self trace ++ added ∧
      ∀ e ∈ added, ∀ id, e.isAttachWith id = false := by
  unfold updateMaterialURL
  rw [if_pos (by simpa using hchanged)]
  dsimp only
  rw [if_pos (by rfl)]
  generalize deleteMaterial env self trace = deleted
  unfold setMaterialURL
  dsimp only
  cases hstart : startsWith entity.materialURL "materialData" with
  | true =>
    simp only [Bool.not_false, Bool.false_or, Bool.true_or, if_true]
    split_ifs
    · exact ⟨by rw [setCurrentMaterialName_parentID], [], by simp, by simp⟩
    · exact ⟨by rw [setCurrentMaterialName_parentID], [], by simp, by simp⟩
  | false =>
    have hno := hurl hstart
    simp only [Bool.not_false, Bool.false_or, Bool.true_or, if_true, Bool.false_eq_true,
      if_false]
    split_ifs
    · split
      · rename_i resource hres
        have hres2 : env.getMaterial (env.toUrl entity.materialURL) = some resource := hres
        split_ifs with h4
        · unfold onMaterialRequestFinished
          rw [hno resource hres2 h4]
          exact ⟨rfl, [], by simp, by simp⟩
        · exact ⟨rfl, [_], rfl, by simp [Event.isAttachWith]⟩
      · exact ⟨rfl, [], by simp, by simp⟩
    · split
      · rename_i resource hres
        have hres2 : env.getMaterial (env.toUrl entity.materialURL) = some resource := hres
        split_ifs with h4
        · unfold onMaterialRequestFinished
          rw [hno resource hres2 h4]
          exact ⟨rfl, [], by simp, by simp⟩
        · exact ⟨rfl, [_], rfl, by simp [Event.isAttachWith]⟩
      · exact ⟨rfl, [], by simp, by simp⟩

/-- The parent id block when the id changes: the detach unless an update is
already due, then the new id. -/
theorem updateParentID_changed (env : MaterialEnv) (pass : UpdatePass)
    (entity : MaterialEntityItem) (hchanged : entity.parentID ≠ pass.self._parentID) :
    (updateParentID env pass entity).self._parentID = entity.parentID ∧
    (updateParentID env pass entity).trace =
      (if pass.materialNeedsUpdate then pass.trace
        else deleteMaterial env pass.self pass.trace) := by
  unfold updateParentID
  rw [if_pos (by simpa using hchanged)]
  dsimp only
  cases pass.materialNeedsUpdate <;> exact ⟨rfl, rfl⟩

/-- The mapping block keeps the parent id and appends no attach with another
id. -/
theorem updateMapping_appends (env : MaterialEnv) (pass : UpdatePass)
    (entity : MaterialEntityItem) :
    (updateMapping env pass entity).self._parentID = pass.self._parentID ∧
    ∃ added, (updateMapping env pass entity).trace = pass.trace ++ added ∧
      ∀ e ∈ added, ∀ id, e.isAttachWith id = true → id = pass.self._parentID := by
  obtain ⟨added, hadded, hno⟩ := deleteMaterial_appends env pass.self pass.trace
  unfold updateMapping
  split_ifs
  · exact ⟨rfl, added, hadded, fun e he id h => by rw [hno e he id] at h; cases h⟩
  · exact ⟨rfl, [], by simp, by simp⟩
  · exact ⟨rfl, [], by simp, by simp⟩

/-- The priority block keeps the parent id and appends no attach with another
id. -/
theorem updatePriority_appends (env : MaterialEnv) (pass : UpdatePass)
    (entity : MaterialEntityItem) :
    (updatePriority env pass entity).self._parentID = pass.self._parentID ∧
    ∃ added, (updatePriority env pass entity).trace = pass.trace ++ added ∧
      ∀ e ∈ added, ∀ id, e.isAttachWith id = true → id = pass.self._parentID := by
  obtain ⟨added, hadded, hno⟩ := deleteMaterial_appends env pass.self pass.trace
  unfold updatePriority
  split_ifs
  · exact ⟨rfl, added, hadded, fun e he id h => by rw [hno e he id] at h; cases h⟩
  · exact ⟨rfl, [], by simp, by simp⟩
  · exact ⟨rfl, [], by simp, by simp⟩

/-- The parent material name block keeps the parent id and appends no attach
with another id. -/
theorem updateParentMaterialName_appends (env : MaterialEnv) (pass : UpdatePass)
    (entity : MaterialEntityItem) :
    (updateParentMaterialName env pass entity).self._parentID = pass.self._parentID ∧
    ∃ added, (updateParentMaterialName env pass entity).trace = pass.trace ++ added ∧
      ∀ e ∈ added, ∀ id, e.isAttachWith id = true → id = pass.self._parentID := by
  obtain ⟨added, hadded, hno⟩ := deleteMaterial_appends env pass.self pass.trace
  unfold updateParentMaterialName
  split_ifs
  · exact ⟨rfl, added, hadded, fun e he id h => by rw [hno e he id] at h; cases h⟩
  · exact ⟨rfl, [], by simp, by simp⟩
  · exact ⟨rfl, [], by simp, by simp⟩

/-- The material data block keeps the parent id and appends no attach with
another id. -/
theorem updateMaterialData_appends (env : MaterialEnv) (pass : UpdatePass)
    (entity : MaterialEntityItem) :
    (updateMaterialData env pass entity).self._parentID = pass.self._parentID ∧
    ∃ added, (updateMaterialData env pass entity).trace = pass.trace ++ added ∧
      ∀ e ∈ added, ∀ id, e.isAttachWith id = true → id = pass.self._parentID := by
  obtain ⟨deleted, hdeleted, hno⟩ := deleteMaterial_appends env pass.self pass.trace
  have hstep : ∃ added,
      (if (!pass.materialNeedsUpdate) = true then deleteMaterial env pass.self pass.trace
        else pass.trace) = pass.trace ++ added ∧
      ∀ e ∈ added, ∀ id, e.isAttachWith id = true → id = pass.self._parentID := by
    split_ifs
    · exact ⟨deleted, hdeleted, fun e he id h => by rw [hno e he id] at h; cases h⟩
    · exact ⟨[], by simp, by simp⟩
  obtain ⟨added, hadded, hq⟩ := hstep
  unfold updateMaterialData
  by_cases h1 : (entity.materialData != pass.self._materialData) = true
  · rw [if_pos h1]
    dsimp only
    rw [hadded]
    by_cases h2 : startsWith pass.self._materialURL "materialData" = true
    · rw [if_pos h2]
      obtain ⟨hp, more, hmore, hmq⟩ := setMaterialURL_appends env
        { pass.self with _materialData := entity.materialData } (pass.trace ++ added)
        pass.self._materialURL true
      refine ⟨hp, added ++ more, ?_, ?_⟩
      · show (setMaterialURL _ _ _ _ _).2 = _
        rw [hmore, List.append_assoc]
      · intro e he id h
        rcases List.mem_append.mp he with he | he
        · exact hq e he id h
        · exact hmq e he id h
    · rw [if_neg h2]
      exact ⟨rfl, added, rfl, hq⟩
  · rw [if_neg h1]
    exact ⟨rfl, [], by simp, by simp⟩

/-- The end of the pass appends no attach with an id other than the one the
renderer holds. -/
theorem finishUpdate_appends (env : MaterialEnv) (pass : UpdatePass) :
    ∃ added, (finishUpdate env pass).2 = pass.trace ++ added ∧
      ∀ e ∈ added, ∀ id, e.isAttachWith id = true → id = pass.self._parentID := by
  obtain ⟨-, added, hadded, hq⟩ := applyMaterial_appends env pass.self pass.trace
  unfold finishUpdate
  dsimp only
  split_ifs
  · refine ⟨added ++ [Event.requestRenderUpdate], ?_, ?_⟩
    · rw [hadded, List.append_assoc]
    · intro e he id h
      rcases List.mem_append.mp he with he | he
      · exact hq e he id h
      · rw [List.mem_singleton.mp he] at h
        cases h
  · exact ⟨added, hadded, hq⟩
  · exact ⟨[], by simp, by simp⟩

/-- What follows the parent id block in an update pass appends to the trace, and
every attach among the calls it appends is made with the parent id the
renderer holds after that block. -/
theorem afterParentID_appends (env : MaterialEnv) (pass : UpdatePass)
    (entity : MaterialEntityItem) :
    ∃ added,
      (finishUpdate env (updateMaterialData env (updateParentMaterialName env
        (updatePriority env (updateMapping env pass entity) entity) entity) entity)).2 =
        pass.trace ++ added ∧
      ∀ e ∈ added, ∀ id, e.isAttachWith id = true → id = pass.self._parentID := by
  obtain ⟨p1, a1, h1, q1⟩ := updateMapping_appends env pass entity
  obtain ⟨p2, a2, h2, q2⟩ := updatePriority_appends env (updateMapping env pass entity) entity
  obtain ⟨p3, a3, h3, q3⟩ := updateParentMaterialName_appends env
    (updatePriority env (updateMapping env pass entity) entity) entity
  obtain ⟨p4, a4, h4, q4⟩ := updateMaterialData_appends env (updateParentMaterialName env
    (updatePriority env (updateMapping env pass entity) entity) entity) entity
  obtain ⟨a5, h5, q5⟩ := finishUpdate_appends env (updateMaterialData env
    (updateParentMaterialName env
      (updatePriority env (updateMapping env pass entity) entity) entity) entity)
  rw [p4, p3, p2, p1] at q5
  rw [p3, p2, p1] at q4
  rw [p2, p1] at q3
  rw [p1] at q2
  refine ⟨a1 ++ (a2 ++ (a3 ++ (a4 ++ a5))), ?_, ?_⟩
  · rw [h5, h4, h3, h2, h1]
    simp only [List.append_assoc]
  · intro e he id h
    simp only [List.mem_append] at he
    rcases he with he | he | he | he | he
    · exact q1 e he id h
    · exact q2 e he id h
    · exact q3 e he id h
    · exact q4 e he id h
    · exact q5 e he id h

/-- An update pass in which the parent id changes while a material is resolved
on a non-null parent, and the material of a new URL is not handed over within
the pass: the trace is that of `deleteMaterial` on the renderer as it entered
the pass, followed by calls among which every attach is made with the new
parent id. -/
theorem doRenderUpdateSynchronousTyped_parent_changed (env : MaterialEnv)
    (self : MaterialEntityRenderer) (trace : List Event) (entity : MaterialEntityItem)
    (hchange : entity.parentID ≠ self._parentID)
    (hurl : entity.materialURL ≠ self._materialURL →
      startsWith entity.materialURL "materialData" = false →
      ∀ resource, env.getMaterial (env.toUrl entity.materialURL) = some resource →
        resource.loaded = true → resource.failed = true) :
    ∃ rest, (doRenderUpdateSynchronousTyped env self trace entity).2 =
        deleteMaterial env self trace ++ rest ∧
      ∀ e ∈ rest, ∀ id, e.isAttachWith id = true → id = entity.parentID := by
  have hfirst : ∃ added,
      (updateParentID env (updateMaterialURL env
        { self := self, trace := trace, materialNeedsUpdate := false } entity) entity).self._parentID
          = entity.parentID ∧
      (updateParentID env (updateMaterialURL env
        { self := self, trace := trace, materialNeedsUpdate := false } entity) entity).trace =
          deleteMaterial env self trace ++ added ∧
      ∀ e ∈ added, ∀ id, e.isAttachWith id = false := by
    by_cases hu : entity.materialURL = self._materialURL
    · have hpass : updateMaterialURL env
          { self := self, trace := trace, materialNeedsUpdate := false } entity =
          { self := self, trace := trace, materialNeedsUpdate := false } := by
        unfold updateMaterialURL
        rw [if_neg (by simpa using hu)]
      rw [hpass]
      obtain ⟨hp, ht⟩ := updateParentID_changed env
        { self := self, trace := trace, materialNeedsUpdate := false } entity hchange
      exact ⟨[], hp, by rw [ht]; simp, by simp⟩
    · obtain ⟨hp1, added1, ht1, hno1⟩ := updateMaterialURL_changed env self trace entity hu
        (hurl hu)
      obtain ⟨hp2, ht2⟩ := updateParentID_changed env (updateMaterialURL env
        { self := self, trace := trace, materialNeedsUpdate := false } entity) entity
        (by rw [hp1]; exact hchange)
      obtain ⟨added2, hadded2, hno2⟩ := deleteMaterial_appends env
        (updateMaterialURL env
          { self := self, trace := trace, materialNeedsUpdate := false } entity).self
        (updateMaterialURL env
          { self := self, trace := trace, materialNeedsUpdate := false } entity).trace
      split_ifs at ht2
      · exact ⟨added1, hp2, by rw [ht2, ht1], hno1⟩
      · refine ⟨added1 ++ added2, hp2, ?_, ?_⟩
        · rw [ht2, hadded2, ht1, List.append_assoc]
        · intro e he id
          rcases List.mem_append.mp he with he | he
          · exact hno1 e he id
          · exact hno2 e he id
  obtain ⟨added, hp, ht, hno⟩ := hfirst
  obtain ⟨more, hmore, hq⟩ := afterParentID_appends env (updateParentID env
    (updateMaterialURL env { self := self, trace := trace, materialNeedsUpdate := false } entity)
    entity) entity
  rw [hp] at hq
  refine ⟨added ++ more, ?_, ?_⟩
  · show (finishUpdate env _).2 = _
    rw [hmore, ht, List.append_assoc]
  · intro e he id h
    rcases List.mem_append.mp he with he | he
    · rw [hno e he id] at h
      cases h
    · exact hq e he id h

end MaterialEntityRenderer

/-! ## The claims on the material entity renderer and the material parser -/

/-- C11: for every attach attempt (`applyMaterial`) with a resolved material and
a non-null parent id, the attach is offered to the entity resolver first, to
the avatar resolver only if the entity resolver answered false, and to the
overlay resolver only if both answered false.  In particular, when the entity
resolver answers false and the avatar resolver true, the attach succeeds
(`_retryApply` is false) and the calls made are the entity call followed by
the avatar call, none of them a call to the overlay resolver. -/
theorem applyMaterial_dispatch_order (env : MaterialEnv) (self : MaterialEntityRenderer)
    (trace : List Event) (material : Material)
    (hmaterial : self.getMaterial = some material)
    (hparent : self._parentID.isNull = false) :
    (self.applyMaterial env trace).2 =
      (if env.answer trace (self.attachCall .entity material) then
        trace ++ [self.attachCall .entity material]
      else if env.answer (trace ++ [self.attachCall .entity material])
          (self.attachCall .avatar material) then
        trace ++ [self.attachCall .entity material, self.attachCall .avatar material]
      else
        trace ++ [self.attachCall .entity material, self.attachCall .avatar material,
          self.attachCall .overlay material]) ∧
    (env.answer trace (self.attachCall .entity material) = false →
      env.answer (trace ++ [self.attachCall .entity material])
        (self.attachCall .avatar material) = true →
      (self.applyMaterial env trace).1._retryApply = false ∧
      (self.applyMaterial env trace).2 =
        trace ++ [self.attachCall .entity material, self.attachCall .avatar material] ∧
      ∀ event ∈ [self.attachCall .entity material, self.attachCall .avatar material],
        event.isCallTo .overlay = false) := by
  rw [MaterialEntityRenderer.applyMaterial_of_some env self trace material hmaterial hparent]
  constructor
  · split_ifs <;> rfl
  · intro h1 h2
    rw [if_neg (by simp [h1]), if_pos h2]
    refine ⟨rfl, rfl, ?_⟩
    intro event hevent
    simp only [List.mem_cons, List.mem_singleton, List.not_mem_nil, or_false] at hevent
    rcases hevent with h | h <;> rw [h] <;> rfl

/-- Witness for C11: in `sampleMaterialEnv` only the avatar resolvers recognise
an id; the sample renderer attaches through the avatar resolver. -/
theorem applyMaterial_dispatch_order_witness :
    (sampleRenderer.applyMaterial sampleMaterialEnv []).1._retryApply = false ∧
    (sampleRenderer.applyMaterial sampleMaterialEnv []).2 =
      [sampleRenderer.attachCall .entity [], sampleRenderer.attachCall .avatar []] ∧
    ∀ event ∈ [sampleRenderer.attachCall .entity [], sampleRenderer.attachCall .avatar []],
      event.isCallTo .overlay = false :=
  (applyMaterial_dispatch_order sampleMaterialEnv sampleRenderer [] [] (by decide)
    (by decide)).2 (by decide) (by decide)

/-- C12: immediately after every call of `applyMaterial`, `_retryApply` is true
if and only if a material is resolved, the parent id is not null, and each of
the three add resolvers (entity, avatar, overlay, asked in that order)
answered false; when no material is resolved or the parent id is null no
resolver is called and `_retryApply` is false.  While `_retryApply` is true
`needsRenderUpdate` answers true. -/
theorem applyMaterial_retryApply (env : MaterialEnv) (self : MaterialEntityRenderer)
    (trace : List Event) :
    ((self.applyMaterial env trace).1._retryApply = true ↔
      ∃ material, self.getMaterial = some material ∧ self._parentID.isNull = false ∧
        env.answer trace (self.attachCall .entity material) = false ∧
        env.answer (trace ++ [self.attachCall .entity material])
          (self.attachCall .avatar material) = false ∧
        env.answer (trace ++ [self.attachCall .entity material,
          self.attachCall .avatar material]) (self.attachCall .overlay material) = false) ∧
    (self.getMaterial = none ∨ self._parentID.isNull = true →
      (self.applyMaterial env trace).2 = trace ∧
      (self.applyMaterial env trace).1._retryApply = false) ∧
    (∀ parentNeedsRenderUpdate, (self.applyMaterial env trace).1._retryApply = true →
      (self.applyMaterial env trace).1.needsRenderUpdate parentNeedsRenderUpdate = true) := by
  refine ⟨?_, ?_, ?_⟩
  · cases hm : self.getMaterial with
    | none =>
      rw [MaterialEntityRenderer.applyMaterial_of_none env self trace hm]
      simp
    | some material =>
      cases hp : self._parentID.isNull with
      | true =>
        rw [MaterialEntityRenderer.applyMaterial_of_null env self trace hp]
        simp
      | false =>
        rw [MaterialEntityRenderer.applyMaterial_of_some env self trace material hm hp]
        split_ifs with h1 h2 <;> simp_all
  · intro h
    rcases h with h | h
    · rw [MaterialEntityRenderer.applyMaterial_of_none env self trace h]
      exact ⟨rfl, rfl⟩
    · rw [MaterialEntityRenderer.applyMaterial_of_null env self trace h]
      exact ⟨rfl, rfl⟩
  · intro parentNeedsRenderUpdate h
    unfold MaterialEntityRenderer.needsRenderUpdate
    rw [if_pos h]

/-- Witness for C12: a renderer without a resolved material calls no resolver,
and the sample renderer, whose parent the avatar resolver recognises, does not
ask for a retry. -/
theorem applyMaterial_retryApply_witness :
    ((({ _parentID := ⟨7⟩ } : MaterialEntityRenderer).applyMaterial sampleMaterialEnv []).2 = [] ∧
      (({ _parentID := ⟨7⟩ } : MaterialEntityRenderer).applyMaterial
        sampleMaterialEnv []).1._retryApply = false) ∧
    ¬ (sampleRenderer.applyMaterial sampleMaterialEnv []).1._retryApply = true :=
  ⟨(applyMaterial_retryApply sampleMaterialEnv { _parentID := ⟨7⟩ } []).2.1 (Or.inl rfl),
    fun h => by
      obtain ⟨material, hm, -, -, h2, -⟩ :=
        (applyMaterial_retryApply sampleMaterialEnv sampleRenderer []).1.mp h
      have hmat : material = [] := by
        have : sampleRenderer.getMaterial = some [] := by decide
        rw [this] at hm
        exact (Option.some.inj hm).symm
      subst hmat
      exact absurd h2 (by decide)⟩

/-- C13 as stated fails: on the sample renderer (material `a` resolved, parent
id 7) the first `deleteMaterial` offers the detach to the entity resolver and
then to the avatar resolver, which accepts it, and a second `deleteMaterial`
right after it makes the same two calls again. -/
theorem deleteMaterial_twice_calls_resolvers_again :
    sampleRenderer.deleteMaterial sampleMaterialEnv [] =
      [Event.removeMaterial .entity ⟨7⟩ [] "slot", Event.removeMaterial .avatar ⟨7⟩ [] "slot"] ∧
    sampleRenderer.deleteMaterial sampleMaterialEnv
        (sampleRenderer.deleteMaterial sampleMaterialEnv []) =
      [Event.removeMaterial .entity ⟨7⟩ [] "slot", Event.removeMaterial .avatar ⟨7⟩ [] "slot",
        Event.removeMaterial .entity ⟨7⟩ [] "slot",
        Event.removeMaterial .avatar ⟨7⟩ [] "slot"] := by
  decide

/-- C13 amended: `deleteMaterial` always returns and writes no member of the
renderer, which keeps no record of a detach.  So of two calls in a row with a
resolved material and a non-null parent id, each offers the detach to the
entity resolver first, with the same parent id, material and slot name, then
to the avatar resolver if the entity resolver answered false, then to the
overlay resolver if both answered false, and makes no other call; the second
call starts its dispatch again after the calls of the first.  When no
material is resolved or the parent id is null, neither call invokes a remove
resolver. -/
theorem deleteMaterial_twice (env : MaterialEnv) (self : MaterialEntityRenderer)
    (trace : List Event) :
    (∀ material, self.getMaterial = some material → self._parentID.isNull = false →
      self.deleteMaterial env trace =
        (if env.answer trace (self.detachCall .entity material) then
          trace ++ [self.detachCall .entity material]
        else if env.answer (trace ++ [self.detachCall .entity material])
            (self.detachCall .avatar material) then
          trace ++ [self.detachCall .entity material, self.detachCall .avatar material]
        else
          trace ++ [self.detachCall .entity material, self.detachCall .avatar material,
            self.detachCall .overlay material]) ∧
      self.deleteMaterial env (self.deleteMaterial env trace) =
        (if env.answer (self.deleteMaterial env trace) (self.detachCall .entity material) then
          self.deleteMaterial env trace ++ [self.detachCall .entity material]
        else if env.answer
            (self.deleteMaterial env trace ++ [self.detachCall .entity material])
            (self.detachCall .avatar material) then
          self.deleteMaterial env trace ++
            [self.detachCall .entity material, self.detachCall .avatar material]
        else
          self.deleteMaterial env trace ++
            [self.detachCall .entity material, self.detachCall .avatar material,
              self.detachCall .overlay material]) ∧
      ∃ rest1 rest2,
        self.deleteMaterial env trace = trace ++ self.detachCall .entity material :: rest1 ∧
        self.deleteMaterial env (self.deleteMaterial env trace) =
          trace ++ self.detachCall .entity material :: rest1 ++
            self.detachCall .entity material :: rest2 ∧
        (rest1 = [] ∨ rest1 = [self.detachCall .avatar material] ∨
          rest1 = [self.detachCall .avatar material, self.detachCall .overlay material]) ∧
        (rest1 = [] ↔ env.answer trace (self.detachCall .entity material) = true) ∧
        (rest1 = [self.detachCall .avatar material] ↔
          env.answer trace (self.detachCall .entity material) = false ∧
          env.answer (trace ++ [self.detachCall .entity material])
            (self.detachCall .avatar material) = true) ∧
        (rest2 = [] ∨ rest2 = [self.detachCall .avatar material] ∨
          rest2 = [self.detachCall .avatar material, self.detachCall .overlay material]) ∧
        (rest2 = [] ↔ env.answer (self.deleteMaterial env trace)
          (self.detachCall .entity material) = true) ∧
        (rest2 = [self.detachCall .avatar material] ↔
          env.answer (self.deleteMaterial env trace)
            (self.detachCall .entity material) = false ∧
          env.answer (self.deleteMaterial env trace ++ [self.detachCall .entity material])
            (self.detachCall .avatar material) = true)) ∧
    (self.getMaterial = none ∨ self._parentID.isNull = true →
      self.deleteMaterial env trace = trace ∧
      self.deleteMaterial env (self.deleteMaterial env trace) = trace) := by
  constructor
  · intro material hm hp
    have key : ∀ t : List Event, ∃ rest,
        self.deleteMaterial env t = t ++ self.detachCall .entity material :: rest ∧
        (rest = [] ∨ rest = [self.detachCall .avatar material] ∨
          rest = [self.detachCall .avatar material, self.detachCall .overlay material]) ∧
        (rest = [] ↔ env.answer t (self.detachCall .entity material) = true) ∧
        (rest = [self.detachCall .avatar material] ↔
          env.answer t (self.detachCall .entity material) = false ∧
          env.answer (t ++ [self.detachCall .entity material])
            (self.detachCall .avatar material) = true) := by
      intro t
      rw [MaterialEntityRenderer.deleteMaterial_of_some env self t material hm hp]
      split_ifs with h1 h2
      · exact ⟨[], rfl, Or.inl rfl, by simp [h1], by simp [h1]⟩
      · exact ⟨[_], rfl, Or.inr (Or.inl rfl), by simp [h1], by simp [h1, h2]⟩
      · exact ⟨[_, _], rfl, Or.inr (Or.inr rfl), by simp [h1], by simp [h1, h2]⟩
    obtain ⟨rest1, h1, hs1, ha1, hb1⟩ := key trace
    obtain ⟨rest2, h2, hs2, ha2, hb2⟩ := key (self.deleteMaterial env trace)
    refine ⟨MaterialEntityRenderer.deleteMaterial_of_some env self trace material hm hp,
      MaterialEntityRenderer.deleteMaterial_of_some env self _ material hm hp,
      rest1, rest2, h1, ?_, hs1, ha1, hb1, hs2, ha2, hb2⟩
    rw [h2, h1]
  · intro h
    rcases h with h | h
    · rw [MaterialEntityRenderer.deleteMaterial_of_none env self trace h,
        MaterialEntityRenderer.deleteMaterial_of_none env self trace h]
      exact ⟨rfl, rfl⟩
    · rw [MaterialEntityRenderer.deleteMaterial_of_null env self trace h,
        MaterialEntityRenderer.deleteMaterial_of_null env self trace h]
      exact ⟨rfl, rfl⟩

/-- Witness for C13 amended: the two calls on the sample renderer. -/
theorem deleteMaterial_twice_witness :
    ∃ rest1 rest2,
      sampleRenderer.deleteMaterial sampleMaterialEnv [] =
        [] ++ sampleRenderer.detachCall .entity [] :: rest1 ∧
      sampleRenderer.deleteMaterial sampleMaterialEnv
          (sampleRenderer.deleteMaterial sampleMaterialEnv []) =
        [] ++ sampleRenderer.detachCall .entity [] :: rest1 ++
          sampleRenderer.detachCall .entity [] :: rest2 :=
  let ⟨rest1, rest2, h1, h2, _⟩ :=
    ((deleteMaterial_twice sampleMaterialEnv sampleRenderer []).1 [] (by decide)
      (by decide)).2.2
  ⟨rest1, rest2, h1, h2⟩

/-- C14 as stated fails: the sample renderer has the material `a` resolved on
the parent with id 7, and the entity now has the parent with id 9 and a
material URL whose cache entry is loaded.  The pass detaches from 7, then the
material URL block attaches the loaded material with the old id 7, and only
then does the parent id block detach again and the pass attach with 9. -/
theorem doRenderUpdateSynchronousTyped_attaches_old_parent :
    sampleRenderer._parentID = ⟨7⟩ ∧ sampleReparentedEntity.parentID = ⟨9⟩ ∧
    sampleRenderer.getMaterial = some [] ∧
    (sampleRenderer.doRenderUpdateSynchronousTyped sampleMaterialEnv []
        sampleReparentedEntity).2 =
      [Event.removeMaterial .entity ⟨7⟩ [] "slot",
        Event.removeMaterial .avatar ⟨7⟩ [] "slot",
        Event.addMaterial .entity ⟨7⟩
          ⟨[MaterialSetter.setTextureTransforms ⟨0, 0⟩ 0 ⟨0, 0⟩], 0⟩ "slot",
        Event.addMaterial .avatar ⟨7⟩
          ⟨[MaterialSetter.setTextureTransforms ⟨0, 0⟩ 0 ⟨0, 0⟩], 0⟩ "slot",
        Event.removeMaterial .entity ⟨7⟩
          [MaterialSetter.setTextureTransforms ⟨0, 0⟩ 0 ⟨0, 0⟩] "slot",
        Event.removeMaterial .avatar ⟨7⟩
          [MaterialSetter.setTextureTransforms ⟨0, 0⟩ 0 ⟨0, 0⟩] "slot",
        Event.addMaterial .entity ⟨9⟩
          ⟨[MaterialSetter.setTextureTransforms ⟨0, 0⟩ 0 ⟨0, 0⟩,
            MaterialSetter.setTextureTransforms ⟨0, 0⟩ 0 ⟨0, 0⟩], 0⟩ "slot",
        Event.addMaterial .avatar ⟨9⟩
          ⟨[MaterialSetter.setTextureTransforms ⟨0, 0⟩ 0 ⟨0, 0⟩,
            MaterialSetter.setTextureTransforms ⟨0, 0⟩ 0 ⟨0, 0⟩], 0⟩ "slot"] ∧
    (Event.addMaterial .entity ⟨7⟩
      ⟨[MaterialSetter.setTextureTransforms ⟨0, 0⟩ 0 ⟨0, 0⟩], 0⟩ "slot").isAttachWith
        sampleRenderer._parentID = true := by
  decide

/-- C14 amended: for every update pass (`doRenderUpdateSynchronousTyped`) in
which the parent id of the entity changes from a non-null id p to a different
id q while a material is resolved, unless the material URL also changes in
that pass to a URL that does not start with `materialData` and whose cache
entry is already loaded without failure: the pass begins with the detach
dispatch (`deleteMaterial`) on the renderer as it entered the pass, so the
first call of the pass is the entity detach with p, the resolved material and
the old parent material name, and the further calls of that dispatch are
detach calls with the same arguments; every attach attempted in the pass comes
after that dispatch and is made with q, and no attach is attempted with p. -/
theorem doRenderUpdateSynchronousTyped_detaches_old_parent (env : MaterialEnv)
    (self : MaterialEntityRenderer) (trace : List Event) (entity : MaterialEntityItem)
    (material : Material)
    (hparent : self._parentID.isNull = false)
    (hchange : entity.parentID ≠ self._parentID)
    (hmaterial : self.getMaterial = some material)
    (hurl : entity.materialURL ≠ self._materialURL →
      startsWith entity.materialURL "materialData" = false →
      ∀ resource, env.getMaterial (env.toUrl entity.materialURL) = some resource →
        resource.loaded = true → resource.failed = true) :
    ∃ detached rest,
      (self.doRenderUpdateSynchronousTyped env trace entity).2 =
        trace ++ self.detachCall .entity material :: detached ++ rest ∧
      self.deleteMaterial env trace = trace ++ self.detachCall .entity material :: detached ∧
      (∀ event ∈ detached, ∃ kind, event = self.detachCall kind material) ∧
      (∀ event ∈ rest, ∀ id, event.isAttachWith id = true → id = entity.parentID) ∧
      (∀ event ∈ rest, event.isAttachWith self._parentID = false) := by
  obtain ⟨detached, hdetached, hkind⟩ :=
    MaterialEntityRenderer.deleteMaterial_detaches env self trace material hmaterial hparent
  obtain ⟨rest, hrest, hq⟩ :=
    MaterialEntityRenderer.doRenderUpdateSynchronousTyped_parent_changed env self trace entity
      hchange hurl
  refine ⟨detached, rest, ?_, hdetached, hkind, hq, ?_⟩
  · rw [hrest, hdetached]
  · intro event hevent
    cases h : event.isAttachWith self._parentID with
    | false => rfl
    | true => exact absurd (hq event hevent _ h).symm hchange

/-- Witness for C14 amended: the sample renderer when only the parent id of its
entity has changed, from 7 to 9. -/
theorem doRenderUpdateSynchronousTyped_detaches_old_parent_witness :
    ∃ detached rest,
      (sampleRenderer.doRenderUpdateSynchronousTyped sampleMaterialEnv []
          sampleMovedEntity).2 =
        [] ++ sampleRenderer.detachCall .entity [] :: detached ++ rest ∧
      sampleRenderer.deleteMaterial sampleMaterialEnv [] =
        [] ++ sampleRenderer.detachCall .entity [] :: detached ∧
      (∀ event ∈ detached, ∃ kind, event = sampleRenderer.detachCall kind []) ∧
      (∀ event ∈ rest, ∀ id, event.isAttachWith id = true → id = sampleMovedEntity.parentID) ∧
      (∀ event ∈ rest, event.isAttachWith sampleRenderer._parentID = false) :=
  doRenderUpdateSynchronousTyped_detaches_old_parent sampleMaterialEnv sampleRenderer []
    sampleMovedEntity [] (by decide) (by decide) (by decide)
    (fun hne => absurd rfl hne)

/-- C15: for every JSON document that is not a top-level object (null or
invalid, or a top-level array) and every base URL, `parseJSONMaterials`
returns an entirely empty result: no version, an empty material map and an
empty name list. -/
theorem parseJSONMaterials_not_object (env : MaterialEnv) (materialJSON : QJsonDocument)
    (baseUrl : QUrl) (hdocument : materialJSON.isObject = false) :
    (parseJSONMaterials env materialJSON baseUrl).version = none ∧
    (parseJSONMaterials env materialJSON baseUrl).networkMaterials = [] ∧
    (parseJSONMaterials env materialJSON baseUrl).names = [] := by
  unfold parseJSONMaterials
  rw [if_neg (by simp [hdocument])]
  exact ⟨rfl, rfl, rfl⟩

/-- Witness for C15: a top-level array that holds a material object, and the
null document. -/
theorem parseJSONMaterials_not_object_witness :
    ((parseJSONMaterials sampleMaterialEnv
        (QJsonDocument.ofArray (sampleMaterialDocument.object.value "materials").toArray)
        qrcShader).version = none ∧
      (parseJSONMaterials sampleMaterialEnv
        (QJsonDocument.ofArray (sampleMaterialDocument.object.value "materials").toArray)
        qrcShader).networkMaterials = [] ∧
      (parseJSONMaterials sampleMaterialEnv
        (QJsonDocument.ofArray (sampleMaterialDocument.object.value "materials").toArray)
        qrcShader).names = []) ∧
    (parseJSONMaterials sampleMaterialEnv QJsonDocument.null qrcShader).names = [] :=
  ⟨parseJSONMaterials_not_object sampleMaterialEnv _ qrcShader rfl,
    (parseJSONMaterials_not_object sampleMaterialEnv QJsonDocument.null qrcShader rfl).2.2⟩

/-- C16: for every document that is a top-level object (its keys in order)
whose `materials` value is an array, the name list returned by
`parseJSONMaterials` holds the name parsed from every object element of the
array, in the order of the array and with duplicates (elements that are not
objects are skipped); looking up a name in the material map gives the material
parsed from the last element that carries that name, and nothing for a name no
element carries; and the keys of the map are exactly the names in the list. -/
theorem parseJSONMaterials_array (env : MaterialEnv) (materialJSONObject : QJsonObject)
    (baseUrl : QUrl) (materials : QJsonArray)
    (hsorted : materialJSONObject.keysSorted)
    (hmaterials : materialJSONObject.value "materials" = QJsonValue.array materials) :
    (parseJSONMaterials env (QJsonDocument.ofObject materialJSONObject) baseUrl).names =
      (parsedElements env baseUrl materials).map Prod.fst ∧
    (∀ name,
      mapFind (parseJSONMaterials env (QJsonDocument.ofObject materialJSONObject)
          baseUrl).networkMaterials name =
        ((parsedElements env baseUrl materials).reverse.find?
          (fun parsed => decide (parsed.1 = name))).map Prod.snd) ∧
    (∀ name,
      name ∈ (parseJSONMaterials env (QJsonDocument.ofObject materialJSONObject)
          baseUrl).networkMaterials.map Prod.fst ↔
        name ∈ (parseJSONMaterials env (QJsonDocument.ofObject materialJSONObject)
          baseUrl).names) := by
  obtain ⟨hnames, hmap⟩ :=
    parseJSONMaterials_of_array env materialJSONObject baseUrl materials hsorted hmaterials
  refine ⟨hnames, ?_, ?_⟩
  · intro name
    rw [hmap, mapFind_foldl_mapSet]
    simp [mapFind]
  · intro name
    exact (parseJSONMaterials_consistent env _ baseUrl name).symm

/-- Witness for C16: two materials named `a` with different opacities and, in
between, an element that is not an object; the list has `a` twice and the map
gives the second material. -/
theorem parseJSONMaterials_array_witness :
    (parseJSONMaterials sampleMaterialEnv (QJsonDocument.ofObject sampleDuplicateNames)
      qrcShader).names = ["a", "a"] ∧
    mapFind (parseJSONMaterials sampleMaterialEnv (QJsonDocument.ofObject sampleDuplicateNames)
      qrcShader).networkMaterials "a" = some [MaterialSetter.setOpacity 2] :=
  ⟨((parseJSONMaterials_array sampleMaterialEnv sampleDuplicateNames qrcShader _
      (by simp [QJsonObject.keysSorted, QJsonObject.keys, sampleDuplicateNames,
        QJsonObject.ofList, QJsonObject.toList]) rfl).1).trans (by decide),
    ((parseJSONMaterials_array sampleMaterialEnv sampleDuplicateNames qrcShader _
      (by simp [QJsonObject.keysSorted, QJsonObject.keys, sampleDuplicateNames,
        QJsonObject.ofList, QJsonObject.toList]) rfl).2.1 "a").trans (by decide)⟩

/-- C17: for every JSON array of three numbers, `parseJSONColor` succeeds with
the colour made of the three numbers and `isSRGB` true; for every array of
four elements whose first three are numbers it succeeds with the same colour
and `isSRGB` equal to the fourth element if that is a boolean, true otherwise.
Hence the document whose `materials` is the array of the one object with
`name` "a", `model` "hifi_pbr" and `albedo` `[1,0,0]`, parsed with any base
URL, yields exactly one entry, named "a", on which `setAlbedo((1,0,0), true)`
was called (after `setModel`). -/
theorem parseJSONColor_array (env : MaterialEnv) (r g b : ℚ) (color : Vec3) (isSRGB : Bool)
    (baseUrl : QUrl) :
    parseJSONColor env (QJsonValue.array (QJsonArray.ofList
        [QJsonValue.double r, QJsonValue.double g, QJsonValue.double b])) color isSRGB =
      (true, ⟨r, g, b⟩, true) ∧
    (∀ fourth : QJsonValue,
      parseJSONColor env (QJsonValue.array (QJsonArray.ofList
          [QJsonValue.double r, QJsonValue.double g, QJsonValue.double b, fourth]))
          color isSRGB =
        (true, ⟨r, g, b⟩, if fourth.isBool then fourth.toBool else true)) ∧
    parseJSONMaterials env sampleMaterialDocument baseUrl =
      { version := none
        networkMaterials :=
          [("a", [MaterialSetter.setModel "hifi_pbr", MaterialSetter.setAlbedo ⟨1, 0, 0⟩ true])]
        names := ["a"] } := by
  refine ⟨rfl, ?_, rfl⟩
  intro fourth
  cases fourth <;> rfl

/-- C18 as stated fails: for the RGBS array `[1, 0, 0]`, with no fourth
element, `parseJSONColor` succeeds and reports `isSRGB` true, also when the
caller passed false; the colour is not treated as not sRGB. -/
theorem parseJSONColor_default_isSRGB :
    parseJSONColor sampleMaterialEnv (QJsonValue.array (QJsonArray.ofList
        [QJsonValue.double 1, QJsonValue.double 0, QJsonValue.double 0])) ⟨0, 0, 0⟩ false =
      (true, ⟨1, 0, 0⟩, true) := by
  decide

/-- C18 amended: for every RGBS array `[r, g, b]` of three numbers, with the
fourth element omitted, `parseJSONColor` succeeds with the colour `(r, g, b)`
and `isSRGB` true, whatever the colour and the flag held before the call: the
default of index 3 in the code is true.  So in a `hifi_pbr` material an
`albedo` or `emissive` given as such an array is set with that colour as sRGB,
and so is the `albedo` of a `hifi_shader_simple` material. -/
theorem parseJSONColor_omitted_isSRGB (env : MaterialEnv) (r g b : ℚ) :
    (∀ color isSRGB,
      parseJSONColor env (QJsonValue.array (QJsonArray.ofList
          [QJsonValue.double r, QJsonValue.double g, QJsonValue.double b])) color isSRGB =
        (true, ⟨r, g, b⟩, true)) ∧
    (∀ (materialJSON : QJsonObject) (baseUrl : QUrl) (acc : String × Material),
      materialJSON.value "albedo" = QJsonValue.array (QJsonArray.ofList
        [QJsonValue.double r, QJsonValue.double g, QJsonValue.double b]) →
      pbrStep env materialJSON baseUrl acc "albedo" =
          (acc.1, acc.2 ++ [MaterialSetter.setAlbedo ⟨r, g, b⟩ true]) ∧
        shaderSimpleStep env materialJSON acc "albedo" =
          (acc.1, acc.2 ++ [MaterialSetter.setAlbedo ⟨r, g, b⟩ true])) ∧
    (∀ (materialJSON : QJsonObject) (baseUrl : QUrl) (acc : String × Material),
      materialJSON.value "emissive" = QJsonValue.array (QJsonArray.ofList
        [QJsonValue.double r, QJsonValue.double g, QJsonValue.double b]) →
      pbrStep env materialJSON baseUrl acc "emissive" =
        (acc.1, acc.2 ++ [MaterialSetter.setEmissive ⟨r, g, b⟩ true])) := by
  refine ⟨fun _ _ => rfl, ?_, ?_⟩
  · intro materialJSON baseUrl acc halbedo
    constructor
    · unfold pbrStep
      dsimp only
      rw [if_neg (by decide), if_neg (by decide), if_neg (by decide), if_neg (by decide),
        if_pos rfl, halbedo]
      rfl
    · unfold shaderSimpleStep
      dsimp only
      rw [if_neg (by decide), if_neg (by decide), if_pos rfl, halbedo]
      rfl
  · intro materialJSON baseUrl acc hemissive
    unfold pbrStep
    dsimp only
    rw [if_neg (by decide), if_pos rfl, hemissive]
    rfl

/-- Witness for C18 amended: a `hifi_pbr` material whose `albedo` is the array
`[1, 0, 0]` has its albedo set to that colour as sRGB. -/
theorem parseJSONColor_omitted_isSRGB_witness :
    pbrStep sampleMaterialEnv
        (QJsonObject.ofList [("albedo", QJsonValue.array (QJsonArray.ofList
          [QJsonValue.double 1, QJsonValue.double 0, QJsonValue.double 0]))])
        {} ("", []) "albedo" =
      ("", [MaterialSetter.setAlbedo ⟨1, 0, 0⟩ true]) :=
  ((parseJSONColor_omitted_isSRGB sampleMaterialEnv 1 0 0).2.1
    (QJsonObject.ofList [("albedo", QJsonValue.array (QJsonArray.ofList
      [QJsonValue.double 1, QJsonValue.double 0, QJsonValue.double 0]))])
    {} ("", []) (by decide)).1

/-- C19 as stated fails: for the object with `model` "foo" and `name` "a",
`parseJSONMaterial` returns the empty name, not "a". -/
theorem parseJSONMaterial_unknown_model_drops_name :
    (QJsonObject.ofList [("model", QJsonValue.string "foo"),
      ("name", QJsonValue.string "a")]).value "name" = QJsonValue.string "a" ∧
    parseJSONMaterial sampleMaterialEnv
      (QJsonObject.ofList [("model", QJsonValue.string "foo"), ("name", QJsonValue.string "a")])
      qrcShader = ("", [MaterialSetter.setModel "foo"]) := by
  decide

/-- C19 amended: for every material object whose `model` is a string other than
"hifi_pbr" and "hifi_shader_simple", `parseJSONMaterial` returns the empty
name, whatever the `name` member of the object, and a material on which only
`setModel` was called, with that string.  And for every material object, a
member whose key `parseJSONMaterial` does not read for the model of the object
is ignored: the result is the same as without that member. -/
theorem parseJSONMaterial_unknown_model (env : MaterialEnv) (materialJSON : QJsonObject)
    (baseUrl : QUrl) (model : String)
    (hmodel : materialJSON.value "model" = QJsonValue.string model)
    (hpbr : model ≠ "hifi_pbr") (hsimple : model ≠ "hifi_shader_simple") :
    parseJSONMaterial env materialJSON baseUrl = ("", [MaterialSetter.setModel model]) ∧
    (∀ (before after : List (String × QJsonValue)) (key : String) (value : QJsonValue),
      key ∉ keysRead (modelStringOf (QJsonObject.ofList (before ++ after))) →
      parseJSONMaterial env (QJsonObject.ofList (before ++ (key, value) :: after)) baseUrl =
        parseJSONMaterial env (QJsonObject.ofList (before ++ after)) baseUrl) := by
  constructor
  · unfold parseJSONMaterial modelStringOf
    simp [hmodel, QJsonValue.isString, QJsonValue.toString, hpbr, hsimple]
  · intro before after key value hkey
    exact parseJSONMaterial_unread_key env before after key value baseUrl hkey

/-- Witness for C19 amended: the model "foo" with a name and an albedo, and a
`hifi_pbr` object in which the member `colour` is ignored. -/
theorem parseJSONMaterial_unknown_model_witness :
    parseJSONMaterial sampleMaterialEnv
      (QJsonObject.ofList [("albedo", QJsonValue.double 1), ("model", QJsonValue.string "foo"),
        ("name", QJsonValue.string "a")]) qrcShader = ("", [MaterialSetter.setModel "foo"]) ∧
    parseJSONMaterial sampleMaterialEnv
      (QJsonObject.ofList ([] ++ ("colour", QJsonValue.double 1) ::
        [("name", QJsonValue.string "a")])) qrcShader =
      parseJSONMaterial sampleMaterialEnv
        (QJsonObject.ofList ([] ++ [("name", QJsonValue.string "a")])) qrcShader :=
  ⟨(parseJSONMaterial_unknown_model sampleMaterialEnv
      (QJsonObject.ofList [("albedo", QJsonValue.double 1), ("model", QJsonValue.string "foo"),
        ("name", QJsonValue.string "a")]) qrcShader "foo" rfl (by decide) (by decide)).1,
    (parseJSONMaterial_unknown_model sampleMaterialEnv
      (QJsonObject.ofList [("model", QJsonValue.string "foo")]) qrcShader "foo" rfl (by decide)
      (by decide)).2 [] [("name", QJsonValue.string "a")] "colour" (QJsonValue.double 1)
      (by decide)⟩

/-- C20: for every parsed material set (a result of `parseJSONMaterials`) and
every requested name: if the set has at least one material, then after
`setCurrentMaterialName` the current material name is the requested name if
that is a key of the material map and otherwise the first name in declaration
order, and in both cases `getMaterial` returns a material; if the set is
empty, the current name is left unchanged and `getMaterial` returns null. -/
theorem setCurrentMaterialName_resolves (env : MaterialEnv) (materialJSON : QJsonDocument)
    (baseUrl : QUrl) (self : MaterialEntityRenderer) (name : String)
    (hparsed : self._parsedMaterials = parseJSONMaterials env materialJSON baseUrl) :
    (self._parsedMaterials.networkMaterials ≠ [] →
      ∃ first rest, self._parsedMaterials.names = first :: rest ∧
        (self.setCurrentMaterialName name)._currentMaterialName =
          (if name ∈ self._parsedMaterials.networkMaterials.map Prod.fst then name
            else first) ∧
        (self.setCurrentMaterialName name).getMaterial ≠ none) ∧
    (self._parsedMaterials.networkMaterials = [] →
      self._parsedMaterials.names = [] ∧
      (self.setCurrentMaterialName name)._currentMaterialName = self._currentMaterialName ∧
      (self.setCurrentMaterialName name).getMaterial = none) := by
  have hcons : ∀ n, n ∈ self._parsedMaterials.names ↔
      n ∈ self._parsedMaterials.networkMaterials.map Prod.fst := by
    rw [hparsed]
    exact parseJSONMaterials_consistent env materialJSON baseUrl
  constructor
  · intro hne
    obtain ⟨entry, entries, hentries⟩ := List.exists_cons_of_ne_nil hne
    have hkey : entry.1 ∈ self._parsedMaterials.names := by
      rw [hcons, hentries]
      simp
    obtain ⟨first, rest, hnames⟩ := List.exists_cons_of_ne_nil (List.ne_nil_of_mem hkey)
    refine ⟨first, rest, hnames, ?_⟩
    unfold MaterialEntityRenderer.setCurrentMaterialName
    by_cases hn : name ∈ self._parsedMaterials.networkMaterials.map Prod.fst
    · have hsome := (mapFind_isSome_iff _ _).mpr hn
      rw [if_pos hsome, if_pos hn]
      refine ⟨rfl, ?_⟩
      unfold MaterialEntityRenderer.getMaterial
      intro hnone
      rw [show mapFind self._parsedMaterials.networkMaterials name = none from hnone] at hsome
      exact absurd hsome (by simp)
    · have hnot : ¬ (mapFind self._parsedMaterials.networkMaterials name).isSome = true :=
        fun h => hn ((mapFind_isSome_iff _ _).mp h)
      rw [if_neg hnot, if_neg hn, hnames]
      refine ⟨rfl, ?_⟩
      have hfirst : first ∈ self._parsedMaterials.networkMaterials.map Prod.fst := by
        rw [← hcons, hnames]
        exact List.mem_cons_self _ _
      have hsome := (mapFind_isSome_iff _ _).mpr hfirst
      unfold MaterialEntityRenderer.getMaterial
      intro hnone
      rw [show mapFind self._parsedMaterials.networkMaterials first = none from hnone] at hsome
      exact absurd hsome (by simp)
  · intro hempty
    have hnames : self._parsedMaterials.names = [] := by
      apply List.eq_nil_iff_forall_not_mem.mpr
      intro n hn
      rw [hcons, hempty] at hn
      simp at hn
    refine ⟨hnames, ?_⟩
    unfold MaterialEntityRenderer.setCurrentMaterialName
    rw [hempty, hnames]
    refine ⟨rfl, ?_⟩
    show MaterialEntityRenderer.getMaterial self = none
    unfold MaterialEntityRenderer.getMaterial
    rw [hempty]
    rfl

/-- Witness for C20: a renderer holding the set parsed from the sample document
is asked for the name `b`, which is no key, and resolves `a`. -/
theorem setCurrentMaterialName_resolves_witness :
    ∃ first rest,
      (parseJSONMaterials sampleMaterialEnv sampleMaterialDocument qrcShader).names =
        first :: rest ∧
      (({ _parsedMaterials := (parseJSONMaterials sampleMaterialEnv sampleMaterialDocument
          qrcShader) } : MaterialEntityRenderer).setCurrentMaterialName "b")._currentMaterialName =
        (if "b" ∈ (parseJSONMaterials sampleMaterialEnv sampleMaterialDocument
          qrcShader).networkMaterials.map Prod.fst then "b" else first) ∧
      (({ _parsedMaterials := (parseJSONMaterials sampleMaterialEnv sampleMaterialDocument
          qrcShader) } : MaterialEntityRenderer).setCurrentMaterialName "b").getMaterial ≠ none :=
  (setCurrentMaterialName_resolves sampleMaterialEnv sampleMaterialDocument qrcShader
    { _parsedMaterials := (parseJSONMaterials sampleMaterialEnv sampleMaterialDocument qrcShader) }
    "b" rfl).1 (by decide)

/-! ## Further lemmas on the engine -/

namespace Procedural

/-- A custom uniform gets a closure exactly when its value is a number or an array
that is not empty. -/
theorem customUniform_isSome (slot : Int) (value : QJsonValue) :
    (customUniform slot value).isSome =
      (value.isDouble || (value.isArray && value.toArray.size != 0)) := by
  unfold customUniform
  by_cases hd : value.isDouble = true
  · rw [if_pos hd, hd]
    rfl
  · rw [if_neg hd]
    simp only [Bool.not_eq_true] at hd
    rw [hd]
    by_cases ha : value.isArray = true
    · rw [if_pos ha, ha]
      dsimp only
      split <;> simp_all
    · rw [if_neg ha]
      simp only [Bool.not_eq_true] at ha
      rw [ha]
      rfl

/-- Reading a list by index over the range of its length lists its elements with
their indices. -/
theorem range_map_getD_eq_enum (keys : List String) :
    (List.range keys.length).map (fun i => (i, keys.getD i "")) = keys.enum := by
  apply List.ext_getElem
  · simp
  · intro i h1 h2
    simp at h1
    simp [List.getD_eq_getElem, h1]

/-- The closures of `setupUniforms`: those of the keys with their indices, in key
order, then the closure for the standard inputs. -/
theorem setupUniforms_uniforms (env : Env) (self : Procedural) :
    (setupUniforms env self)._uniforms =
      self._data.uniforms.keys.enum.filterMap
        (fun indexed => customUniform (env.Custom + (indexed.1 : Int))
          (self._data.uniforms.value indexed.2)) ++ [UniformLambda.standardInputs] := by
  unfold setupUniforms
  dsimp only
  rw [← range_map_getD_eq_enum, List.filterMap_map]
  rfl

/-- The number of closures for a list of keys is the number of keys whose value
is a number or an array that is not empty. -/
theorem length_filterMap_enumFrom (custom : Int) (value : String → QJsonValue)
    (keys : List String) (start : Nat) :
    ((keys.enumFrom start).filterMap
      (fun indexed => customUniform (custom + (indexed.1 : Int)) (value indexed.2))).length =
      (keys.filter (fun key => (value key).isDouble ||
        ((value key).isArray && (value key).toArray.size != 0))).length := by
  induction keys generalizing start with
  | nil => rfl
  | cons key keys ih =>
    rw [List.enumFrom_cons, List.filterMap_cons, List.filter_cons]
    have h := customUniform_isSome (custom + (start : Int)) (value key)
    cases hc : customUniform (custom + (start : Int)) (value key) with
    | none =>
      rw [hc] at h
      dsimp only
      rw [if_neg (by rw [← h]; simp)]
      exact ih (start + 1)
    | some lambda =>
      rw [hc] at h
      dsimp only
      rw [if_pos (by rw [← h]; rfl), List.length_cons, List.length_cons, ih (start + 1)]

/-- Registering reflection slots for a list of keys leaves the slot of a name
that no key of the list has alone. -/
theorem registerSlots_other (env : Env) (keys : List String) (uniforms : List (String × Int))
    (slot : Int) (name : String) (hname : name ∉ keys.map (uniformName env)) :
    mapFind (keys.foldl
      (fun (acc : List (String × Int) × Int) key =>
        (mapSet acc.1 (uniformName env key) acc.2, acc.2 + 1))
      (uniforms, slot)).1 name = mapFind uniforms name := by
  induction keys generalizing uniforms slot with
  | nil => rfl
  | cons key keys ih =>
    rw [List.foldl_cons, ih _ _ (fun h => hname (List.mem_cons_of_mem _ h)), mapFind_mapSet,
      if_neg (fun (h : uniformName env key = name) =>
        hname (h ▸ List.mem_cons_self _ _))]

/-- Registering reflection slots for a list of keys gives the name of the key
at index `i` the first slot plus `i`, when no later key has the same name. -/
theorem registerSlots_index (env : Env) (keys : List String) (uniforms : List (String × Int))
    (slot : Int) (i : Nat) (key : String) (hkey : keys.get? i = some key)
    (hlast : ∀ j later, i < j → keys.get? j = some later →
      uniformName env later ≠ uniformName env key) :
    mapFind (keys.foldl
      (fun (acc : List (String × Int) × Int) key =>
        (mapSet acc.1 (uniformName env key) acc.2, acc.2 + 1))
      (uniforms, slot)).1 (uniformName env key) = some (slot + (i : Int)) := by
  induction keys generalizing uniforms slot i with
  | nil => simp at hkey
  | cons first keys ih =>
    rw [List.foldl_cons]
    cases i with
    | zero =>
      simp only [List.get?_cons_zero, Option.some.injEq] at hkey
      subst hkey
      have hnot : uniformName env first ∉ keys.map (uniformName env) := by
        intro hmem
        obtain ⟨later, hlater, hsame⟩ := List.mem_map.mp hmem
        obtain ⟨j, hj⟩ := List.get?_of_mem hlater
        exact hlast (j + 1) later (Nat.succ_pos j) (by simpa using hj) hsame
      rw [registerSlots_other env _ _ _ _ hnot, mapFind_mapSet_self]
      simp
    | succ i =>
      simp only [List.get?_cons_succ] at hkey
      rw [ih _ _ i hkey (fun j later hij hj =>
        hlast (j + 1) later (Nat.succ_lt_succ hij) (by simpa using hj))]
      push_cast
      congr 1
      ring

/-- A reflection slot registered for a list of keys under the name of one of
them is the first slot plus the index of a key with that name after which no
key has the name. -/
theorem registerSlots_find (env : Env) (keys : List String) (uniforms : List (String × Int))
    (slot : Int) (name : String) (found : Int) (hname : name ∈ keys.map (uniformName env))
    (hfound : mapFind (keys.foldl
      (fun (acc : List (String × Int) × Int) key =>
        (mapSet acc.1 (uniformName env key) acc.2, acc.2 + 1))
      (uniforms, slot)).1 name = some found) :
    ∃ j key, keys.get? j = some key ∧ uniformName env key = name ∧
      found = slot + (j : Int) ∧
      ∀ k later, j < k → keys.get? k = some later → uniformName env later ≠ name := by
  induction keys generalizing uniforms slot with
  | nil => simp at hname
  | cons first keys ih =>
    rw [List.foldl_cons] at hfound
    by_cases hrest : name ∈ keys.map (uniformName env)
    · obtain ⟨j, key, hj, hk, hf, hl⟩ := ih _ _ hrest hfound
      refine ⟨j + 1, key, by simpa using hj, hk, ?_, ?_⟩
      · rw [hf]
        push_cast
        ring
      · intro k later hjk hlater
        cases k with
        | zero => omega
        | succ k =>
          exact hl k later (Nat.lt_of_succ_lt_succ hjk) (by simpa using hlater)
    · have hfirst : uniformName env first = name := by
        rcases List.mem_cons.mp (by simpa using hname :
          name ∈ uniformName env first :: keys.map (uniformName env)) with h | h
        · exact h.symm
        · exact absurd h hrest
      rw [registerSlots_other env _ _ _ _ hrest, ← hfirst, mapFind_mapSet_self] at hfound
      refine ⟨0, first, rfl, hfirst, ?_, ?_⟩
      · simp only [Option.some.injEq] at hfound
        rw [← hfound]
        simp
      · intro k later hk hlater hsame
        cases k with
        | zero => omega
        | succ k =>
          simp only [List.get?_cons_succ] at hlater
          exact hrest (hsame ▸ List.mem_map.mpr ⟨later, List.get?_mem hlater, rfl⟩)

/-- The reflection slot of the name of the custom uniform key at index `i` in a
filled shader source is `Custom` plus `i` exactly when no later key has the
same name. -/
theorem fillSource_slot (env : Env) (self : Procedural) (template : ShaderSource)
    (block : String) (i : Nat) (key : String)
    (hkey : self._data.uniforms.keys.get? i = some key) :
    mapFind (fillSource env self template block).uniforms (uniformName env key) =
        some (env.Custom + (i : Int)) ↔
      ∀ j later, i < j → self._data.uniforms.keys.get? j = some later →
        uniformName env later ≠ uniformName env key := by
  unfold fillSource
  dsimp only
  constructor
  · intro hfound
    obtain ⟨j, other, hj, hother, hslot, hlast⟩ := registerSlots_find env _ _ _ _ _
      (List.mem_map.mpr ⟨key, List.get?_mem hkey, rfl⟩) hfound
    have hij : i = j := by omega
    subst hij
    exact hlast
  · intro hlast
    exact registerSlots_index env _ _ _ i key hkey hlast

/-- A closure is among those created for a list of keys exactly when it is the
closure of a key at its index. -/
theorem mem_filterMap_enumFrom (custom : Int) (value : String → QJsonValue)
    (keys : List String) (start : Nat) (lambda : UniformLambda) :
    lambda ∈ (keys.enumFrom start).filterMap
        (fun indexed => customUniform (custom + (indexed.1 : Int)) (value indexed.2)) ↔
      ∃ i name, keys.get? i = some name ∧
        customUniform (custom + ((start + i : Nat) : Int)) (value name) = some lambda := by
  induction keys generalizing start with
  | nil => simp
  | cons key keys ih =>
    rw [List.enumFrom_cons, List.filterMap_cons]
    constructor
    · intro h
      have hrest : lambda ∈ (keys.enumFrom (start + 1)).filterMap
          (fun indexed => customUniform (custom + (indexed.1 : Int)) (value indexed.2)) →
          ∃ i name, (key :: keys).get? i = some name ∧
            customUniform (custom + ((start + i : Nat) : Int)) (value name) = some lambda := by
        intro h2
        obtain ⟨i, name, h3, h4⟩ := (ih (start + 1)).mp h2
        refine ⟨i + 1, name, by simpa using h3, ?_⟩
        rw [← h4]
        congr 2
        omega
      cases hc : customUniform (custom + (start : Int)) (value key) with
      | none =>
        rw [hc] at h
        exact hrest h
      | some first =>
        rw [hc] at h
        rcases List.mem_cons.mp h with h | h
        · exact ⟨0, key, rfl, by rw [h]; simpa using hc⟩
        · exact hrest h
    · rintro ⟨i, name, h3, h4⟩
      cases i with
      | zero =>
        simp only [List.get?_cons_zero, Option.some.injEq] at h3
        subst h3
        simp only [Nat.add_zero] at h4
        rw [h4]
        exact List.mem_cons_self _ _
      | succ i =>
        simp only [List.get?_cons_succ] at h3
        have h5 : lambda ∈ (keys.enumFrom (start + 1)).filterMap
            (fun indexed => customUniform (custom + (indexed.1 : Int)) (value indexed.2)) := by
          apply (ih (start + 1)).mpr
          refine ⟨i, name, h3, ?_⟩
          rw [← h4]
          congr 2
          omega
        cases hc : customUniform (custom + (start : Int)) (value key) with
        | none => exact h5
        | some first => exact List.mem_cons_of_mem _ h5

/-- The closure for a custom uniform captures the slot it is created with. -/
theorem customUniform_slot (slot : Int) (value : QJsonValue) (lambda : UniformLambda)
    (h : customUniform slot value = some lambda) : lambda.slot = some slot := by
  unfold customUniform at h
  split_ifs at h
  · cases h
    rfl
  · dsimp only at h
    split at h
    · cases h
    all_goals
      cases h
      rfl

/-- The closures `setupUniforms` creates for the custom uniforms are those of
the keys with their indices. -/
theorem mem_setupUniforms (env : Env) (self : Procedural) (lambda : UniformLambda) :
    lambda ∈ (setupUniforms env self)._uniforms ↔
      lambda = UniformLambda.standardInputs ∨
      ∃ i name, self._data.uniforms.keys.get? i = some name ∧
        customUniform (env.Custom + (i : Int)) (self._data.uniforms.value name) =
          some lambda := by
  rw [setupUniforms_uniforms, List.mem_append, List.mem_singleton]
  unfold List.enum
  rw [mem_filterMap_enumFrom]
  simp only [Nat.zero_add]
  exact or_comm

/-- With the shader dirty the lookup step compiles. -/
theorem lookupOrBuild_dirty (env : Env) (self : Procedural) (key : ProceduralProgramKey)
    (hdirty : self._shaderDirty = true) :
    lookupOrBuild env self key =
      ({ self with
          _proceduralPrograms := mapSet self._proceduralPrograms key (buildProgram env self key)
          _proceduralPipelines := mapSet self._proceduralPipelines key (buildPipeline env self key)
          _start := env.usecTimestampNow
          _frameCount := 0 },
        buildPipeline env self key, true, [buildProgram env self key]) := by
  unfold lookupOrBuild
  rw [hdirty]
  split
  · next h1 h2 => cases h2
  · rfl

/-- The closures `prepare` leaves in `_uniforms`: those of `setupUniforms` when
it recreates them, the old ones otherwise. -/
theorem prepare_uniforms (env : Env) (self : Procedural) (batch : Batch) (position size : Vec3)
    (orientation : Vec4) (key : ProceduralProgramKey) :
    (prepare env self batch position size orientation key).self._uniforms =
      if ((lookupOrBuild env (refreshVertexSource env (refreshFragmentSource env
            { self with
              _entityDimensions := size
              _entityPosition := position
              _entityOrientation := orientation })) key).1._shaderDirty ||
          (lookupOrBuild env (refreshVertexSource env (refreshFragmentSource env
            { self with
              _entityDimensions := size
              _entityPosition := position
              _entityOrientation := orientation })) key).1._uniformsDirty ||
          (lookupOrBuild env (refreshVertexSource env (refreshFragmentSource env
            { self with
              _entityDimensions := size
              _entityPosition := position
              _entityOrientation := orientation })) key).2.2.1 ||
          (lookupOrBuild env (refreshVertexSource env (refreshFragmentSource env
            { self with
              _entityDimensions := size
              _entityPosition := position
              _entityOrientation := orientation })) key).1._prevKey != key) = true then
        (setupUniforms env (lookupOrBuild env (refreshVertexSource env (refreshFragmentSource env
            { self with
              _entityDimensions := size
              _entityPosition := position
              _entityOrientation := orientation })) key).1)._uniforms
      else
        (lookupOrBuild env (refreshVertexSource env (refreshFragmentSource env
            { self with
              _entityDimensions := size
              _entityPosition := position
              _entityOrientation := orientation })) key).1._uniforms := by
  unfold prepare
  dsimp only
  generalize lookupOrBuild env (refreshVertexSource env (refreshFragmentSource env
            { self with
              _entityDimensions := size
              _entityPosition := position
              _entityOrientation := orientation })) key = built
  unfold callUniforms
  split_ifs with hre
  · obtain ⟨i, c, k, hk, -⟩ := foldl_callUniform_eq env
      (setupUniforms env built.1)._uniforms
      { setupUniforms env built.1 with
        _prevKey := key, _shaderDirty := false, _uniformsDirty := false }
      (batch ++ [Command.setPipeline built.2.1])
    dsimp only at hk ⊢
    rw [hk]
  · obtain ⟨i, c, k, hk, -⟩ := foldl_callUniform_eq env
      built.1._uniforms
      { built.1 with
        _prevKey := key, _shaderDirty := false, _uniformsDirty := false }
      (batch ++ [Command.setPipeline built.2.1])
    dsimp only at hk ⊢
    rw [hk]

/-- The fade members are not written by `setProceduralData`. -/
theorem setProceduralData_fade (env : Env) (self : Procedural) (d : ProceduralData) :
    (self.setProceduralData env d)._hasStartedFade = self._hasStartedFade ∧
    (self.setProceduralData env d)._fadeStartTime = self._fadeStartTime := by
  have h1 : ∀ s : Procedural, (applyVersion s d)._hasStartedFade = s._hasStartedFade ∧
      (applyVersion s d)._fadeStartTime = s._fadeStartTime := by
    intro s; unfold applyVersion; split_ifs <;> exact ⟨rfl, rfl⟩
  have h2 : ∀ s : Procedural, (applyUniforms s d)._hasStartedFade = s._hasStartedFade ∧
      (applyUniforms s d)._fadeStartTime = s._fadeStartTime := by
    intro s; unfold applyUniforms; dsimp only; split_ifs <;> exact ⟨rfl, rfl⟩
  have h3 : ∀ s : Procedural, (applyChannels env s d)._hasStartedFade = s._hasStartedFade ∧
      (applyChannels env s d)._fadeStartTime = s._fadeStartTime := by
    intro s; unfold applyChannels; split_ifs <;> exact ⟨rfl, rfl⟩
  have h4 : ∀ s : Procedural,
      (applyFragmentShaderUrl env s d)._hasStartedFade = s._hasStartedFade ∧
      (applyFragmentShaderUrl env s d)._fadeStartTime = s._fadeStartTime := by
    intro s; unfold applyFragmentShaderUrl; dsimp only; split_ifs <;> exact ⟨rfl, rfl⟩
  unfold setProceduralData
  split_ifs
  · exact ⟨rfl, rfl⟩
  · dsimp only
    rw [(h4 _).1, (h4 _).2, (h3 _).1, (h3 _).2, (h2 _).1, (h2 _).2, (h1 _).1, (h1 _).2]
    exact ⟨rfl, rfl⟩

/-- The fade members are not written by the source refresh and lookup steps of
`prepare`. -/
theorem lookupOrBuild_fade (env : Env) (self : Procedural) (key : ProceduralProgramKey) :
    (lookupOrBuild env (refreshVertexSource env (refreshFragmentSource env self))
      key).1._hasStartedFade = self._hasStartedFade ∧
    (lookupOrBuild env (refreshVertexSource env (refreshFragmentSource env self))
      key).1._fadeStartTime = self._fadeStartTime := by
  have h1 : ∀ s : Procedural, (refreshFragmentSource env s)._hasStartedFade = s._hasStartedFade ∧
      (refreshFragmentSource env s)._fadeStartTime = s._fadeStartTime := by
    intro s
    unfold refreshFragmentSource
    dsimp only
    split_ifs
    · exact ⟨rfl, rfl⟩
    · exact ⟨rfl, rfl⟩
    · split
      · split_ifs <;> exact ⟨rfl, rfl⟩
      · exact ⟨rfl, rfl⟩
  have h2 : ∀ s : Procedural, (refreshVertexSource env s)._hasStartedFade = s._hasStartedFade ∧
      (refreshVertexSource env s)._fadeStartTime = s._fadeStartTime := by
    intro s
    unfold refreshVertexSource
    dsimp only
    split_ifs
    · exact ⟨rfl, rfl⟩
    · exact ⟨rfl, rfl⟩
    · split
      · split_ifs <;> exact ⟨rfl, rfl⟩
      · exact ⟨rfl, rfl⟩
  have h3 : ∀ s : Procedural, (lookupOrBuild env s key).1._hasStartedFade = s._hasStartedFade ∧
      (lookupOrBuild env s key).1._fadeStartTime = s._fadeStartTime := by
    intro s
    unfold lookupOrBuild
    split <;> exact ⟨rfl, rfl⟩
  rw [(h3 _).1, (h3 _).2, (h2 _).1, (h2 _).2, (h1 _).1, (h1 _).2]
  exact ⟨rfl, rfl⟩

/-- The fade members are not written by `prepare`. -/
theorem prepare_fade (env : Env) (self : Procedural) (batch : Batch) (position size : Vec3)
    (orientation : Vec4) (key : ProceduralProgramKey) :
    (self.prepare env batch position size orientation key).self._hasStartedFade =
      self._hasStartedFade ∧
    (self.prepare env batch position size orientation key).self._fadeStartTime =
      self._fadeStartTime := by
  obtain ⟨u, i, c, k, hs, -, -, -⟩ := prepare_eq env self batch position size orientation key
  obtain ⟨h1, h2⟩ := lookupOrBuild_fade env
    { self with
      _entityDimensions := size
      _entityPosition := position
      _entityOrientation := orientation } key
  rw [hs]
  exact ⟨h1, h2⟩

/-- Once the latch is set `isReady` writes nothing. -/
theorem isReady_latched (env : Env) (self : Procedural) (hlatch : self._hasStartedFade = true) :
    (self.isReady env).2 = self := by
  unfold isReady
  dsimp only
  simp only [hlatch, Bool.not_true, Bool.false_eq_true, if_false]
  split_ifs <;> rfl

/-- The latch after `isReady`: set when the answer is true, as before when the
answer is false. -/
theorem isReady_latch (env : Env) (self : Procedural) :
    (self.isReady env).2._hasStartedFade = ((self.isReady env).1 || self._hasStartedFade) := by
  unfold isReady
  dsimp only
  cases hl : self._hasStartedFade
  · simp only [Bool.not_false, if_true, Bool.or_false]
    split_ifs <;> first | rfl | exact hl
  · simp only [Bool.not_true, Bool.false_eq_true, if_false, Bool.or_true]
    split_ifs <;> first | rfl | exact hl

/-- A call of a public operation on an engine whose latch is set keeps the
latch and the fade start time. -/
theorem call_latched (self : Procedural) (c : Call) (hlatch : self._hasStartedFade = true) :
    (self.call c)._hasStartedFade = true ∧ (self.call c)._fadeStartTime = self._fadeStartTime := by
  cases c with
  | setProceduralData env d =>
    obtain ⟨h1, h2⟩ := setProceduralData_fade env self d
    exact ⟨h1.trans hlatch, h2⟩
  | isReady env =>
    show ((self.isReady env).2)._hasStartedFade = true ∧
      ((self.isReady env).2)._fadeStartTime = self._fadeStartTime
    rw [isReady_latched env self hlatch]
    exact ⟨hlatch, rfl⟩
  | prepare env batch position size orientation key =>
    obtain ⟨h1, h2⟩ := prepare_fade env self batch position size orientation key
    exact ⟨h1.trans hlatch, h2⟩

/-- A sequence of calls on an engine whose latch is set keeps the latch and the
fade start time. -/
theorem calls_latched (sequence : List Call) (self : Procedural)
    (hlatch : self._hasStartedFade = true) :
    (self.calls sequence)._hasStartedFade = true ∧
    (self.calls sequence)._fadeStartTime = self._fadeStartTime := by
  induction sequence generalizing self with
  | nil => exact ⟨hlatch, rfl⟩
  | cons c sequence ih =>
    obtain ⟨h1, h2⟩ := call_latched self c hlatch
    obtain ⟨h3, h4⟩ := ih (self.call c) h1
    exact ⟨h3, h4.trans h2⟩

/-- The lookup step for one key leaves the pipeline cached under another key. -/
theorem lookupOrBuild_other (env : Env) (self : Procedural) (key other : ProceduralProgramKey)
    (hother : key ≠ other) :
    mapFind (lookupOrBuild env self key).1._proceduralPipelines other =
      mapFind self._proceduralPipelines other := by
  unfold lookupOrBuild
  split
  · rfl
  · exact (mapFind_mapSet _ _ _ _).trans (if_neg hother)

/-- A call of `prepare` for one key leaves the pipeline cached under another
key. -/
theorem prepare_other (env : Env) (self : Procedural) (batch : Batch) (position size : Vec3)
    (orientation : Vec4) (key other : ProceduralProgramKey) (hother : key ≠ other) :
    mapFind (self.prepare env batch position size orientation key).self._proceduralPipelines
      other = mapFind self._proceduralPipelines other := by
  obtain ⟨u, i, c, k, hs, -, -, -⟩ := prepare_eq env self batch position size orientation key
  rw [hs]
  show mapFind (lookupOrBuild env _ key).1._proceduralPipelines other = _
  rw [lookupOrBuild_other env _ key other hother, (refreshVertexSource_frame env _).1,
    (refreshFragmentSource_frame env _).1]

end Procedural

/-! ## Lemmas on URLs and further lemmas on the material parser -/

/-- `contains` holds exactly when the characters of the second string are a
run of consecutive characters of the first. -/
theorem contains_iff (s sub : String) : contains s sub = true ↔ sub.toList <:+: s.toList := by
  unfold contains
  rw [List.any_eq_true]
  constructor
  · rintro ⟨rest, hrest, hprefix⟩
    exact List.infix_iff_prefix_suffix.mpr
      ⟨rest, List.isPrefixOf_iff_prefix.mp hprefix, (List.mem_tails _ _).mp hrest⟩
  · intro h
    obtain ⟨rest, hprefix, hsuffix⟩ := List.infix_iff_prefix_suffix.mp h
    exact ⟨rest, (List.mem_tails _ _).mpr hsuffix, List.isPrefixOf_iff_prefix.mpr hprefix⟩

/-- The characters of an empty string. -/
theorem toList_of_isEmpty (s : String) (h : s.isEmpty = true) : s.toList = [] := by
  cases s with
  | mk data =>
    cases data with
    | nil => rfl
    | cons c cs =>
      exfalso
      simp [String.isEmpty, String.endPos, String.utf8ByteSize, String.utf8ByteSize.go] at h
      have := Char.utf8Size_pos c
      rw [String.Pos.ext_iff] at h
      simp at h
      omega

/-- The host, the path and the query of a URL are parts of its string form. -/
theorem QUrl.toString_parts (u : QUrl) :
    u.host.toList <:+: u.toString.toList ∧ u.path.toList <:+: u.toString.toList ∧
    u.query.toList <:+: u.toString.toList := by
  unfold QUrl.toString
  simp only [String.toList, String.data_append]
  generalize (if u.scheme.isEmpty = true then "" else u.scheme ++ ":").data = before
  refine ⟨?_, ?_, ?_⟩
  · by_cases he : u.host.isEmpty = true
    · have h := toList_of_isEmpty _ he
      simp only [String.toList] at h
      rw [h]
      exact List.nil_infix
    · rw [if_neg he]
      simp only [String.data_append]
      exact ⟨before ++ "//".data, u.path.data ++
        (if u.query.isEmpty = true then "" else "?" ++ u.query).data,
        by simp only [List.append_assoc]⟩
  · exact ⟨before ++ (if u.host.isEmpty = true then "" else "//" ++ u.host).data,
      (if u.query.isEmpty = true then "" else "?" ++ u.query).data, rfl⟩
  · by_cases he : u.query.isEmpty = true
    · have h := toList_of_isEmpty _ he
      simp only [String.toList] at h
      rw [h]
      exact List.nil_infix
    · rw [if_neg he]
      simp only [String.data_append]
      exact ⟨before ++ (if u.host.isEmpty = true then "" else "//" ++ u.host).data ++
        u.path.data ++ "?".data, [],
        by simp only [List.append_assoc, List.append_nil]⟩

/-- A string that occurs in the host, the path or the query of a URL occurs in
its string form. -/
theorem QUrl.toString_contains (u : QUrl) (sub : String)
    (h : contains u.host sub = true ∨ contains u.path sub = true ∨
      contains u.query sub = true) :
    contains u.toString sub = true := by
  obtain ⟨h1, h2, h3⟩ := QUrl.toString_parts u
  rw [contains_iff]
  rcases h with h | h | h
  · exact ((contains_iff _ _).mp h).trans h1
  · exact ((contains_iff _ _).mp h).trans h2
  · exact ((contains_iff _ _).mp h).trans h3

/-- For a key other than `albedoMap` the `hifi_pbr` loop body appends at most
one setter call, which is not a call of `setAlbedoMap`. -/
theorem pbrStep_other_key (env : MaterialEnv) (o : QJsonObject) (baseUrl : QUrl)
    (acc : String × Material) (key : String) (hkey : key ≠ "albedoMap") :
    ∃ added, (pbrStep env o baseUrl acc key).2 = acc.2 ++ added ∧
      ∀ url flag, MaterialSetter.setAlbedoMap url flag ∉ added := by
  unfold pbrStep
  dsimp only
  by_cases h0 : key = "name"
  · rw [if_pos h0]
    split_ifs
    · exact ⟨[], (List.append_nil _).symm, fun _ _ h => by cases h⟩
    · exact ⟨[], (List.append_nil _).symm, fun _ _ h => by cases h⟩
  rw [if_neg h0]
  by_cases h1 : key = "emissive"
  · rw [if_pos h1]
    split_ifs
    · exact ⟨[_], rfl, fun _ _ h => by
        rw [List.mem_singleton] at h
        cases h⟩
    · exact ⟨[], (List.append_nil _).symm, fun _ _ h => by cases h⟩
  rw [if_neg h1]
  by_cases h2 : key = "opacity"
  · rw [if_pos h2]
    split_ifs
    · exact ⟨[_], rfl, fun _ _ h => by
        rw [List.mem_singleton] at h
        cases h⟩
    · exact ⟨[], (List.append_nil _).symm, fun _ _ h => by cases h⟩
  rw [if_neg h2]
  by_cases h3 : key = "unlit"
  · rw [if_pos h3]
    split_ifs
    · exact ⟨[_], rfl, fun _ _ h => by
        rw [List.mem_singleton] at h
        cases h⟩
    · exact ⟨[], (List.append_nil _).symm, fun _ _ h => by cases h⟩
  rw [if_neg h3]
  by_cases h4 : key = "albedo"
  · rw [if_pos h4]
    split_ifs
    · exact ⟨[_], rfl, fun _ _ h => by
        rw [List.mem_singleton] at h
        cases h⟩
    · exact ⟨[], (List.append_nil _).symm, fun _ _ h => by cases h⟩
  rw [if_neg h4]
  by_cases h5 : key = "roughness"
  · rw [if_pos h5]
    split_ifs
    · exact ⟨[_], rfl, fun _ _ h => by
        rw [List.mem_singleton] at h
        cases h⟩
    · exact ⟨[], (List.append_nil _).symm, fun _ _ h => by cases h⟩
  rw [if_neg h5]
  by_cases h6 : key = "metallic"
  · rw [if_pos h6]
    split_ifs
    · exact ⟨[_], rfl, fun _ _ h => by
        rw [List.mem_singleton] at h
        cases h⟩
    · exact ⟨[], (List.append_nil _).symm, fun _ _ h => by cases h⟩
  rw [if_neg h6]
  by_cases h7 : key = "scattering"
  · rw [if_pos h7]
    split_ifs
    · exact ⟨[_], rfl, fun _ _ h => by
        rw [List.mem_singleton] at h
        cases h⟩
    · exact ⟨[], (List.append_nil _).symm, fun _ _ h => by cases h⟩
  rw [if_neg h7]
  by_cases h8 : key = "emissiveMap"
  · rw [if_pos h8]
    split_ifs
    · exact ⟨[_], rfl, fun _ _ h => by
        rw [List.mem_singleton] at h
        cases h⟩
    · exact ⟨[], (List.append_nil _).symm, fun _ _ h => by cases h⟩
  rw [if_neg h8]
  rw [if_neg hkey]
  by_cases h10 : key = "roughnessMap"
  · rw [if_pos h10]
    split_ifs
    · exact ⟨[_], rfl, fun _ _ h => by
        rw [List.mem_singleton] at h
        cases h⟩
    · exact ⟨[], (List.append_nil _).symm, fun _ _ h => by cases h⟩
  rw [if_neg h10]
  by_cases h11 : key = "glossMap"
  · rw [if_pos h11]
    split_ifs
    · exact ⟨[_], rfl, fun _ _ h => by
        rw [List.mem_singleton] at h
        cases h⟩
    · exact ⟨[], (List.append_nil _).symm, fun _ _ h => by cases h⟩
  rw [if_neg h11]
  by_cases h12 : key = "metallicMap"
  · rw [if_pos h12]
    split_ifs
    · exact ⟨[_], rfl, fun _ _ h => by
        rw [List.mem_singleton] at h
        cases h⟩
    · exact ⟨[], (List.append_nil _).symm, fun _ _ h => by cases h⟩
  rw [if_neg h12]
  by_cases h13 : key = "specularMap"
  · rw [if_pos h13]
    split_ifs
    · exact ⟨[_], rfl, fun _ _ h => by
        rw [List.mem_singleton] at h
        cases h⟩
    · exact ⟨[], (List.append_nil _).symm, fun _ _ h => by cases h⟩
  rw [if_neg h13]
  by_cases h14 : key = "normalMap"
  · rw [if_pos h14]
    split_ifs
    · exact ⟨[_], rfl, fun _ _ h => by
        rw [List.mem_singleton] at h
        cases h⟩
    · exact ⟨[], (List.append_nil _).symm, fun _ _ h => by cases h⟩
  rw [if_neg h14]
  by_cases h15 : key = "bumpMap"
  · rw [if_pos h15]
    split_ifs
    · exact ⟨[_], rfl, fun _ _ h => by
        rw [List.mem_singleton] at h
        cases h⟩
    · exact ⟨[], (List.append_nil _).symm, fun _ _ h => by cases h⟩
  rw [if_neg h15]
  by_cases h16 : key = "occlusionMap"
  · rw [if_pos h16]
    split_ifs
    · exact ⟨[_], rfl, fun _ _ h => by
        rw [List.mem_singleton] at h
        cases h⟩
    · exact ⟨[], (List.append_nil _).symm, fun _ _ h => by cases h⟩
  rw [if_neg h16]
  by_cases h17 : key = "scatteringMap"
  · rw [if_pos h17]
    split_ifs
    · exact ⟨[_], rfl, fun _ _ h => by
        rw [List.mem_singleton] at h
        cases h⟩
    · exact ⟨[], (List.append_nil _).symm, fun _ _ h => by cases h⟩
  rw [if_neg h17]
  by_cases h18 : key = "lightMap"
  · rw [if_pos h18]
    split_ifs
    · exact ⟨[_], rfl, fun _ _ h => by
        rw [List.mem_singleton] at h
        cases h⟩
    · exact ⟨[], (List.append_nil _).symm, fun _ _ h => by cases h⟩
  rw [if_neg h18]
  exact ⟨[], (List.append_nil _).symm, fun _ _ h => by cases h⟩

/-- For the key `albedoMap` the `hifi_pbr` loop body calls `setAlbedoMap` when
the value is a string, with the alpha channel in use when `opacityMap` is the
same string. -/
theorem pbrStep_albedoMap (env : MaterialEnv) (o : QJsonObject) (baseUrl : QUrl)
    (acc : String × Material) :
    (pbrStep env o baseUrl acc "albedoMap").2 =
      if (o.value "albedoMap").isString then
        acc.2 ++ [MaterialSetter.setAlbedoMap
          (env.resolved baseUrl (o.value "albedoMap").toString)
          ((o.value "opacityMap").isString &&
            (o.value "opacityMap").toString == (o.value "albedoMap").toString)]
      else acc.2 := by
  unfold pbrStep
  dsimp only
  rw [if_neg (by decide), if_neg (by decide), if_neg (by decide), if_neg (by decide),
    if_neg (by decide), if_neg (by decide), if_neg (by decide), if_neg (by decide),
    if_neg (by decide), if_pos rfl]
  split_ifs <;> rfl

/-- The one branch of the `hifi_pbr` loop body that calls `setAlbedoMap` is the
branch for the key `albedoMap`. -/
theorem pbrStep_mem_setAlbedoMap (env : MaterialEnv) (o : QJsonObject) (baseUrl : QUrl)
    (acc : String × Material) (key : String) (url : QUrl) (flag : Bool) :
    MaterialSetter.setAlbedoMap url flag ∈ (pbrStep env o baseUrl acc key).2 ↔
      MaterialSetter.setAlbedoMap url flag ∈ acc.2 ∨
      (key = "albedoMap" ∧ (o.value "albedoMap").isString = true ∧
        url = env.resolved baseUrl (o.value "albedoMap").toString ∧
        flag = ((o.value "opacityMap").isString &&
          (o.value "opacityMap").toString == (o.value "albedoMap").toString)) := by
  by_cases hkey : key = "albedoMap"
  · subst hkey
    rw [pbrStep_albedoMap]
    by_cases hstring : (o.value "albedoMap").isString = true
    · rw [if_pos hstring, List.mem_append, List.mem_singleton]
      constructor
      · rintro (h | h)
        · exact Or.inl h
        · injection h with h1 h2
          exact Or.inr ⟨rfl, hstring, h1, h2⟩
      · rintro (h | ⟨-, -, h1, h2⟩)
        · exact Or.inl h
        · exact Or.inr (by rw [h1, h2])
    · rw [if_neg hstring]
      constructor
      · exact Or.inl
      · rintro (h | ⟨-, h, -⟩)
        · exact h
        · exact absurd h hstring
  · obtain ⟨added, hadded, hnot⟩ := pbrStep_other_key env o baseUrl acc key hkey
    rw [hadded, List.mem_append]
    constructor
    · rintro (h | h)
      · exact Or.inl h
      · exact absurd h (hnot url flag)
    · rintro (h | ⟨h, -⟩)
      · exact Or.inl h
      · exact absurd h hkey

/-- The calls of `setAlbedoMap` the `hifi_pbr` loop makes. -/
theorem foldl_pbrStep_mem_setAlbedoMap (env : MaterialEnv) (o : QJsonObject) (baseUrl : QUrl)
    (keys : List String) (acc : String × Material) (url : QUrl) (flag : Bool) :
    MaterialSetter.setAlbedoMap url flag ∈ (keys.foldl (pbrStep env o baseUrl) acc).2 ↔
      MaterialSetter.setAlbedoMap url flag ∈ acc.2 ∨
      ("albedoMap" ∈ keys ∧ (o.value "albedoMap").isString = true ∧
        url = env.resolved baseUrl (o.value "albedoMap").toString ∧
        flag = ((o.value "opacityMap").isString &&
          (o.value "opacityMap").toString == (o.value "albedoMap").toString)) := by
  induction keys generalizing acc with
  | nil => simp
  | cons key keys ih =>
    rw [List.foldl_cons, ih, pbrStep_mem_setAlbedoMap, List.mem_cons]
    constructor
    · rintro ((h | ⟨h1, h2⟩) | ⟨h1, h2⟩)
      · exact Or.inl h
      · exact Or.inr ⟨Or.inl h1.symm, h2⟩
      · exact Or.inr ⟨Or.inr h1, h2⟩
    · rintro (h | ⟨h1 | h1, h2⟩)
      · exact Or.inl (Or.inl h)
      · exact Or.inl (Or.inr ⟨h1.symm, h2⟩)
      · exact Or.inr ⟨h1, h2⟩

/-! ## Further lemmas on the material entity renderer -/

namespace MaterialEntityRenderer

/-- The cached copies are not written by `setCurrentMaterialName`. -/
theorem setCurrentMaterialName_cached (self : MaterialEntityRenderer) (name : String) :
    (self.setCurrentMaterialName name).cached = self.cached := by
  unfold setCurrentMaterialName
  split_ifs
  · rfl
  · split <;> rfl

/-- The cached copies are not written by `applyMaterial`. -/
theorem applyMaterial_cached (env : MaterialEnv) (self : MaterialEntityRenderer)
    (trace : List Event) : (applyMaterial env self trace).1.cached = self.cached := by
  cases hm : self.getMaterial with
  | none => rw [applyMaterial_of_none env self trace hm]; rfl
  | some material =>
    cases hp : self._parentID.isNull with
    | true => rw [applyMaterial_of_null env self trace hp]; rfl
    | false =>
      rw [applyMaterial_of_some env self trace material hm hp]
      split_ifs <;> rfl

/-- Of the cached copies `setMaterialURL` writes the material URL only. -/
theorem setMaterialURL_cached (env : MaterialEnv) (self : MaterialEntityRenderer)
    (trace : List Event) (url : String) (materialDataChanged : Bool) :
    (setMaterialURL env self trace url materialDataChanged).1.cached =
      { self.cached with materialURL := url } := by
  unfold setMaterialURL
  dsimp only
  have htaut : (!materialDataChanged ||
      (materialDataChanged || startsWith url "materialData")) = true := by
    cases materialDataChanged <;> rfl
  rw [if_pos htaut]
  split_ifs
  · rw [setCurrentMaterialName_cached]
    rfl
  · rw [setCurrentMaterialName_cached]
    rfl
  · split
    · split_ifs
      · unfold onMaterialRequestFinished
        split_ifs
        · dsimp only
          rw [applyMaterial_cached, setCurrentMaterialName_cached]
          rfl
        · rfl
      · rfl
    · rfl
  · split
    · split_ifs
      · unfold onMaterialRequestFinished
        split_ifs
        · dsimp only
          rw [applyMaterial_cached, setCurrentMaterialName_cached]
          rfl
        · rfl
      · rfl
    · rfl

/-- The material URL block leaves the material URL of the entity in the cache. -/
theorem updateMaterialURL_cached (env : MaterialEnv) (pass : UpdatePass)
    (entity : MaterialEntityItem) :
    (updateMaterialURL env pass entity).self.cached =
      { pass.self.cached with materialURL := entity.materialURL } := by
  unfold updateMaterialURL
  by_cases h : (entity.materialURL != pass.self._materialURL) = true
  · rw [if_pos h]
    dsimp only
    rw [setMaterialURL_cached]
    rfl
  · rw [if_neg h]
    have he : entity.materialURL = pass.self._materialURL := by simpa using h
    rw [he]
    rfl

/-- The parent id block leaves the parent id of the entity in the cache. -/
theorem updateParentID_cached (env : MaterialEnv) (pass : UpdatePass)
    (entity : MaterialEntityItem) :
    (updateParentID env pass entity).self.cached =
      { pass.self.cached with parentID := entity.parentID } := by
  unfold updateParentID
  by_cases h : (entity.parentID != pass.self._parentID) = true
  · rw [if_pos h]
    rfl
  · rw [if_neg h]
    have he : entity.parentID = pass.self._parentID := by simpa using h
    rw [he]
    rfl

/-- The mapping block leaves the mapping of the entity in the cache. -/
theorem updateMapping_cached (env : MaterialEnv) (pass : UpdatePass)
    (entity : MaterialEntityItem) :
    (updateMapping env pass entity).self.cached =
      { pass.self.cached with
        materialMappingPos := entity.materialMappingPos
        materialMappingScale := entity.materialMappingScale
        materialMappingRot := entity.materialMappingRot } := by
  unfold updateMapping
  by_cases h : (entity.materialMappingPos != pass.self._materialMappingPos ||
      entity.materialMappingScale != pass.self._materialMappingScale ||
      entity.materialMappingRot != pass.self._materialMappingRot) = true
  · rw [if_pos h]
    rfl
  · rw [if_neg h]
    simp only [Bool.or_eq_true, bne_iff_ne, ne_eq, not_or, not_not] at h
    obtain ⟨⟨h1, h2⟩, h3⟩ := h
    rw [h1, h2, h3]
    rfl

/-- The priority block leaves the priority of the entity in the cache. -/
theorem updatePriority_cached (env : MaterialEnv) (pass : UpdatePass)
    (entity : MaterialEntityItem) :
    (updatePriority env pass entity).self.cached =
      { pass.self.cached with priority := entity.priority } := by
  unfold updatePriority
  by_cases h : (entity.priority != pass.self._priority) = true
  · rw [if_pos h]
    rfl
  · rw [if_neg h]
    have he : entity.priority = pass.self._priority := by simpa using h
    rw [he]
    rfl

/-- The parent material name block leaves the name of the entity in the cache. -/
theorem updateParentMaterialName_cached (env : MaterialEnv) (pass : UpdatePass)
    (entity : MaterialEntityItem) :
    (updateParentMaterialName env pass entity).self.cached =
      { pass.self.cached with parentMaterialName := entity.parentMaterialName } := by
  unfold updateParentMaterialName
  by_cases h : (entity.parentMaterialName != pass.self._parentMaterialName) = true
  · rw [if_pos h]
    rfl
  · rw [if_neg h]
    have he : entity.parentMaterialName = pass.self._parentMaterialName := by simpa using h
    rw [he]
    rfl

/-- The material data block leaves the material data of the entity in the
cache, and does not change the cached material URL. -/
theorem updateMaterialData_cached (env : MaterialEnv) (pass : UpdatePass)
    (entity : MaterialEntityItem) :
    (updateMaterialData env pass entity).self.cached =
      { pass.self.cached with materialData := entity.materialData } := by
  unfold updateMaterialData
  by_cases h : (entity.materialData != pass.self._materialData) = true
  · rw [if_pos h]
    dsimp only
    generalize (if (!pass.materialNeedsUpdate) = true then
      deleteMaterial env pass.self pass.trace else pass.trace) = deleted
    by_cases hinline : startsWith pass.self._materialURL "materialData" = true
    · rw [if_pos hinline]
      show (setMaterialURL env _ deleted _ true).1.cached = _
      rw [setMaterialURL_cached]
      rfl
    · rw [if_neg hinline]
      rfl
  · rw [if_neg h]
    have he : entity.materialData = pass.self._materialData := by simpa using h
    rw [he]
    rfl

/-- The end of the pass does not write the cached copies. -/
theorem finishUpdate_cached (env : MaterialEnv) (pass : UpdatePass) :
    (finishUpdate env pass).1.cached = pass.self.cached := by
  unfold finishUpdate
  dsimp only
  split_ifs
  · show (applyMaterial env pass.self pass.trace).1.cached = _
    rw [applyMaterial_cached]
  · show (applyMaterial env pass.self pass.trace).1.cached = _
    rw [applyMaterial_cached]
  · rfl

/-- After an update pass the cached copies are the properties of the entity. -/
theorem doRenderUpdateSynchronousTyped_cached (env : MaterialEnv)
    (self : MaterialEntityRenderer) (trace : List Event) (entity : MaterialEntityItem) :
    (doRenderUpdateSynchronousTyped env self trace entity).1.cached = entity := by
  unfold doRenderUpdateSynchronousTyped
  dsimp only
  rw [finishUpdate_cached, updateMaterialData_cached, updateParentMaterialName_cached,
    updatePriority_cached, updateMapping_cached, updateParentID_cached,
    updateMaterialURL_cached]

/-- `needsRenderUpdateFromTypedEntity` answers false exactly when the cached
copies are the properties of the entity. -/
theorem needsRenderUpdateFromTypedEntity_eq_false (self : MaterialEntityRenderer)
    (entity : MaterialEntityItem) :
    self.needsRenderUpdateFromTypedEntity entity = false ↔ self.cached = entity := by
  unfold needsRenderUpdateFromTypedEntity cached
  constructor
  · intro h
    split_ifs at h with h1 h2 h3 h4 h5 h6
    simp only [Bool.or_eq_true, bne_iff_ne, ne_eq, not_or, not_not] at h1 h2 h3 h4 h5 h6
    obtain ⟨⟨h31, h32⟩, h33⟩ := h3
    rw [← h1, ← h2, ← h31, ← h32, ← h33, ← h4, ← h5, ← h6]
  · intro h
    rw [← h]
    simp

/-- The blocks of an update pass for the material URL, the parent id, the
mapping, the priority and the parent material name do nothing when the entity
has the cached values of their properties. -/
theorem updateBlocks_unchanged (env : MaterialEnv) (pass : UpdatePass)
    (entity : MaterialEntityItem)
    (hurl : entity.materialURL = pass.self._materialURL)
    (hparent : entity.parentID = pass.self._parentID)
    (hpos : entity.materialMappingPos = pass.self._materialMappingPos)
    (hscale : entity.materialMappingScale = pass.self._materialMappingScale)
    (hrot : entity.materialMappingRot = pass.self._materialMappingRot)
    (hpriority : entity.priority = pass.self._priority)
    (hname : entity.parentMaterialName = pass.self._parentMaterialName) :
    updateParentMaterialName env (updatePriority env (updateMapping env
      (updateParentID env (updateMaterialURL env pass entity) entity) entity) entity) entity =
      pass := by
  have h1 : updateMaterialURL env pass entity = pass := by
    unfold updateMaterialURL
    rw [if_neg (by simp [hurl])]
  have h2 : updateParentID env pass entity = pass := by
    unfold updateParentID
    rw [if_neg (by simp [hparent])]
  have h3 : updateMapping env pass entity = pass := by
    unfold updateMapping
    rw [if_neg (by simp [hpos, hscale, hrot])]
  have h4 : updatePriority env pass entity = pass := by
    unfold updatePriority
    rw [if_neg (by simp [hpriority])]
  have h5 : updateParentMaterialName env pass entity = pass := by
    unfold updateParentMaterialName
    rw [if_neg (by simp [hname])]
  rw [h1, h2, h3, h4, h5]

/-- An update pass in which only the material data of the entity has changed,
on a renderer whose material URL is not of the `materialData` form and that
has no retry pending: the calls of the pass are those of `deleteMaterial`. -/
theorem doRenderUpdateSynchronousTyped_data_changed (env : MaterialEnv)
    (self : MaterialEntityRenderer) (trace : List Event) (entity : MaterialEntityItem)
    (hinline : startsWith self._materialURL "materialData" = false)
    (hretry : self._retryApply = false)
    (hurl : entity.materialURL = self._materialURL)
    (hparent : entity.parentID = self._parentID)
    (hpos : entity.materialMappingPos = self._materialMappingPos)
    (hscale : entity.materialMappingScale = self._materialMappingScale)
    (hrot : entity.materialMappingRot = self._materialMappingRot)
    (hpriority : entity.priority = self._priority)
    (hname : entity.parentMaterialName = self._parentMaterialName)
    (hdata : entity.materialData ≠ self._materialData) :
    (doRenderUpdateSynchronousTyped env self trace entity).2 = deleteMaterial env self trace := by
  unfold doRenderUpdateSynchronousTyped
  dsimp only
  rw [updateBlocks_unchanged env _ entity hurl hparent hpos hscale hrot hpriority hname]
  unfold updateMaterialData
  rw [if_pos (by simpa using hdata)]
  dsimp only
  rw [if_neg (by simp [hinline])]
  unfold finishUpdate
  dsimp only
  rw [if_neg (by simp [hretry])]
  rfl

/-- The calls of `applyMaterial` are appended to the trace and none of them is
a detach. -/
theorem applyMaterial_no_detach (env : MaterialEnv) (self : MaterialEntityRenderer)
    (trace : List Event) :
    ∃ added, (applyMaterial env self trace).2 = trace ++ added ∧
      ∀ kind parentID material name, Event.removeMaterial kind parentID material name ∉ added := by
  cases hm : self.getMaterial with
  | none =>
    rw [applyMaterial_of_none env self trace hm]
    exact ⟨[], by simp, by simp⟩
  | some material =>
    cases hp : self._parentID.isNull with
    | true =>
      rw [applyMaterial_of_null env self trace hp]
      exact ⟨[], by simp, by simp⟩
    | false =>
      rw [applyMaterial_of_some env self trace material hm hp]
      split_ifs
      · exact ⟨[_], rfl, by simp [attachCall]⟩
      · exact ⟨[_, _], rfl, by simp [attachCall]⟩
      · exact ⟨[_, _, _], rfl, by simp [attachCall]⟩

/-- The calls of the end of an update pass are appended to the trace and none
of them is a detach. -/
theorem finishUpdate_no_detach (env : MaterialEnv) (pass : UpdatePass) :
    ∃ added, (finishUpdate env pass).2 = pass.trace ++ added ∧
      ∀ kind parentID material name, Event.removeMaterial kind parentID material name ∉ added := by
  obtain ⟨added, hadded, hno⟩ := applyMaterial_no_detach env pass.self pass.trace
  unfold finishUpdate
  dsimp only
  split_ifs
  · refine ⟨added ++ [Event.requestRenderUpdate], ?_, ?_⟩
    · rw [hadded, List.append_assoc]
    · intro kind parentID material name h
      rcases List.mem_append.mp h with h | h
      · exact hno kind parentID material name h
      · rw [List.mem_singleton] at h
        cases h
  · exact ⟨added, hadded, hno⟩
  · exact ⟨[], by simp, by simp⟩

/-- With material data in use `setMaterialURL` makes no call. -/
theorem setMaterialURL_inline (env : MaterialEnv) (self : MaterialEntityRenderer)
    (trace : List Event) (url : String) (materialDataChanged : Bool)
    (h : (materialDataChanged || startsWith url "materialData") = true) :
    (setMaterialURL env self trace url materialDataChanged).2 = trace := by
  unfold setMaterialURL
  dsimp only
  rw [if_pos (by rw [h]; simp), if_pos h]

/-- The material URL block when the URL is unchanged or changes to a URL of the
`materialData` form: nothing, or the detach and an update due. -/
theorem updateMaterialURL_once (env : MaterialEnv) (self : MaterialEntityRenderer)
    (trace : List Event) (entity : MaterialEntityItem)
    (hurl : entity.materialURL = self._materialURL ∨
      startsWith entity.materialURL "materialData" = true) :
    updateMaterialURL env { self := self, trace := trace, materialNeedsUpdate := false } entity =
        { self := self, trace := trace, materialNeedsUpdate := false } ∨
      ((updateMaterialURL env { self := self, trace := trace, materialNeedsUpdate := false }
          entity).materialNeedsUpdate = true ∧
        (updateMaterialURL env { self := self, trace := trace, materialNeedsUpdate := false }
          entity).trace = deleteMaterial env self trace) := by
  unfold updateMaterialURL
  by_cases hchanged : (entity.materialURL != self._materialURL) = true
  · have hinline : startsWith entity.materialURL "materialData" = true := by
      rcases hurl with h | h
      · rw [h] at hchanged
        simp at hchanged
      · exact h
    right
    rw [if_pos hchanged]
    dsimp only
    rw [if_pos hinline]
    refine ⟨rfl, ?_⟩
    rw [setMaterialURL_inline env _ _ _ false (by rw [hinline]; rfl)]
    rfl
  · left
    rw [if_neg hchanged]

/-- The parent id block: nothing; or, with no update due yet, the detach; and
with an update due, no call. -/
theorem updateParentID_once (env : MaterialEnv) (pass : UpdatePass)
    (entity : MaterialEntityItem) :
    updateParentID env pass entity = pass ∨
      ((updateParentID env pass entity).materialNeedsUpdate = true ∧
        (updateParentID env pass entity).trace =
          if pass.materialNeedsUpdate then pass.trace
          else deleteMaterial env pass.self pass.trace) := by
  unfold updateParentID
  by_cases hchanged : (entity.parentID != pass.self._parentID) = true
  · right
    rw [if_pos hchanged]
    dsimp only
    cases pass.materialNeedsUpdate <;> exact ⟨rfl, rfl⟩
  · left
    rw [if_neg hchanged]

/-- The mapping block: nothing; or, with no update due yet, the detach; and
with an update due, no call. -/
theorem updateMapping_once (env : MaterialEnv) (pass : UpdatePass)
    (entity : MaterialEntityItem) :
    updateMapping env pass entity = pass ∨
      ((updateMapping env pass entity).materialNeedsUpdate = true ∧
        (updateMapping env pass entity).trace =
          if pass.materialNeedsUpdate then pass.trace
          else deleteMaterial env pass.self pass.trace) := by
  unfold updateMapping
  by_cases hchanged : (entity.materialMappingPos != pass.self._materialMappingPos ||
      entity.materialMappingScale != pass.self._materialMappingScale ||
      entity.materialMappingRot != pass.self._materialMappingRot) = true
  · right
    rw [if_pos hchanged]
    dsimp only
    cases pass.materialNeedsUpdate <;> exact ⟨rfl, rfl⟩
  · left
    rw [if_neg hchanged]

/-- The priority block: nothing; or, with no update due yet, the detach; and
with an update due, no call. -/
theorem updatePriority_once (env : MaterialEnv) (pass : UpdatePass)
    (entity : MaterialEntityItem) :
    updatePriority env pass entity = pass ∨
      ((updatePriority env pass entity).materialNeedsUpdate = true ∧
        (updatePriority env pass entity).trace =
          if pass.materialNeedsUpdate then pass.trace
          else deleteMaterial env pass.self pass.trace) := by
  unfold updatePriority
  by_cases hchanged : (entity.priority != pass.self._priority) = true
  · right
    rw [if_pos hchanged]
    dsimp only
    cases pass.materialNeedsUpdate <;> exact ⟨rfl, rfl⟩
  · left
    rw [if_neg hchanged]

/-- The parent material name block: nothing; or, with no update due yet, the
detach; and with an update due, no call. -/
theorem updateParentMaterialName_once (env : MaterialEnv) (pass : UpdatePass)
    (entity : MaterialEntityItem) :
    updateParentMaterialName env pass entity = pass ∨
      ((updateParentMaterialName env pass entity).materialNeedsUpdate = true ∧
        (updateParentMaterialName env pass entity).trace =
          if pass.materialNeedsUpdate then pass.trace
          else deleteMaterial env pass.self pass.trace) := by
  unfold updateParentMaterialName
  by_cases hchanged : (entity.parentMaterialName != pass.self._parentMaterialName) = true
  · right
    rw [if_pos hchanged]
    dsimp only
    cases pass.materialNeedsUpdate <;> exact ⟨rfl, rfl⟩
  · left
    rw [if_neg hchanged]

/-- The trace after the material data block: as before when the data are
unchanged or an update is due, and the detach otherwise. -/
theorem updateMaterialData_trace (env : MaterialEnv) (pass : UpdatePass)
    (entity : MaterialEntityItem) :
    (updateMaterialData env pass entity).trace =
      if (entity.materialData != pass.self._materialData) = true ∧
          pass.materialNeedsUpdate = false then
        deleteMaterial env pass.self pass.trace
      else pass.trace := by
  unfold updateMaterialData
  by_cases hchanged : (entity.materialData != pass.self._materialData) = true
  · rw [if_pos hchanged]
    dsimp only
    have hset : ∀ (s : MaterialEntityRenderer) (t : List Event),
        startsWith s._materialURL "materialData" = true →
        (setMaterialURL env s t s._materialURL true).2 = t :=
      fun s t _ => setMaterialURL_inline env s t _ true rfl
    cases hflag : pass.materialNeedsUpdate
    · simp only [Bool.not_false, if_true, hchanged, and_self]
      by_cases hinline : startsWith pass.self._materialURL "materialData" = true
      · rw [if_pos hinline]
        exact hset _ _ hinline
      · rw [if_neg hinline]
    · simp only [Bool.not_true, Bool.false_eq_true, if_false, hchanged, and_false]
      rw [if_neg (show ¬(True ∧ true = false) from fun h => by cases h.2)]
      by_cases hinline : startsWith pass.self._materialURL "materialData" = true
      · rw [if_pos hinline]
        exact hset _ _ hinline
      · rw [if_neg hinline]
  · rw [if_neg hchanged, if_neg (fun h => hchanged h.1)]

/-- One of the four middle blocks of an update pass keeps the state "nothing
has happened yet, or an update is due and the one detach has been made". -/
theorem once_step (env : MaterialEnv) (self : MaterialEntityRenderer) (trace : List Event)
    (block : UpdatePass → UpdatePass)
    (hblock : ∀ pass, block pass = pass ∨
      ((block pass).materialNeedsUpdate = true ∧
        (block pass).trace =
          if pass.materialNeedsUpdate then pass.trace
          else deleteMaterial env pass.self pass.trace))
    (pass : UpdatePass)
    (hpass : pass = { self := self, trace := trace, materialNeedsUpdate := false } ∨
      (pass.materialNeedsUpdate = true ∧ pass.trace = deleteMaterial env self trace)) :
    block pass = { self := self, trace := trace, materialNeedsUpdate := false } ∨
      ((block pass).materialNeedsUpdate = true ∧
        (block pass).trace = deleteMaterial env self trace) := by
  rcases hpass with h | ⟨hflag, htrace⟩
  · rcases hblock pass with hb | ⟨hbflag, hbtrace⟩
    · exact Or.inl (hb.trans h)
    · refine Or.inr ⟨hbflag, ?_⟩
      rw [hbtrace, h]
      rfl
  · rcases hblock pass with hb | ⟨hbflag, hbtrace⟩
    · rw [hb]
      exact Or.inr ⟨hflag, htrace⟩
    · refine Or.inr ⟨hbflag, ?_⟩
      rw [hbtrace, hflag, if_pos rfl]
      exact htrace

/-- An update pass in which the material URL is unchanged or changes to a URL
of the `materialData` form: the calls of one `deleteMaterial` on the renderer
as it entered the pass if a cached value differs from the entity, none
otherwise, followed by calls none of which is a detach. -/
theorem doRenderUpdateSynchronousTyped_once (env : MaterialEnv)
    (self : MaterialEntityRenderer) (trace : List Event) (entity : MaterialEntityItem)
    (hurl : entity.materialURL = self._materialURL ∨
      startsWith entity.materialURL "materialData" = true) :
    ∃ rest,
      (doRenderUpdateSynchronousTyped env self trace entity).2 =
        (if self.needsRenderUpdateFromTypedEntity entity then deleteMaterial env self trace
          else trace) ++ rest ∧
      ∀ kind parentID material name,
        Event.removeMaterial kind parentID material name ∉ rest := by
  have h5 := once_step env self trace (fun pass => updateParentMaterialName env pass entity)
    (fun pass => updateParentMaterialName_once env pass entity) _
    (once_step env self trace (fun pass => updatePriority env pass entity)
      (fun pass => updatePriority_once env pass entity) _
      (once_step env self trace (fun pass => updateMapping env pass entity)
        (fun pass => updateMapping_once env pass entity) _
        (once_step env self trace (fun pass => updateParentID env pass entity)
          (fun pass => updateParentID_once env pass entity) _
          (updateMaterialURL_once env self trace entity hurl))))
  dsimp only at h5
  have hcached : (updateParentMaterialName env (updatePriority env (updateMapping env
      (updateParentID env (updateMaterialURL env
        { self := self, trace := trace, materialNeedsUpdate := false } entity) entity) entity)
      entity) entity).self.cached =
      { entity with materialData := self._materialData } := by
    rw [updateParentMaterialName_cached, updatePriority_cached, updateMapping_cached,
      updateParentID_cached, updateMaterialURL_cached]
    rfl
  have htrace : (updateMaterialData env (updateParentMaterialName env (updatePriority env
      (updateMapping env (updateParentID env (updateMaterialURL env
        { self := self, trace := trace, materialNeedsUpdate := false } entity) entity) entity)
      entity) entity) entity).trace =
      if self.needsRenderUpdateFromTypedEntity entity then deleteMaterial env self trace
      else trace := by
    rw [updateMaterialData_trace]
    cases hneeds : self.needsRenderUpdateFromTypedEntity entity with
    | false =>
      have hsame := (needsRenderUpdateFromTypedEntity_eq_false self entity).mp hneeds
      have hfield : ∀ {α : Type} (f : MaterialEntityItem → α), f self.cached = f entity :=
        fun f => congrArg f hsame
      rw [updateBlocks_unchanged env _ entity (hfield (·.materialURL)).symm
        (hfield (·.parentID)).symm (hfield (·.materialMappingPos)).symm
        (hfield (·.materialMappingScale)).symm (hfield (·.materialMappingRot)).symm
        (hfield (·.priority)).symm (hfield (·.parentMaterialName)).symm]
      have hdata : entity.materialData = self._materialData := (hfield (·.materialData)).symm
      rw [if_neg (fun h => by simp [hdata] at h)]
      rfl
    | true =>
      rcases h5 with h | ⟨hflag, ht⟩
      · rw [h] at hcached ⊢
        have hdata : entity.materialData ≠ self._materialData := by
          intro heq
          have hsame : self.cached = entity := by
            rw [show self.cached = { entity with materialData := self._materialData }
              from hcached, ← heq]
          rw [(needsRenderUpdateFromTypedEntity_eq_false self entity).mpr hsame] at hneeds
          cases hneeds
        rw [if_pos ⟨by simpa using hdata, rfl⟩]
        rfl
      · rw [if_neg (fun h => by rw [hflag] at h; cases h.2), ht]
        rfl
  obtain ⟨rest, hrest, hno⟩ := finishUpdate_no_detach env (updateMaterialData env
    (updateParentMaterialName env (updatePriority env (updateMapping env (updateParentID env
      (updateMaterialURL env { self := self, trace := trace, materialNeedsUpdate := false }
        entity) entity) entity) entity) entity) entity)
  refine ⟨rest, ?_, hno⟩
  rw [← htrace, ← hrest]
  rfl

end MaterialEntityRenderer

/-! ## The claims on update passes, rendering, uniforms and the material cache -/

/-- C21 (the code at the failing input): the sample renderer has the material
`a` resolved on the parent with id 7, and its entity now has another material
URL (not of the `materialData` form, and not loaded) and another priority.
The material URL block calls `deleteMaterial` and leaves `materialNeedsUpdate`
false, so the guard of the priority block holds and `deleteMaterial` runs
again: the remove resolvers are dispatched twice in the pass, before the one
attach. -/
theorem doRenderUpdateSynchronousTyped_detaches_twice :
    (sampleRenderer.doRenderUpdateSynchronousTyped sampleMaterialEnv []
        sampleRetargetedEntity).2 =
      [Event.removeMaterial .entity ⟨7⟩ [] "slot",
        Event.removeMaterial .avatar ⟨7⟩ [] "slot",
        Event.removeMaterial .entity ⟨7⟩ [] "slot",
        Event.removeMaterial .avatar ⟨7⟩ [] "slot",
        Event.addMaterial .entity ⟨7⟩
          ⟨[MaterialSetter.setTextureTransforms ⟨0, 0⟩ 0 ⟨0, 0⟩], 1⟩ "slot",
        Event.addMaterial .avatar ⟨7⟩
          ⟨[MaterialSetter.setTextureTransforms ⟨0, 0⟩ 0 ⟨0, 0⟩], 1⟩ "slot"] := by
  decide

/-- C22 (what the code does): for every renderer state, engine and render
arguments: with no material resolved `doRender` leaves the batch, the engine
and the statistics as they are.  With a material resolved and a non-null
parent id it records no model transform and no draw and leaves the statistics
as they are, but it has asked the engine of the material `isReady` before it
looks at the parent id: when that answers false the batch is unchanged, and
when it answers true `prepare` has been called on the engine with the batch,
which now ends with the pipeline bind and the uploads of that call. -/
theorem doRender_with_parent (env : RenderEnv) (self : MaterialEntityRenderer)
    (procedural : Procedural) (args : RenderArgs) :
    (self.getMaterial = none →
      self.doRender env procedural args =
        { self := self, procedural := procedural, args := args }) ∧
    (∀ material, self.getMaterial = some material → self._parentID.isNull = false →
      (procedural.isReady env.engine).1 = false →
      self.doRender env procedural args =
        { self := self, procedural := (procedural.isReady env.engine).2, args := args }) ∧
    (∀ material, self.getMaterial = some material → self._parentID.isNull = false →
      (procedural.isReady env.engine).1 = true →
      (self.doRender env procedural args).self = self ∧
      (self.doRender env procedural args).procedural =
        ((procedural.isReady env.engine).2.prepare env.engine args._batch
          self._renderTransform.translation self._renderTransform.scale
          self._renderTransform.rotation {}).self ∧
      (self.doRender env procedural args).args =
        { args with
          _batch := ((procedural.isReady env.engine).2.prepare env.engine args._batch
            self._renderTransform.translation self._renderTransform.scale
            self._renderTransform.rotation {}).batch } ∧
      ∃ pipeline rest,
        (self.doRender env procedural args).args._batch =
          args._batch ++ Command.setPipeline pipeline :: rest) := by
  refine ⟨?_, ?_, ?_⟩
  · intro hnone
    unfold MaterialEntityRenderer.doRender
    simp only [hnone]
    rfl
  · intro material hsome hparent hready
    unfold MaterialEntityRenderer.doRender
    simp only [hsome, hparent, hready]
    rfl
  · intro material hsome hparent hready
    obtain ⟨u, inputs, count, commands, -, hb, -, -⟩ :=
      Procedural.prepare_eq env.engine (procedural.isReady env.engine).2 args._batch
        self._renderTransform.translation self._renderTransform.scale
        self._renderTransform.rotation {}
    have hrender : self.doRender env procedural args =
        { self := self
          procedural := ((procedural.isReady env.engine).2.prepare env.engine args._batch
            self._renderTransform.translation self._renderTransform.scale
            self._renderTransform.rotation {}).self
          args := { args with
            _batch := ((procedural.isReady env.engine).2.prepare env.engine args._batch
              self._renderTransform.translation self._renderTransform.scale
              self._renderTransform.rotation {}).batch } } := by
      unfold MaterialEntityRenderer.doRender
      simp only [hsome, hparent, hready]
      rfl
    rw [hrender]
    exact ⟨rfl, rfl, rfl, _, commands, hb⟩

/-- C22 at the failing input: the sample renderer has the material `a` resolved
and the parent id 7, and the engine of the material is ready; `doRender` on an
empty batch leaves a batch that is not empty (it starts with a pipeline bind),
and the engine has been prepared: its shader-dirty flag is cleared. -/
theorem doRender_with_parent_witness :
    sampleRenderer._parentID.isNull = false ∧
    sampleEngine._shaderDirty = true ∧
    (sampleRenderer.doRender sampleRenderEnv sampleEngine {}).procedural._shaderDirty = false ∧
    ∃ pipeline rest,
      (sampleRenderer.doRender sampleRenderEnv sampleEngine {}).args._batch =
        ({} : RenderArgs)._batch ++ Command.setPipeline pipeline :: rest :=
  ⟨by decide, by decide, by decide,
    ((doRender_with_parent sampleRenderEnv sampleRenderer sampleEngine {}).2.2 []
      (by decide) (by decide) (by decide)).2.2.2⟩

/-- C23 as stated fails: for the descriptor whose one uniform `k` is the empty
array, `setupUniforms` creates the standard-inputs closure only, so the list
has one closure where the descriptor has one uniform key. -/
theorem setupUniforms_skips_empty_array :
    (({ _data := { uniforms := (QJsonObject.ofList
        [("k", QJsonValue.array (QJsonArray.ofList []))]) } } : Procedural).setupUniforms
      sampleEnv)._uniforms = [UniformLambda.standardInputs] ∧
    (QJsonObject.ofList [("k", QJsonValue.array (QJsonArray.ofList []))]).keys.length + 1 = 2 := by
  decide

/-- C23 amended: for every engine state, after `setupUniforms` the list of
upload closures has one closure for each custom uniform of the descriptor whose
value is a number or an array that is not empty, in key order and with the
slot `Custom` plus the index of the key among all keys, followed by exactly
one standard-inputs closure; its length is the number of those uniforms plus
one.  A number gives a 1-float upload, an array of 1, 2, 3 or 4 elements the
upload of that many floats, an array of more than 4 elements a 4-float upload
of its first four elements (an element that is not a number counts as 0), and
the empty array and every value that is neither a number nor an array give no
closure. -/
theorem setupUniforms_closures (env : Env) (self : Procedural) :
    (self.setupUniforms env)._uniforms =
      self._data.uniforms.keys.enum.filterMap
        (fun indexed => Procedural.customUniform (env.Custom + (indexed.1 : Int))
          (self._data.uniforms.value indexed.2)) ++ [UniformLambda.standardInputs] ∧
    (self.setupUniforms env)._uniforms.length =
      (self._data.uniforms.keys.filter (fun key =>
        (self._data.uniforms.value key).isDouble ||
          ((self._data.uniforms.value key).isArray &&
            (self._data.uniforms.value key).toArray.size != 0))).length + 1 ∧
    (∀ slot x, Procedural.customUniform slot (QJsonValue.double x) =
      some (UniformLambda.uniform1f slot x)) ∧
    (∀ slot a, Procedural.customUniform slot (QJsonValue.array (QJsonArray.ofList [a])) =
      some (UniformLambda.uniform1f slot a.toDouble)) ∧
    (∀ slot a b, Procedural.customUniform slot (QJsonValue.array (QJsonArray.ofList [a, b])) =
      some (UniformLambda.uniform2f slot a.toDouble b.toDouble)) ∧
    (∀ slot a b c,
      Procedural.customUniform slot (QJsonValue.array (QJsonArray.ofList [a, b, c])) =
        some (UniformLambda.uniform3f slot a.toDouble b.toDouble c.toDouble)) ∧
    (∀ slot a b c d more,
      Procedural.customUniform slot
          (QJsonValue.array (QJsonArray.ofList (a :: b :: c :: d :: more))) =
        some (UniformLambda.uniform4f slot a.toDouble b.toDouble c.toDouble d.toDouble)) ∧
    (∀ slot, Procedural.customUniform slot (QJsonValue.array (QJsonArray.ofList [])) = none) ∧
    (∀ slot value, value.isDouble = false → value.isArray = false →
      Procedural.customUniform slot value = none) := by
  refine ⟨Procedural.setupUniforms_uniforms env self, ?_, ?_, ?_, ?_, ?_, ?_, ?_, ?_⟩
  · rw [Procedural.setupUniforms_uniforms, List.length_append, List.length_singleton]
    unfold List.enum
    rw [Procedural.length_filterMap_enumFrom]
  · intro slot x
    rfl
  · intro slot a
    rfl
  · intro slot a b
    rfl
  · intro slot a b c
    rfl
  · intro slot a b c d more
    rfl
  · intro slot
    rfl
  · intro slot value hd ha
    unfold Procedural.customUniform
    rw [if_neg (by simp [hd]), if_neg (by simp [ha])]

/-- C24: for every engine state and every call of `isReady` on it: if the call
returns true, the has-started-fade latch is set after it, and after every
later sequence of calls of `isReady`, `setProceduralData` and `prepare`, in any
environments and with any arguments, the latch is still set and the recorded
fade start time is the one the engine had right after that call; if the call
returns false, the latch is left as it was, so the call does not set it. -/
theorem isReady_fade_latch (env : Env) (self : Procedural) :
    ((self.isReady env).1 = true →
      (self.isReady env).2._hasStartedFade = true ∧
      ∀ later : List Procedural.Call,
        ((self.isReady env).2.calls later)._hasStartedFade = true ∧
        ((self.isReady env).2.calls later)._fadeStartTime =
          (self.isReady env).2._fadeStartTime) ∧
    ((self.isReady env).1 = false →
      (self.isReady env).2._hasStartedFade = self._hasStartedFade) := by
  have hlatch := Procedural.isReady_latch env self
  constructor
  · intro hready
    rw [hready] at hlatch
    have hset : (self.isReady env).2._hasStartedFade = true := by
      rw [hlatch]
      rfl
    exact ⟨hset, fun later => Procedural.calls_latched later _ hset⟩
  · intro hnot
    rw [hnot] at hlatch
    rw [hlatch]
    rfl

/-- Witness for C24: the sample engine is ready in the sample environment at
time 0; a later `isReady` at time 5, a new descriptor and a `prepare` leave the
latch set and the fade start time at 0, and `isReady` on a fresh engine, which
answers false, leaves the latch clear. -/
theorem isReady_fade_latch_witness :
    (sampleEngine.isReady sampleEnv).1 = true ∧
    (((sampleEngine.isReady sampleEnv).2.calls
        [Procedural.Call.isReady { sampleEnv with usecTimestampNow := 5 },
          Procedural.Call.setProceduralData sampleEnv { version := 1 },
          Procedural.Call.prepare sampleEnv [] ⟨0, 0, 0⟩ ⟨1, 1, 1⟩ ⟨0, 0, 0, 1⟩ {}])._hasStartedFade
        = true ∧
      ((sampleEngine.isReady sampleEnv).2.calls
        [Procedural.Call.isReady { sampleEnv with usecTimestampNow := 5 },
          Procedural.Call.setProceduralData sampleEnv { version := 1 },
          Procedural.Call.prepare sampleEnv [] ⟨0, 0, 0⟩ ⟨1, 1, 1⟩ ⟨0, 0, 0, 1⟩ {}])._fadeStartTime
        = (sampleEngine.isReady sampleEnv).2._fadeStartTime) ∧
    ((Procedural.init sampleEnv).isReady sampleEnv).2._hasStartedFade = false :=
  ⟨by decide,
    ((isReady_fade_latch sampleEnv sampleEngine).1 (by decide)).2 _,
    ((isReady_fade_latch sampleEnv (Procedural.init sampleEnv)).2 (by decide)).trans rfl⟩

/-- C25: for every material object of the model `hifi_pbr` (its `model` is
"hifi_pbr" or not a string) whose `albedoMap` is a string, `parseJSONMaterial`
calls `setAlbedoMap` with the `albedoMap` string resolved against the base URL
and with use-alpha-channel true exactly when the object has an `opacityMap`
whose value is a string textually identical to the `albedoMap` string, false
in every other case; it makes no call of `setAlbedoMap` with another URL or
another flag. -/
theorem parseJSONMaterial_albedoMap (env : MaterialEnv) (materialJSON : QJsonObject)
    (baseUrl : QUrl) (urlString : String)
    (hmodel : modelStringOf materialJSON = "hifi_pbr")
    (halbedoMap : materialJSON.value "albedoMap" = QJsonValue.string urlString) :
    ∃ useAlphaChannel,
      (useAlphaChannel = true ↔
        materialJSON.value "opacityMap" = QJsonValue.string urlString) ∧
      MaterialSetter.setAlbedoMap (env.resolved baseUrl urlString) useAlphaChannel ∈
        (parseJSONMaterial env materialJSON baseUrl).2 ∧
      ∀ url flag,
        MaterialSetter.setAlbedoMap url flag ∈ (parseJSONMaterial env materialJSON baseUrl).2 →
        url = env.resolved baseUrl urlString ∧ flag = useAlphaChannel := by
  have hkey : "albedoMap" ∈ materialJSON.keys :=
    QJsonObject.mem_keys_of_value materialJSON "albedoMap" (by rw [halbedoMap]; simp)
  have hparse : (parseJSONMaterial env materialJSON baseUrl).2 =
      (materialJSON.keys.foldl (pbrStep env materialJSON baseUrl)
        ("", if (materialJSON.value "model").isString then
          [MaterialSetter.setModel (modelStringOf materialJSON)] else [])).2 := by
    unfold parseJSONMaterial
    dsimp only
    rw [if_pos hmodel]
  have hinit : ∀ url flag, MaterialSetter.setAlbedoMap url flag ∉
      (("", if (materialJSON.value "model").isString then
          [MaterialSetter.setModel (modelStringOf materialJSON)] else []) :
        String × Material).2 := by
    intro url flag
    dsimp only
    split_ifs <;> simp
  refine ⟨(materialJSON.value "opacityMap").isString &&
    (materialJSON.value "opacityMap").toString == urlString, ?_, ?_, ?_⟩
  · cases hopacity : materialJSON.value "opacityMap" <;>
      simp [QJsonValue.isString, QJsonValue.toString]
  · rw [hparse, foldl_pbrStep_mem_setAlbedoMap]
    refine Or.inr ⟨hkey, ?_, ?_, ?_⟩
    · rw [halbedoMap]
      rfl
    · rw [halbedoMap]
      rfl
    · rw [halbedoMap]
      rfl
  · intro url flag hmem
    rw [hparse, foldl_pbrStep_mem_setAlbedoMap] at hmem
    rcases hmem with h | ⟨-, -, h1, h2⟩
    · exact absurd h (hinit url flag)
    · rw [halbedoMap] at h1 h2
      exact ⟨h1, h2⟩

/-- Witness for C25: with `opacityMap` equal to `albedoMap` the alpha channel is
used. -/
theorem parseJSONMaterial_albedoMap_witness :
    ∃ useAlphaChannel,
      (useAlphaChannel = true ↔
        sampleAlbedoMapMaterial.value "opacityMap" = QJsonValue.string "t.png") ∧
      MaterialSetter.setAlbedoMap (sampleMaterialEnv.resolved qrcShader "t.png")
          useAlphaChannel ∈
        (parseJSONMaterial sampleMaterialEnv sampleAlbedoMapMaterial qrcShader).2 ∧
      ∀ url flag,
        MaterialSetter.setAlbedoMap url flag ∈
          (parseJSONMaterial sampleMaterialEnv sampleAlbedoMapMaterial qrcShader).2 →
        url = sampleMaterialEnv.resolved qrcShader "t.png" ∧ flag = useAlphaChannel :=
  parseJSONMaterial_albedoMap sampleMaterialEnv sampleAlbedoMapMaterial qrcShader "t.png"
    (by decide) (by decide)

/-- C26 as stated fails: for the URL `http://x.json.org/m.txt`, where `.json`
occurs in the host and not in the path, `downloadFinished` does not leave the
empty set: it parses the payload. -/
theorem downloadFinished_parses_for_json_host :
    contains samplePendingResource.url.path ".json" = false ∧
    (samplePendingResource.downloadFinished sampleParsingEnv "").1.parsedMaterials =
      parseJSONMaterials sampleParsingEnv sampleMaterialDocument samplePendingResource.url ∧
    (samplePendingResource.downloadFinished sampleParsingEnv "").1.parsedMaterials.names =
      ["a"] := by
  decide

/-- C26 amended: for every cache entry with URL `u` and every payload,
`downloadFinished` sets the parsed set to
`parseJSONMaterials(QJsonDocument::fromJson(payload), u)` when the string form
of `u` contains `.json`, which is the case whenever `.json` occurs in the
host, in the path or in the query of `u`, and to the empty set when the string
form does not contain it; in both cases it calls `finishedLoading(true)`
exactly once, which leaves the entry loaded and not failed, and it keeps the
URL. -/
theorem downloadFinished_parses (env : MaterialEnv) (self : MaterialResource) (data : String) :
    (contains self.url.toString ".json" = true →
      (self.downloadFinished env data).1.parsedMaterials =
        parseJSONMaterials env (env.fromJson data) self.url) ∧
    (contains self.url.host ".json" = true ∨ contains self.url.path ".json" = true ∨
        contains self.url.query ".json" = true →
      (self.downloadFinished env data).1.parsedMaterials =
        parseJSONMaterials env (env.fromJson data) self.url) ∧
    (contains self.url.toString ".json" = false →
      (self.downloadFinished env data).1.parsedMaterials = {}) ∧
    (self.downloadFinished env data).2 = [true] ∧
    (self.downloadFinished env data).1.loaded = true ∧
    (self.downloadFinished env data).1.failed = false ∧
    (self.downloadFinished env data).1.url = self.url := by
  have hyes : contains self.url.toString ".json" = true →
      (self.downloadFinished env data).1.parsedMaterials =
        parseJSONMaterials env (env.fromJson data) self.url := by
    intro h
    unfold MaterialResource.downloadFinished
    dsimp only
    rw [if_pos h]
    rfl
  refine ⟨hyes, fun h => hyes (QUrl.toString_contains _ _ h), ?_, rfl, ?_, ?_, ?_⟩
  · intro h
    unfold MaterialResource.downloadFinished
    dsimp only
    rw [if_neg (by simp [h])]
    rfl
  all_goals
    unfold MaterialResource.downloadFinished
    dsimp only
    split_ifs <;> rfl

/-- C27 (what the code does): for every engine that caches a pipeline under a
key `k2`, in whatever state of the shader-dirty flag, a call of `prepare` for
a different key `k1` followed by a call of `prepare` for `k2` (the local
shader files, if any, unmodified between the two calls) compiles nothing in
the second call and binds the pipeline that was cached under `k2` before the
two calls: the first call clears the shader-dirty flag, which is one flag for
all keys, after recompiling the pipeline of `k1` only. -/
theorem prepare_other_key_binds_cached (env1 env2 : Env) (self : Procedural)
    (batch1 batch2 : Batch) (position1 size1 position2 size2 : Vec3)
    (orientation1 orientation2 : Vec4) (k1 k2 : ProceduralProgramKey) (cached : Pipeline)
    (hkeys : k1 ≠ k2)
    (hcached : mapFind self._proceduralPipelines k2 = some cached)
    (hfragment : env2.lastModified self._fragmentShaderPath =
      env1.lastModified self._fragmentShaderPath)
    (hvertex : env2.lastModified self._vertexShaderPath =
      env1.lastModified self._vertexShaderPath) :
    ((self.prepare env1 batch1 position1 size1 orientation1 k1).self.prepare env2 batch2
      position2 size2 orientation2 k2).compiled = [] ∧
    ∃ rest,
      ((self.prepare env1 batch1 position1 size1 orientation1 k1).self.prepare env2 batch2
        position2 size2 orientation2 k2).batch = batch2 ++ Command.setPipeline cached :: rest ∧
      ∀ p, Command.setPipeline p ∉ rest := by
  obtain ⟨p1, -, -, p4, p5, p6, p7⟩ :=
    Procedural.prepare_fields env1 self batch1 position1 size1 orientation1 k1
  have hfind : mapFind
      (self.prepare env1 batch1 position1 size1 orientation1 k1).self._proceduralPipelines k2 =
      some cached := by
    rw [Procedural.prepare_other env1 self batch1 position1 size1 orientation1 k1 k2 hkeys]
    exact hcached
  obtain ⟨hc, -, rest, hb, hn⟩ := Procedural.prepare_clean env2
    (self.prepare env1 batch1 position1 size1 orientation1 k1).self batch2 position2 size2
    orientation2 k2 cached p1 hfind
    (by
      intro hne
      rw [p4] at hne ⊢
      rw [p6, hne, hfragment]
      exact le_max_left _ _)
    (by
      intro hne
      rw [p5] at hne ⊢
      rw [p7, hne, hvertex]
      exact le_max_left _ _)
  exact ⟨hc, rest, hb, hn⟩

/-- C27 at the failing input: the sample engine (descriptor version 2) has
pipelines cached for the default key and for the transparent key; its
descriptor is then replaced by one of version 1, which sets shader-dirty.  The
`prepare` for the default key recompiles, and the following `prepare` for the
transparent key compiles nothing and binds the pipeline built before the
change, whose sources define `PROCEDURAL_V2`, where a pipeline built from the
current descriptor defines `PROCEDURAL_V1`. -/
theorem prepare_other_key_binds_cached_witness :
    sampleStaleEngine._shaderDirty = true ∧
    sampleStaleEngine._data.version = 1 ∧
    mapFind sampleStaleEngine._proceduralPipelines { transparent := true } =
      some sampleStalePipeline ∧
    mapFind sampleStalePipeline.program.fragment.replacements "//PROCEDURAL_VERSION" =
      some "#define PROCEDURAL_V2 1" ∧
    mapFind (sampleStaleEngine.buildPipeline sampleEnv
        { transparent := true }).program.fragment.replacements "//PROCEDURAL_VERSION" =
      some "#define PROCEDURAL_V1 1" ∧
    (sampleStaleEngine.prepare sampleEnv [] ⟨0, 0, 0⟩ ⟨1, 1, 1⟩ ⟨0, 0, 0, 1⟩ {}).compiled.length
      = 1 ∧
    ((sampleStaleEngine.prepare sampleEnv [] ⟨0, 0, 0⟩ ⟨1, 1, 1⟩ ⟨0, 0, 0, 1⟩ {}).self.prepare
      sampleEnv [] ⟨0, 0, 0⟩ ⟨1, 1, 1⟩ ⟨0, 0, 0, 1⟩ { transparent := true }).compiled = [] ∧
    ∃ rest,
      ((sampleStaleEngine.prepare sampleEnv [] ⟨0, 0, 0⟩ ⟨1, 1, 1⟩ ⟨0, 0, 0, 1⟩ {}).self.prepare
        sampleEnv [] ⟨0, 0, 0⟩ ⟨1, 1, 1⟩ ⟨0, 0, 0, 1⟩ { transparent := true }).batch =
        [] ++ Command.setPipeline sampleStalePipeline :: rest ∧
      ∀ p, Command.setPipeline p ∉ rest :=
  ⟨by decide, by decide, by decide, by decide, by decide, by decide,
    prepare_other_key_binds_cached sampleEnv sampleEnv sampleStaleEngine [] [] ⟨0, 0, 0⟩
      ⟨1, 1, 1⟩ ⟨0, 0, 0⟩ ⟨1, 1, 1⟩ ⟨0, 0, 0, 1⟩ ⟨0, 0, 0, 1⟩ {} { transparent := true }
      sampleStalePipeline (by decide) (by decide) rfl rfl⟩

/-- C28 (what the code does): for every renderer whose material URL is not of
the `materialData` form, with a material resolved, a non-null parent id and no
retry pending, an update pass in which only the material data of the entity
has changed makes the calls of `deleteMaterial` and no other call: it detaches
the material from the parent (the entity detach with the parent id, the
material and the parent material name, then only further detach calls) and
attempts no attach. -/
theorem doRenderUpdateSynchronousTyped_materialData_detaches (env : MaterialEnv)
    (self : MaterialEntityRenderer) (trace : List Event) (entity : MaterialEntityItem)
    (material : Material)
    (hinline : startsWith self._materialURL "materialData" = false)
    (hmaterial : self.getMaterial = some material)
    (hparentID : self._parentID.isNull = false)
    (hretry : self._retryApply = false)
    (hurl : entity.materialURL = self._materialURL)
    (hparent : entity.parentID = self._parentID)
    (hpos : entity.materialMappingPos = self._materialMappingPos)
    (hscale : entity.materialMappingScale = self._materialMappingScale)
    (hrot : entity.materialMappingRot = self._materialMappingRot)
    (hpriority : entity.priority = self._priority)
    (hname : entity.parentMaterialName = self._parentMaterialName)
    (hdata : entity.materialData ≠ self._materialData) :
    (self.doRenderUpdateSynchronousTyped env trace entity).2 = self.deleteMaterial env trace ∧
    ∃ detached,
      (self.doRenderUpdateSynchronousTyped env trace entity).2 =
        trace ++ self.detachCall .entity material :: detached ∧
      (∀ event ∈ detached, ∃ kind, event = self.detachCall kind material) ∧
      ∀ event ∈ self.detachCall .entity material :: detached,
        ∀ id, event.isAttachWith id = false := by
  have hpass := MaterialEntityRenderer.doRenderUpdateSynchronousTyped_data_changed env self trace
    entity hinline hretry hurl hparent hpos hscale hrot hpriority hname hdata
  obtain ⟨detached, hdetached, hkind⟩ :=
    MaterialEntityRenderer.deleteMaterial_detaches env self trace material hmaterial hparentID
  refine ⟨hpass, detached, hpass.trans hdetached, hkind, ?_⟩
  intro event hevent id
  rcases List.mem_cons.mp hevent with h | h
  · rw [h]
    rfl
  · obtain ⟨kind, hk⟩ := hkind event h
    rw [hk]
    rfl

/-- C28 at the failing input: the sample renderer has the material `a` attached
to the parent with id 7, which the avatar resolver recognises; its entity
differs from the cached values in the material data only.  The pass detaches
the material through the avatar resolver and attaches nothing. -/
theorem doRenderUpdateSynchronousTyped_materialData_detaches_witness :
    (sampleRenderer.doRenderUpdateSynchronousTyped sampleMaterialEnv []
        sampleDataChangedEntity).2 =
      [Event.removeMaterial .entity ⟨7⟩ [] "slot", Event.removeMaterial .avatar ⟨7⟩ [] "slot"] :=
  ((doRenderUpdateSynchronousTyped_materialData_detaches sampleMaterialEnv sampleRenderer []
    sampleDataChangedEntity [] (by decide) (by decide) (by decide) (by decide) (by decide)
    (by decide) (by decide) (by decide) (by decide) (by decide) (by decide)
    (by decide)).1).trans (by decide)

/-- C29 as stated fails: the uniforms object with the keys `a` and `a`, NUL,
`b` has its keys in order, and both keys have the name `a` in `prepare`, which
registers slots under `key.toLocal8Bit().data()`.  The one reflection entry
`a` of a pipeline built from it holds `Custom + 1`, the slot of the second
key, while the closure `setupUniforms` creates for the first key uploads to
`Custom + 0`. -/
theorem custom_uniform_slots_differ :
    sampleNulKeyEngine._data.uniforms.keysSorted ∧
    sampleNulKeyEngine._data.uniforms.keys.get? 0 = some "a" ∧
    Procedural.uniformName sampleEnv "a" = "a" ∧
    Procedural.uniformName sampleEnv "a\x00b" = "a" ∧
    mapFind (sampleNulKeyEngine.buildPipeline sampleEnv {}).program.fragment.uniforms "a" =
      some (220 + 1) ∧
    (sampleNulKeyEngine.setupUniforms sampleEnv)._uniforms =
      [UniformLambda.uniform1f (220 + 0) 1, UniformLambda.uniform1f (220 + 1) 2,
        UniformLambda.standardInputs] := by
  refine ⟨?_, by decide, by decide, by decide, by decide, by decide⟩
  show List.Pairwise (· < ·) ["a", "a\x00b"]
  refine List.Pairwise.cons ?_ (List.Pairwise.cons (by simp) List.Pairwise.nil)
  intro key hkey
  rw [List.mem_singleton.mp hkey, String.lt_iff_toList_lt]
  decide

/-- C29 amended: for every engine state and every uniform key, at index `i` of
`uniforms.keys()`: the reflection slot registered under the name of the key
(`key.toLocal8Bit().data()`, the key in the local 8-bit encoding up to its
first NUL) in the vertex and in the fragment source of every pipeline built
from that state is `Custom + i` exactly when no later key has the same name;
a closure `setupUniforms` creates for the key (there is none for an empty
array or a value that is neither a number nor an array) is in `_uniforms`
with the slot `Custom + i`, whatever the earlier uniforms produce, and every
closure with a slot in `_uniforms` is the closure of a key at the slot `Custom`
plus the index of that key.  So the two slots agree exactly when no later key
has the same name.  In a call of `prepare` on a shader-dirty engine, when no
later key has the same name, the pipeline bound registers the name at
`Custom + i` and the closure left in `_uniforms` for the key has that slot. -/
theorem custom_uniform_slots_agree (env : Env) (self : Procedural) (i : Nat) (key : String)
    (hkey : self._data.uniforms.keys.get? i = some key) :
    (∀ programKey,
      (mapFind (self.buildPipeline env programKey).program.vertex.uniforms
          (Procedural.uniformName env key) = some (env.Custom + (i : Int)) ↔
        ∀ j later, i < j → self._data.uniforms.keys.get? j = some later →
          Procedural.uniformName env later ≠ Procedural.uniformName env key) ∧
      (mapFind (self.buildPipeline env programKey).program.fragment.uniforms
          (Procedural.uniformName env key) = some (env.Custom + (i : Int)) ↔
        ∀ j later, i < j → self._data.uniforms.keys.get? j = some later →
          Procedural.uniformName env later ≠ Procedural.uniformName env key)) ∧
    (∀ lambda,
      Procedural.customUniform (env.Custom + (i : Int)) (self._data.uniforms.value key) =
        some lambda →
      lambda ∈ (self.setupUniforms env)._uniforms ∧ lambda.slot = some (env.Custom + (i : Int))) ∧
    (∀ lambda ∈ (self.setupUniforms env)._uniforms, ∀ slot, lambda.slot = some slot →
      ∃ j other, self._data.uniforms.keys.get? j = some other ∧ slot = env.Custom + (j : Int) ∧
        Procedural.customUniform slot (self._data.uniforms.value other) = some lambda) ∧
    (∀ batch position size orientation programKey, self._shaderDirty = true →
      (∀ j later, i < j → self._data.uniforms.keys.get? j = some later →
        Procedural.uniformName env later ≠ Procedural.uniformName env key) →
      ∃ pipeline rest,
        (self.prepare env batch position size orientation programKey).batch =
          batch ++ Command.setPipeline pipeline :: rest ∧
        mapFind pipeline.program.vertex.uniforms (Procedural.uniformName env key) =
          some (env.Custom + (i : Int)) ∧
        mapFind pipeline.program.fragment.uniforms (Procedural.uniformName env key) =
          some (env.Custom + (i : Int)) ∧
        ∀ lambda,
          Procedural.customUniform (env.Custom + (i : Int)) (self._data.uniforms.value key) =
            some lambda →
          lambda ∈ (self.prepare env batch position size orientation programKey).self._uniforms ∧
          lambda.slot = some (env.Custom + (i : Int))) := by
  refine ⟨?_, ?_, ?_, ?_⟩
  · intro programKey
    exact ⟨Procedural.fillSource_slot env self _ _ i key hkey,
      Procedural.fillSource_slot env self _ _ i key hkey⟩
  · intro lambda hlambda
    exact ⟨(Procedural.mem_setupUniforms env self lambda).mpr (Or.inr ⟨i, key, hkey, hlambda⟩),
      Procedural.customUniform_slot _ _ _ hlambda⟩
  · intro lambda hmem slot hslot
    rcases (Procedural.mem_setupUniforms env self lambda).mp hmem with h | ⟨j, other, hother, hj⟩
    · rw [h] at hslot
      cases hslot
    · have hs := Procedural.customUniform_slot _ _ _ hj
      rw [hslot] at hs
      cases hs
      exact ⟨j, other, hother, rfl, hj⟩
  · intro batch position size orientation programKey hdirty hlast
    obtain ⟨u, inputs, count, commands, -, hb, -, -⟩ :=
      Procedural.prepare_eq env self batch position size orientation programKey
    have hu := Procedural.prepare_uniforms env self batch position size orientation programKey
    have hdata : (Procedural.refreshVertexSource env (Procedural.refreshFragmentSource env
        { self with
          _entityDimensions := size
          _entityPosition := position
          _entityOrientation := orientation }))._data = self._data := by
      rw [Procedural.refreshVertexSource_data, Procedural.refreshFragmentSource_data]
    have hd : (Procedural.refreshVertexSource env (Procedural.refreshFragmentSource env
        { self with
          _entityDimensions := size
          _entityPosition := position
          _entityOrientation := orientation }))._shaderDirty = true := by
      rw [Procedural.refreshVertexSource_shaderDirty, Procedural.refreshFragmentSource_shaderDirty]
      show (self._shaderDirty || _ || _) = true
      rw [hdirty]
      rfl
    rw [Procedural.lookupOrBuild_dirty env _ programKey hd] at hb hu
    rw [if_pos (by simp)] at hu
    refine ⟨_, commands, hb, ?_, ?_, ?_⟩
    · exact (Procedural.fillSource_slot env _ _ _ i key (by rw [hdata]; exact hkey)).mpr
        (by rw [hdata]; exact hlast)
    · exact (Procedural.fillSource_slot env _ _ _ i key (by rw [hdata]; exact hkey)).mpr
        (by rw [hdata]; exact hlast)
    · intro lambda hlambda
      refine ⟨?_, Procedural.customUniform_slot _ _ _ hlambda⟩
      rw [hu]
      apply (Procedural.mem_setupUniforms env _ lambda).mpr
      refine Or.inr ⟨i, key, ?_, ?_⟩
      · show (Procedural.refreshVertexSource env _)._data.uniforms.keys.get? i = some key
        rw [hdata]
        exact hkey
      · show Procedural.customUniform _
          ((Procedural.refreshVertexSource env _)._data.uniforms.value key) = some lambda
        rw [hdata]
        exact hlambda

/-- Witness for C29 amended: the uniforms `a = []`, `b = 5`: the name of `b`, at
index 1 and the last key, has the reflection slot `Custom + 1` and its closure
uploads to that slot, though `a` produces no closure. -/
theorem custom_uniform_slots_agree_witness :
    mapFind (sampleSlotsEngine.buildPipeline sampleEnv {}).program.fragment.uniforms
      (Procedural.uniformName sampleEnv "b") = some (220 + 1) ∧
    UniformLambda.uniform1f (220 + 1) 5 ∈ (sampleSlotsEngine.setupUniforms sampleEnv)._uniforms ∧
    (sampleSlotsEngine.setupUniforms sampleEnv)._uniforms.length = 2 :=
  ⟨((custom_uniform_slots_agree sampleEnv sampleSlotsEngine 1 "b" rfl).1 {}).2.mpr
      (fun j later hj hget => by
        obtain ⟨k, rfl⟩ : ∃ k, j = k + 2 := ⟨j - 2, by omega⟩
        simp [sampleSlotsEngine, QJsonObject.keys, QJsonObject.ofList,
          QJsonObject.toList] at hget),
    ((custom_uniform_slots_agree sampleEnv sampleSlotsEngine 1 "b" rfl).2.1 _ rfl).1,
    by decide⟩

/-- C30: for every renderer state and entity, right after
`doRenderUpdateSynchronousTyped` for the entity the cached copies of the
renderer are the material URL, parent id, mapping position, scale and
rotation, priority, parent material name and material data of the entity, so
`needsRenderUpdateFromTypedEntity` for the entity answers false; and for every
renderer state `needsRenderUpdateFromTypedEntity` answers true exactly when at
least one of those eight cached values differs from that of the entity.
Mapping values are rationals, none of which is a NaN. -/
theorem doRenderUpdateSynchronousTyped_caches (env : MaterialEnv)
    (self : MaterialEntityRenderer) (trace : List Event) (entity : MaterialEntityItem) :
    ((self.doRenderUpdateSynchronousTyped env trace entity).1._materialURL =
        entity.materialURL ∧
      (self.doRenderUpdateSynchronousTyped env trace entity).1._parentID = entity.parentID ∧
      (self.doRenderUpdateSynchronousTyped env trace entity).1._materialMappingPos =
        entity.materialMappingPos ∧
      (self.doRenderUpdateSynchronousTyped env trace entity).1._materialMappingScale =
        entity.materialMappingScale ∧
      (self.doRenderUpdateSynchronousTyped env trace entity).1._materialMappingRot =
        entity.materialMappingRot ∧
      (self.doRenderUpdateSynchronousTyped env trace entity).1._priority = entity.priority ∧
      (self.doRenderUpdateSynchronousTyped env trace entity).1._parentMaterialName =
        entity.parentMaterialName ∧
      (self.doRenderUpdateSynchronousTyped env trace entity).1._materialData =
        entity.materialData) ∧
    (self.doRenderUpdateSynchronousTyped env trace entity).1.needsRenderUpdateFromTypedEntity
      entity = false ∧
    ∀ renderer : MaterialEntityRenderer,
      renderer.needsRenderUpdateFromTypedEntity entity = true ↔
        (renderer._materialURL ≠ entity.materialURL ∨ renderer._parentID ≠ entity.parentID ∨
          renderer._materialMappingPos ≠ entity.materialMappingPos ∨
          renderer._materialMappingScale ≠ entity.materialMappingScale ∨
          renderer._materialMappingRot ≠ entity.materialMappingRot ∨
          renderer._priority ≠ entity.priority ∨
          renderer._parentMaterialName ≠ entity.parentMaterialName ∨
          renderer._materialData ≠ entity.materialData) := by
  have hcached :=
    MaterialEntityRenderer.doRenderUpdateSynchronousTyped_cached env self trace entity
  refine ⟨?_, ?_, ?_⟩
  · have hfield : ∀ {α : Type} (f : MaterialEntityItem → α),
        f (self.doRenderUpdateSynchronousTyped env trace entity).1.cached = f entity :=
      fun f => congrArg f hcached
    exact ⟨hfield (·.materialURL), hfield (·.parentID), hfield (·.materialMappingPos),
      hfield (·.materialMappingScale), hfield (·.materialMappingRot), hfield (·.priority),
      hfield (·.parentMaterialName), hfield (·.materialData)⟩
  · exact (MaterialEntityRenderer.needsRenderUpdateFromTypedEntity_eq_false _ _).mpr hcached
  · intro renderer
    have h := MaterialEntityRenderer.needsRenderUpdateFromTypedEntity_eq_false renderer entity
    constructor
    · intro htrue
      by_contra hnone
      simp only [not_or, not_not] at hnone
      obtain ⟨h1, h2, h3, h4, h5, h6, h7, h8⟩ := hnone
      have hsame : renderer.cached = entity := by
        unfold MaterialEntityRenderer.cached
        rw [h1, h2, h3, h4, h5, h6, h7, h8]
      rw [h.mpr hsame] at htrue
      cases htrue
    · intro hdiff
      cases hneeds : renderer.needsRenderUpdateFromTypedEntity entity with
      | true => rfl
      | false =>
        have hsame := h.mp hneeds
        have hfield : ∀ {α : Type} (f : MaterialEntityItem → α),
            f renderer.cached = f entity := fun f => congrArg f hsame
        rcases hdiff with d | d | d | d | d | d | d | d
        · exact absurd (hfield (·.materialURL)) d
        · exact absurd (hfield (·.parentID)) d
        · exact absurd (hfield (·.materialMappingPos)) d
        · exact absurd (hfield (·.materialMappingScale)) d
        · exact absurd (hfield (·.materialMappingRot)) d
        · exact absurd (hfield (·.priority)) d
        · exact absurd (hfield (·.parentMaterialName)) d
        · exact absurd (hfield (·.materialData)) d

end Hifi
